import Mathlib

/-! ## sharenova-backend: the rendezvous-and-relay server of `src/server.js`

A shallow embedding of the WebSocket relay: the three process-wide maps and
the two counters become an explicit `State`, every handler of the
`eventHandlers` table becomes a function from a state to an `Outcome`, and
the asynchronous parts (`setTimeout`, connection close) become events of a
small event loop `Sys` with an explicit clock.

What the file receives from outside is an explicit input of the model:

* the result of `JSON.parse` on the inbound text (`none` when it throws);
* the values returned by `GenerateShareCode()`, `generateOriginCode()`
  (both live in `./functions`), `Date.now()` and the conversion
  `Number(x)`: the fields of `Env`;
* what `safeSend` observes on a connection when it runs (`ConnStatus`).
-/

namespace ShareNova

/-! ## JavaScript values -/

/-- Primitive JavaScript values. A JS number is a double: `num n` is the
double whose value is the integer `n` (every integer up to 2^53 in size is
one; `num 0` stands for both zeros, which nothing in the server tells
apart), `frac m k` is the double `m / 2^k` that is not an integer (`m` odd,
`1 ≤ k ≤ 1074`), `inf negative` is `Infinity` or `-Infinity` and `nan` is
`NaN`. -/
inductive Prim where
  | undefined
  | null
  | bool (b : Bool)
  | num (n : Int)
  | nan
  | str (s : String)
  | inf (negative : Bool)
  | frac (m : Int) (k : Nat)
  deriving DecidableEq, Repr

/-- Values built by `JSON.parse` and by the object literals of the server.
An `obj` lists each of its own keys once, in insertion order. Arrays and
objects are fresh references: as a `Map` key they equal no stored key. -/
inductive JVal where
  | prim (p : Prim)
  | arr (xs : List JVal)
  | obj (kvs : List (String × JVal))
  deriving Repr

/-- Connections are compared by identity (`socket === ws`). -/
abbrev Conn := Nat

/-- Shorthand for the value `undefined`. -/
def JVal.undefined : JVal := .prim .undefined

/-- Shorthand for a string value. -/
def JVal.ofString (s : String) : JVal := .prim (.str s)

/-- Shorthand for a number value. -/
def JVal.ofNat (n : Nat) : JVal := .prim (.num n)

/-- Own property `name` of an object, if it has one. -/
def ownProp (name : String) : List (String × JVal) → Option JVal
  | [] => none
  | (k, v) :: rest => if k = name then some v else ownProp name rest

/-- Property read `v.name` for the names the server reads on inbound data
(`event`, `destination`, `data`, `files`, `chunk`, `chunkIndex`,
`totalChunks`, `fileName`): no built-in prototype defines any of them, so
only own properties of objects count. The result is `none` when the read
throws a TypeError (`v` is `null` or `undefined`). -/
def JVal.prop (v : JVal) (name : String) : Option JVal :=
  match v with
  | .prim .undefined => none
  | .prim .null => none
  | .obj kvs => some ((ownProp name kvs).getD JVal.undefined)
  | _ => some JVal.undefined

/-- Optional chaining `v?.name`: `undefined` when `v` is nullish. -/
def JVal.optProp (v : JVal) (name : String) : JVal :=
  (v.prop name).getD JVal.undefined

/-- Truthiness of a primitive. -/
def Prim.truthy : Prim → Bool
  | .undefined => false
  | .null => false
  | .bool b => b
  | .num n => n ≠ 0
  | .nan => false
  | .str s => s ≠ ""
  | .inf _ => true
  | .frac m _ => m ≠ 0

/-- Truthiness: every array and object is truthy. -/
def JVal.truthy : JVal → Bool
  | .prim p => p.truthy
  | _ => true

/-- The operator `a || b`. -/
def JVal.orElse (a b : JVal) : JVal := if a.truthy then a else b

/-- Number of UTF-16 code units of a string (`s.length`). -/
def utf16Length (s : String) : Nat :=
  (s.data.map (fun c => if c.val.toNat < 65536 then 1 else 2)).sum

/-- Property read `v.length` on a truthy value: arrays and strings have one,
an object only as an own property, numbers and booleans none. -/
def JVal.length : JVal → JVal
  | .arr xs => JVal.ofNat xs.length
  | .prim (.str s) => JVal.ofNat (utf16Length s)
  | .obj kvs => (ownProp "length" kvs).getD JVal.undefined
  | _ => JVal.undefined

/-- Number of decimal digits of a positive natural number. -/
def decimalLength : Nat → Nat → Nat
  | 0, _ => 0
  | fuel + 1, n => if n < 10 then 1 else decimalLength fuel (n / 10) + 1

/-- Least `z`, counting up from the one given, with `q ≤ p * 10^(z+1)`: the
number of zeros between the decimal point and the first digit of `p / q`. -/
def leadingZeros : Nat → Nat → Nat → Nat → Nat
  | 0, z, _, _ => z
  | fuel + 1, z, p, q => if q ≤ p * 10 ^ (z + 1) then z else leadingZeros fuel (z + 1) p q

/-- The fraction `num / den` times `10^e`, as a fraction. -/
def scale10 (num den : Nat) (e : Int) : Nat × Nat :=
  if 0 ≤ e then (num * 10 ^ e.toNat, den) else (num, den * 10 ^ (-e).toNat)

/-- The digits of `Number::toString` for the positive double `a / 2^j`:
the integers `(s, k, n)` with `k` as small as possible (tried from the `k`
given upward) such that `s` has `k` digits and `s * 10^(n - k)` is a decimal
that reads back as this double, the closest to it when several do. A
decimal reads back as the double when it lies between the midpoints to the
two neighbouring doubles, the midpoints included when the mantissa is
even. -/
def shortest (a j : Nat) : Nat → Nat → Option (Nat × Nat × Int)
  | 0, _ => none
  | fuel + 1, k =>
    let b := Nat.log2 a + 1
    -- everything below is counted in units of 2^-z
    let z := j + 55
    let v := a * 2 ^ 55
    -- the gap to the next double above
    let u := 2 ^ (max (b + 2) (z - 1074))
    -- a normal power of two has its lower neighbour half as far
    let normalPow := decide (a = 2 ^ (b - 1)) && decide (z - 1074 < b + 2)
    let hi := v + u / 2
    let lo := if normalPow then v - u / 4 else v - u / 2
    let closed := decide ((v / u) % 2 = 0)
    -- 10^(n0 - 1) ≤ a / 2^j < 10^n0
    let n0 : Int := if 2 ^ j ≤ a then (decimalLength 400 (a / 2 ^ j) : Int)
      else -((leadingZeros 400 0 a (2 ^ j) : Nat) : Int)
    -- the value times 10^(k - n0), whose floor is the lower candidate
    let w := scale10 a (2 ^ j) ((k : Int) - n0)
    let s0 := w.1 / w.2
    let fits (s : Nat) : Bool :=
      let c := scale10 (s * 2 ^ z) 1 (n0 - (k : Int))
      (decide (lo * c.2 < c.1) || (closed && decide (lo * c.2 = c.1))) &&
      (decide (c.1 < hi * c.2) || (closed && decide (c.1 = hi * c.2)))
    let dLow := w.1 - s0 * w.2
    let dHigh := (s0 + 1) * w.2 - w.1
    let pick : Option Nat :=
      match fits s0 && decide (10 ^ (k - 1) ≤ s0), fits (s0 + 1) with
      | true, true => if dLow < dHigh then some s0 else if dHigh < dLow then some (s0 + 1)
          else if s0 % 2 = 0 then some s0 else some (s0 + 1)
      | true, false => some s0
      | false, true => some (s0 + 1)
      | false, false => none
    match pick with
    | some s => if s = 10 ^ k then some (10 ^ (k - 1), k, n0 + 1) else some (s, k, n0)
    | none => shortest a j fuel (k + 1)

/-- A run of `n` zeros. -/
def zeros (n : Nat) : String := String.mk (List.replicate n '0')

/-- The result of `Number::toString` for the positive double `a / 2^j`:
plain digits when the decimal exponent `n` is between -5 and 21, the
exponent form otherwise. A double needs at most 17 digits. -/
def positiveToString (a j : Nat) : String :=
  match shortest a j 17 1 with
  | none => ""
  | some (s, k, n) =>
    let ds := toString s
    if (k : Int) ≤ n ∧ n ≤ 21 then ds ++ zeros (n - k).toNat
    else if 0 < n ∧ n ≤ 21 then ds.take n.toNat ++ "." ++ ds.drop n.toNat
    else if -6 < n ∧ n ≤ 0 then "0." ++ zeros (-n).toNat ++ ds
    else
      let e := n - 1
      let tail := (if e < 0 then "e-" else "e+") ++ toString e.natAbs
      if k = 1 then ds ++ tail else ds.take 1 ++ "." ++ ds.drop 1 ++ tail

/-- The result of `Number::toString` for the finite double `x / 2^j`. -/
def doubleToString (x : Int) (j : Nat) : String :=
  if x = 0 then "0"
  else if x < 0 then "-" ++ positiveToString x.natAbs j
  else positiveToString x.natAbs j

/-- String conversion of a primitive. An integer up to 2^53 in size prints
as its decimal digits, which is what `Number::toString` gives for it. -/
def Prim.toStr : Prim → String
  | .undefined => "undefined"
  | .null => "null"
  | .bool true => "true"
  | .bool false => "false"
  | .num n => if n.natAbs ≤ 9007199254740992 then toString n else doubleToString n 0
  | .nan => "NaN"
  | .str s => s
  | .inf false => "Infinity"
  | .inf true => "-Infinity"
  | .frac m k => doubleToString m k

/-- Whether an object has the own key `name`. -/
def hasOwn (name : String) (kvs : List (String × JVal)) : Bool :=
  (ownProp name kvs).isSome

mutual
/-- String form of an array element inside `join`: `null` and `undefined`
give the empty string, a nested array is joined in turn, and a parsed
object answers `[object Object]` through the inherited `toString`, unless
an own (never callable) `toString` key shadows it: then no conversion
method is left and a TypeError is thrown (`none`). -/
def JVal.elemStr : JVal → Option String
  | .prim .undefined => some ""
  | .prim .null => some ""
  | .prim p => some p.toStr
  | .arr xs => JVal.join xs
  | .obj kvs => if hasOwn "toString" kvs then none else some "[object Object]"
termination_by structural v => v
/-- The method `Array.prototype.join` with the default separator. -/
def JVal.join : List JVal → Option String
  | [] => some ""
  | x :: rest =>
    match JVal.elemStr x, rest, JVal.join rest with
    | none, _, _ => none
    | some a, [], _ => some a
    | some _, _ :: _, none => none
    | some a, _ :: _, some b => some (a ++ "," ++ b)
termination_by structural xs => xs
end

/-- String conversion `ToString(v)`, also used to turn a value into a
property key; `none` when it throws a TypeError. -/
def JVal.toStr : JVal → Option String
  | .prim p => some p.toStr
  | .arr xs => JVal.join xs
  | .obj kvs => if hasOwn "toString" kvs then none else some "[object Object]"

/-- Conversion `ToPrimitive(v)`, `none` when it throws: arrays and objects
convert through their string form. -/
def JVal.toPrimitive : JVal → Option Prim
  | .prim p => some p
  | v => (JVal.toStr v).map Prim.str

/-- Least `k`, counting up from the one given, with `a / 2^k < 2^53`: the
number of low bits a 53-bit mantissa cannot hold. -/
def shiftFrom : Nat → Nat → Nat → Nat
  | 0, k, _ => k
  | fuel + 1, k, a => if a / 2 ^ k < 9007199254740992 then k else shiftFrom fuel (k + 1) a

/-- Quotient `a / 2^s` rounded to the nearest integer, a tie to the even
one. -/
def roundShift (a s : Nat) : Nat :=
  let ulp := 2 ^ s
  let q := a / ulp
  let r := a % ulp
  if 2 * r < ulp then q else if ulp < 2 * r then q + 1
  else if q % 2 = 0 then q else q + 1

/-- The number `x / 2^k` in lowest terms, as a value. -/
def dyadic : Int → Nat → Prim
  | x, 0 => .num x
  | x, k + 1 => if x % 2 = 0 then dyadic (x / 2) k else .frac x (k + 1)

/-- The double nearest to the real number `x / 2^k` (`k ≤ 1074`), a tie
going to the even mantissa: exact when `x` fits in 53 bits, and
`±Infinity` once the rounded value reaches 2^1024. -/
def roundDyadic (x : Int) (k : Nat) : Prim :=
  let a := x.natAbs
  if a ≤ 9007199254740992 then dyadic x k
  else
    let s := shiftFrom (k + 972) 0 a
    let m := roundShift a s
    if k + 971 < s ∨ (s = k + 971 ∧ m = 9007199254740992) then .inf (decide (x < 0))
    else dyadic (if x < 0 then -((m * 2 ^ s : Nat) : Int) else ((m * 2 ^ s : Nat) : Int)) k

/-- The double nearest to the integer `x`. -/
def roundDouble (x : Int) : Prim := roundDyadic x 0

/-- Conversion `ToNumber(p)` of a primitive that is not a string. -/
def Prim.toNumber : Prim → Prim
  | .undefined => .nan
  | .null => .num 0
  | .bool true => .num 1
  | .bool false => .num 0
  | .str _ => .nan
  | p => p

/-- Sum of two numbers: the exact sum of two finite doubles rounded to the
nearest double, `Infinity - Infinity` and anything with `NaN` being `NaN`. -/
def addNumber : Prim → Prim → Prim
  | .num x, .num y => roundDouble (x + y)
  | .num x, .frac m k => roundDyadic (x * 2 ^ k + m) k
  | .frac m k, .num y => roundDyadic (m + y * 2 ^ k) k
  | .frac m k, .frac n j =>
    roundDyadic (m * 2 ^ (max k j - k) + n * 2 ^ (max k j - j)) (max k j)
  | .inf s, .inf t => if s = t then .inf s else .nan
  | .inf s, .num _ => .inf s
  | .inf s, .frac _ _ => .inf s
  | .num _, .inf t => .inf t
  | .frac _ _, .inf t => .inf t
  | _, _ => .nan

/-- Whether a primitive is a string. -/
def Prim.isStr : Prim → Bool
  | .str _ => true
  | _ => false

/-- The operator `a + b` on primitives: concatenation as soon as one side
is a string, numeric addition otherwise. -/
def Prim.add (a b : Prim) : Prim :=
  if a.isStr || b.isStr then .str (a.toStr ++ b.toStr)
  else addNumber a.toNumber b.toNumber

/-- The operator `a + b` with a primitive left operand, `none` when the
conversion of the right operand throws. -/
def jsAdd (a : Prim) (b : JVal) : Option Prim :=
  (b.toPrimitive).map (fun p => a.add p)

/-- Strict equality `n === v` of a chunk count with a JS value: true only
for a number holding the same integer. -/
def strictEqNum (n : Nat) (v : JVal) : Bool :=
  match v with
  | .prim (.num k) => k = (n : Int)
  | _ => false

/-! ## The `Map` objects -/

/-- A JavaScript `Map` whose keys are primitives, as its entries in
insertion order. A `Map` holds each key once. -/
structure JMap (V : Type) where
  entries : List (Prim × V)
  deriving DecidableEq, Repr

namespace JMap

variable {V : Type}

/-- The map `new Map()`. -/
def empty : JMap V := ⟨[]⟩

/-- Association-list lookup. -/
def getList (k : Prim) : List (Prim × V) → Option V
  | [] => none
  | (k', v) :: rest => if k' = k then some v else getList k rest

/-- Association-list update: an existing key keeps its position. -/
def setList (k : Prim) (v : V) : List (Prim × V) → List (Prim × V)
  | [] => [(k, v)]
  | (k', v') :: rest => if k' = k then (k, v) :: rest else (k', v') :: setList k v rest

/-- Method `m.get(k)` for a primitive key; `none` is `undefined`. -/
def get (m : JMap V) (k : Prim) : Option V := getList k m.entries

/-- Method `m.has(k)`. -/
def has (m : JMap V) (k : Prim) : Bool := (m.get k).isSome

/-- Method `m.set(k, v)`. -/
def set (m : JMap V) (k : Prim) (v : V) : JMap V := ⟨setList k v m.entries⟩

/-- Method `m.delete(k)`. -/
def delete (m : JMap V) (k : Prim) : JMap V :=
  ⟨m.entries.filter (fun e => decide (e.1 ≠ k))⟩

/-- Method `m.get(key)` for any value: an array or object key matches no
entry. -/
def getJ (m : JMap V) (key : JVal) : Option V :=
  match key with
  | .prim p => m.get p
  | _ => none

/-- The keys of a map are pairwise distinct. -/
def WF (m : JMap V) : Prop := (m.entries.map Prod.fst).Nodup

end JMap

/-! ## Server state -/

/-- A TransferState object `{ total, received, fileName }`. `received` is a
count of chunks, which the double holding it represents exactly up to 2^53
chunks. -/
structure Transfer where
  total : JVal
  received : Nat
  fileName : JVal

/-- The module-level variables of `server.js`. -/
structure State where
  NoOfVisitors : Nat
  NoOfFilesTransferred : Prim
  shareCodeMap : JMap Conn
  originCodeMap : JMap Conn
  transferMap : JMap Transfer

/-- The state right after the module is loaded. -/
def State.init : State :=
  { NoOfVisitors := 0
    NoOfFilesTransferred := .num 0
    shareCodeMap := JMap.empty
    originCodeMap := JMap.empty
    transferMap := JMap.empty }

/-- Every map of the state holds each key once. -/
def State.WF (st : State) : Prop :=
  st.shareCodeMap.WF ∧ st.originCodeMap.WF ∧ st.transferMap.WF

/-- Constant `MAX_BUFFER_SIZE` (10MB). -/
def MAX_BUFFER_SIZE : Nat := 10 * 1024 * 1024

/-- Constant `TRANSFER_TIMEOUT` (5 min), in milliseconds. -/
def TRANSFER_TIMEOUT : Nat := 5 * 60 * 1000

/-- Constant `WebSocket.OPEN`. -/
def OPEN : Nat := 1

/-! ## Sending -/

/-- What `safeSend` reads on a connection: `ws.readyState` and
`ws._socket?.writableLength` (`none` when there is no `_socket`). -/
structure ConnStatus where
  readyState : Nat
  writableLength : Option Nat
  deriving DecidableEq, Repr

/-- The test `ws._socket?.writableLength > MAX_BUFFER_SIZE`: comparing
`undefined` is false. -/
def ConnStatus.congested (s : ConnStatus) : Bool :=
  match s.writableLength with
  | some n => decide (n > MAX_BUFFER_SIZE)
  | none => false

/-- A callback handed to `setTimeout`: the retry closure of `safeSend` or
the expiry closure of `scheduleTransferCleanup`. -/
inductive Timer where
  | safeSend (ws : Conn) (message : JVal) (attempt : Nat)
  | transferCleanup (destination : Prim)

/-- What a call does to the outside world: `ws.send(JSON.stringify(message))`
on a connection, or `setTimeout(cb, delay)`. -/
inductive Effect where
  | send (ws : Conn) (message : JVal)
  | setTimeout (cb : Timer) (delay : Nat)

/-- One run of `safeSend(ws, message, attempt)` (lines 20-30) on a
connection whose status is `s` when the function reads it: nothing when it
is not open, one `setTimeout` of the retry with `attempt + 1` when the
buffer is above the mark, the write otherwise. -/
def safeSend (s : ConnStatus) (ws : Conn) (message : JVal) (attempt : Nat) : List Effect :=
  if s.readyState ≠ OPEN then []
  else if s.congested then
    [Effect.setTimeout (Timer.safeSend ws message (attempt + 1)) (min (100 * 2 ^ attempt) 2000)]
  else [Effect.send ws message]

/-- The callback of `scheduleTransferCleanup(destination)` (lines 42-46),
run when its timer fires. -/
def transferCleanup (st : State) (destination : Prim) : State :=
  if st.transferMap.has destination then
    { st with transferMap := st.transferMap.delete destination }
  else st

/-- One loop of `cleanupConnection`: every entry met whose value is `ws` is
deleted by its key. Deleting the entry under the cursor does not disturb
the iteration of a `Map`, so the loop visits the entries present at its
start. -/
def sweep (ws : Conn) (m : JMap Conn) : JMap Conn :=
  m.entries.foldl (fun acc e => if e.2 = ws then acc.delete e.1 else acc) m

/-- Function `cleanupConnection(ws)` (lines 32-39). -/
def cleanupConnection (st : State) (ws : Conn) : State :=
  { st with
    shareCodeMap := sweep ws st.shareCodeMap
    originCodeMap := sweep ws st.originCodeMap }

/-! ## Handlers -/

/-- What a handler run gets from outside `server.js`: the conversion
`Number(x)` (`none` when it throws), the codes the two generators of
`./functions` return when called, and `Date.now()`. -/
structure Env where
  Number : JVal → Option Prim
  shareCode : Prim
  originCode : Prim
  now : Int

/-- A call a handler makes besides updating the maps: `safeSend(ws, message)`
or `scheduleTransferCleanup(destination)`. What `safeSend` then does depends
on the connection alone, see `safeSend`. -/
inductive Action where
  | safeSend (ws : Conn) (message : JVal)
  | scheduleTransferCleanup (destination : Prim)

/-- Result of running a handler: the state it leaves, the calls it made in
order, and whether it ended by throwing (the state and calls are then those
made before the throw). -/
structure Outcome where
  st : State
  acts : List Action
  threw : Bool

/-- A normal return. -/
def Outcome.done (st : State) (acts : List Action) : Outcome := ⟨st, acts, false⟩

/-- An uncaught TypeError. -/
def Outcome.raise (st : State) (acts : List Action) : Outcome := ⟨st, acts, true⟩

/-! The object literals the handlers pass to `safeSend`. -/

/-- Literal `{ event: "HEARTBEAT", data: { timestamp } }`. -/
def heartbeatMessage (timestamp : Int) : JVal :=
  .obj [("event", .ofString "HEARTBEAT"),
        ("data", .obj [("timestamp", .prim (.num timestamp))])]

/-- Literal `{ event: "SHARE_CODE", data: shareCode }`. -/
def shareCodeMessage (shareCode : Prim) : JVal :=
  .obj [("event", .ofString "SHARE_CODE"), ("data", .prim shareCode)]

/-- Literal `{ event: "CONNECTION_REQUEST", data: { AssignedOriginCOde, success: true } }`. -/
def requestAckMessage (originCode : Prim) : JVal :=
  .obj [("event", .ofString "CONNECTION_REQUEST"),
        ("data", .obj [("AssignedOriginCOde", .prim originCode),
                       ("success", .prim (.bool true))])]

/-- Literal `{ event: "CONNECTION_REQUEST", origin: originCode }`. -/
def requestNoticeMessage (originCode : Prim) : JVal :=
  .obj [("event", .ofString "CONNECTION_REQUEST"), ("origin", .prim originCode)]

/-- Literal `{ event: "CONNECTION_REQUEST", data: { success: false } }`. -/
def requestFailedMessage : JVal :=
  .obj [("event", .ofString "CONNECTION_REQUEST"),
        ("data", .obj [("success", .prim (.bool false))])]

/-- Literal `{ event: "CONNECTION_ACCEPT", origin: newCode, data: { success: true, files } }`. -/
def acceptMessage (newCode : Prim) (files : JVal) : JVal :=
  .obj [("event", .ofString "CONNECTION_ACCEPT"), ("origin", .prim newCode),
        ("data", .obj [("success", .prim (.bool true)), ("files", files)])]

/-- Literal `{ event: "FILE_CHUNK", data: { chunk, chunkIndex, totalChunks, fileName } }`. -/
def fileChunkMessage (chunk chunkIndex totalChunks fileName : JVal) : JVal :=
  .obj [("event", .ofString "FILE_CHUNK"),
        ("data", .obj [("chunk", chunk), ("chunkIndex", chunkIndex),
                       ("totalChunks", totalChunks), ("fileName", fileName)])]

/-- Literal `{ event: "FILE_COMPLETE", data: { fileName } }`. -/
def fileCompleteMessage (fileName : JVal) : JVal :=
  .obj [("event", .ofString "FILE_COMPLETE"), ("data", .obj [("fileName", fileName)])]

/-- Literal `{ event: data.event, data: data.data }`. -/
def relayMessage (event data : JVal) : JVal :=
  .obj [("event", event), ("data", data)]

namespace eventHandlers

/-- Handler `HEARTBEAT` (line 50). -/
def HEARTBEAT (env : Env) (st : State) (ws : Conn) : Outcome :=
  Outcome.done st [Action.safeSend ws (heartbeatMessage env.now)]

/-- Handler `REQUIST_SHARE_CODE` (lines 52-56), under the key the source
spells this way. -/
def REQUIST_SHARE_CODE (env : Env) (st : State) (ws : Conn) : Outcome :=
  let shareCode := env.shareCode
  let st1 := { st with shareCodeMap := st.shareCodeMap.set shareCode ws }
  Outcome.done st1 [Action.safeSend ws (shareCodeMessage shareCode)]

/-- Handler `CONNECTION_REQUEST` (lines 58-77). The origin code is bound
before the share code is looked up, so the binding is made on both
branches, and also when reading or converting `data.destination` throws. -/
def CONNECTION_REQUEST (env : Env) (st : State) (ws : Conn) (data : JVal) : Outcome :=
  let originCode := env.originCode
  let st1 := { st with originCodeMap := st.originCodeMap.set originCode ws }
  match data.prop "destination" with
  | none => Outcome.raise st1 []
  | some destination =>
    match env.Number destination with
    | none => Outcome.raise st1 []
    | some code =>
      match st1.shareCodeMap.get code with
      | some receiverWs =>
        Outcome.done st1
          [Action.safeSend ws (requestAckMessage originCode),
           Action.safeSend receiverWs (requestNoticeMessage originCode)]
      | none =>
        Outcome.done st1 [Action.safeSend ws requestFailedMessage]

/-- Handler `CONNECTION_ACCEPT` (lines 79-91). The receiver is looked up
before the new code is bound. `files` is `data.data?.files || []`, and the
counter update is the operator `+=` on whatever `files.length` is. -/
def CONNECTION_ACCEPT (env : Env) (st : State) (ws : Conn) (data : JVal) : Outcome :=
  match data.prop "destination" with
  | none => Outcome.raise st []
  | some destination =>
    match st.originCodeMap.getJ destination with
    | none => Outcome.done st []
    | some receiver =>
      let newCode := env.originCode
      let st1 := { st with originCodeMap := st.originCodeMap.set newCode ws }
      let files := ((data.optProp "data").optProp "files").orElse (.arr [])
      match jsAdd st1.NoOfFilesTransferred files.length with
      | none => Outcome.raise st1 []
      | some total =>
        Outcome.done { st1 with NoOfFilesTransferred := total }
          [Action.safeSend receiver (acceptMessage newCode files)]

/-- Handler `FILE_CHUNK` (lines 93-120). Destructuring `data.data` throws
when it is `null` or `undefined`. The TransferState is created with
`received: 0` when the destination has none, incremented in place, and
deleted when `received === total`; the `FILE_COMPLETE` message carries the
`fileName` of the chunk at hand. The branch where `transferMap.get` finds
nothing after the `set` stands for the TypeError of `transfer.received++`
on `undefined`. -/
def FILE_CHUNK (st : State) (data : JVal) : Outcome :=
  match data.prop "data" with
  | none => Outcome.raise st []
  | some payload =>
    match payload.prop "chunk", payload.prop "totalChunks",
          payload.prop "chunkIndex", payload.prop "fileName" with
    | some chunk, some totalChunks, some chunkIndex, some fileName =>
      match data.optProp "destination" with
      | .prim destination =>
        match st.originCodeMap.get destination with
        | none => Outcome.done st []
        | some receiver =>
          let fresh := !st.transferMap.has destination
          let map1 :=
            if fresh then
              st.transferMap.set destination
                { total := totalChunks, received := 0, fileName := fileName }
            else st.transferMap
          let scheduled :=
            if fresh then [Action.scheduleTransferCleanup destination] else []
          match map1.get destination with
          | none => Outcome.raise { st with transferMap := map1 } scheduled
          | some transfer0 =>
            let transfer := { transfer0 with received := transfer0.received + 1 }
            let map2 := map1.set destination transfer
            let relay := Action.safeSend receiver
              (fileChunkMessage chunk chunkIndex totalChunks fileName)
            if strictEqNum transfer.received transfer.total then
              Outcome.done { st with transferMap := map2.delete destination }
                (scheduled ++ [relay, Action.safeSend receiver (fileCompleteMessage fileName)])
            else
              Outcome.done { st with transferMap := map2 } (scheduled ++ [relay])
      | _ => Outcome.done st []
    | _, _, _, _ => Outcome.raise st []

/-- Handler `DEFAULT` (lines 122-125). -/
def DEFAULT (st : State) (data : JVal) : Outcome :=
  match data.prop "destination" with
  | none => Outcome.raise st []
  | some destination =>
    match st.originCodeMap.getJ destination with
    | none => Outcome.done st []
    | some receiver =>
      Outcome.done st
        [Action.safeSend receiver (relayMessage (data.optProp "event") (data.optProp "data"))]

/-- What the lookup `eventHandlers[key]` finds: one of the six functions of
the table, or a member inherited from `Object.prototype`, which the table,
a plain object literal, also answers for. Called as `handler(ws, data)`
with no receiver, `Object` and `Object.prototype.toString` return without
touching anything (`inheritedQuiet`); the other inherited functions convert
their missing receiver to an object and throw, and `__proto__` is not a
function at all (`inheritedThrow`). -/
inductive Entry where
  | HEARTBEAT
  | REQUIST_SHARE_CODE
  | CONNECTION_REQUEST
  | CONNECTION_ACCEPT
  | FILE_CHUNK
  | DEFAULT
  | inheritedQuiet
  | inheritedThrow
  deriving DecidableEq, Repr

/-- The property read `eventHandlers[key]`; `none` is `undefined`. -/
def lookup (key : String) : Option Entry :=
  if key = "HEARTBEAT" then some .HEARTBEAT
  else if key = "REQUIST_SHARE_CODE" then some .REQUIST_SHARE_CODE
  else if key = "CONNECTION_REQUEST" then some .CONNECTION_REQUEST
  else if key = "CONNECTION_ACCEPT" then some .CONNECTION_ACCEPT
  else if key = "FILE_CHUNK" then some .FILE_CHUNK
  else if key = "DEFAULT" then some .DEFAULT
  else if key = "constructor" ∨ key = "toString" then some .inheritedQuiet
  else if key = "toLocaleString" ∨ key = "valueOf" ∨ key = "hasOwnProperty"
      ∨ key = "isPrototypeOf" ∨ key = "propertyIsEnumerable"
      ∨ key = "__defineGetter__" ∨ key = "__defineSetter__"
      ∨ key = "__lookupGetter__" ∨ key = "__lookupSetter__"
      ∨ key = "__proto__" then some .inheritedThrow
  else none

/-- The call `handler(ws, data)` for what the lookup found. -/
def call (h : Entry) (env : Env) (st : State) (ws : Conn) (data : JVal) : Outcome :=
  match h with
  | .HEARTBEAT => HEARTBEAT env st ws
  | .REQUIST_SHARE_CODE => REQUIST_SHARE_CODE env st ws
  | .CONNECTION_REQUEST => CONNECTION_REQUEST env st ws data
  | .CONNECTION_ACCEPT => CONNECTION_ACCEPT env st ws data
  | .FILE_CHUNK => FILE_CHUNK st data
  | .DEFAULT => DEFAULT st data
  | .inheritedQuiet => Outcome.done st []
  | .inheritedThrow => Outcome.raise st []

end eventHandlers

/-- The listener `ws.on("message", ...)` (lines 131-140): `parsed` is the
result of `JSON.parse(msg)`, `none` when it throws. Reading `data.event`
throws on `null`; the lookup converts the event to a property key. -/
def onMessage (env : Env) (st : State) (ws : Conn) (parsed : Option JVal) : Outcome :=
  match parsed with
  | none => Outcome.done st []
  | some data =>
    match data.prop "event" with
    | none => Outcome.raise st []
    | some event =>
      match event.toStr with
      | none => Outcome.raise st []
      | some key =>
        eventHandlers.call ((eventHandlers.lookup key).getD .DEFAULT) env st ws data

/-! ## The event loop -/

/-- What one call of a handler does outside the maps, given the status the
connection shows when the call runs. -/
def Action.run (status : Conn → ConnStatus) : Action → List Effect
  | .safeSend ws message => ShareNova.safeSend (status ws) ws message 0
  | .scheduleTransferCleanup destination =>
    [Effect.setTimeout (Timer.transferCleanup destination) TRANSFER_TIMEOUT]

/-- The effects of the calls of a handler, in order; `status k` is what the
connections show when call number `k` runs. -/
def runActions (status : Nat → Conn → ConnStatus) : List Action → List Effect
  | [] => []
  | a :: rest => a.run (status 0) ++ runActions (fun k => status (k + 1)) rest

/-- The messages written by a list of effects, in order. -/
def sends : List Effect → List (Conn × JVal)
  | [] => []
  | .send ws message :: rest => (ws, message) :: sends rest
  | .setTimeout _ _ :: rest => sends rest

/-- The server with its pending timers on a millisecond clock: `timers`
holds each pending callback with the instant from which it may run, `sent`
the messages written so far. -/
structure Sys where
  now : Nat
  st : State
  timers : List (Nat × Timer)
  sent : List (Conn × JVal)

/-- The server right after start. -/
def Sys.init : Sys := { now := 0, st := State.init, timers := [], sent := [] }

/-- Carrying out effects: a write is logged, a `setTimeout(cb, delay)` is
queued for `now + delay`. -/
def Sys.perform (s : Sys) : List Effect → Sys
  | [] => s
  | .send ws message :: rest =>
    Sys.perform { s with sent := s.sent ++ [(ws, message)] } rest
  | .setTimeout cb delay :: rest =>
    Sys.perform { s with timers := s.timers ++ [(s.now + delay, cb)] } rest

/-- What can happen to the server: an inbound message on a connection, the
close of a connection, the firing of pending timer number `i`, the passing
of `dt` milliseconds, a `PUT /visit`. -/
inductive Event where
  | message (ws : Conn) (parsed : Option JVal) (env : Env)
      (status : Nat → Conn → ConnStatus)
  | close (ws : Conn)
  | timeout (i : Nat) (status : ConnStatus)
  | tick (dt : Nat)
  | visit

/-- One turn of the event loop. A timer runs only once its delay has
elapsed; it then leaves the queue. -/
def Sys.step (s : Sys) : Event → Sys
  | .message ws parsed env status =>
    let out := onMessage env s.st ws parsed
    Sys.perform { s with st := out.st } (runActions status out.acts)
  | .close ws => { s with st := cleanupConnection s.st ws }
  | .timeout i status =>
    match s.timers.get? i with
    | none => s
    | some (due, cb) =>
      if due ≤ s.now then
        let s1 := { s with timers := s.timers.eraseIdx i }
        match cb with
        | .safeSend ws message attempt =>
          Sys.perform s1 (safeSend status ws message attempt)
        | .transferCleanup destination =>
          { s1 with st := transferCleanup s1.st destination }
      else s
  | .tick dt => { s with now := s.now + dt }
  | .visit => { s with st := { s.st with NoOfVisitors := s.st.NoOfVisitors + 1 } }

/-- Running a list of events from a given server state. -/
def Sys.run (s : Sys) (evs : List Event) : Sys := evs.foldl Sys.step s

/-! ## Vocabulary for statements about chunked transfers -/

/-- The `safeSend` calls among the calls of a handler, in order. -/
def calls : List Action → List (Conn × JVal)
  | [] => []
  | .safeSend ws message :: rest => (ws, message) :: calls rest
  | .scheduleTransferCleanup _ :: rest => calls rest

/-- An inbound message together with what its handling reads from outside,
and the time that passes before it arrives. -/
structure Inbound where
  after : Nat
  ws : Conn
  data : JVal
  env : Env
  status : Nat → Conn → ConnStatus

/-- The arrival of an inbound message, as an event of the loop. -/
def Inbound.event (m : Inbound) : Event := .message m.ws (some m.data) m.env m.status

/-- The events of a sequence of arrivals: before each message its waiting
time passes. -/
def arrivals : List Inbound → List Event
  | [] => []
  | m :: rest => .tick m.after :: m.event :: arrivals rest

/-- The field `data.data.chunkIndex` of an inbound message. -/
def chunkIndexOf (data : JVal) : JVal := (data.optProp "data").optProp "chunkIndex"

/-- The field `data.data.fileName` of an inbound message. -/
def fileNameOf (data : JVal) : JVal := (data.optProp "data").optProp "fileName"

/-- The `FILE_CHUNK` message relayed for an inbound chunk. -/
def relayOfChunk (data : JVal) : JVal :=
  fileChunkMessage ((data.optProp "data").optProp "chunk") (chunkIndexOf data)
    ((data.optProp "data").optProp "totalChunks") (fileNameOf data)

/-- The inbound value is a `FILE_CHUNK` message for destination `d` whose
payload declares `totalChunks = N`. -/
def IsChunk (d : Prim) (N : Nat) (data : JVal) : Prop :=
  data.prop "event" = some (.ofString "FILE_CHUNK") ∧
  data.prop "destination" = some (.prim d) ∧
  ∃ payload, data.prop "data" = some payload ∧
    payload.prop "totalChunks" = some (.ofNat N)

/-- Progress of a transfer of `N` chunks to `d` after `j` of them: no
TransferState before the first chunk, then one with `received = j` and
`total = N`. -/
def Progress (d : Prim) (N j : Nat) (st : State) : Prop :=
  (j = 0 ∧ st.transferMap.get d = none) ∨
  (0 < j ∧ ∃ t, st.transferMap.get d = some t ∧ t.received = j ∧ t.total = .ofNat N)

/-! ## Vocabulary for statements about retries and routing -/

/-- The delay of line 24, `Math.min(100 * 2 ** attempt, 2000)`, as a function
of the attempt number. -/
def retryDelay (attempt : Nat) : Nat := min (100 * 2 ^ attempt) 2000

/-- The table entry the listener ends up calling for a parsed message:
`none` when `JSON.parse` threw or when reading or converting `data.event`
throws. -/
def routed (parsed : Option JVal) : Option eventHandlers.Entry :=
  match parsed with
  | none => none
  | some data =>
    match data.prop "event" with
    | none => none
    | some event =>
      match event.toStr with
      | none => none
      | some key => some ((eventHandlers.lookup key).getD .DEFAULT)

/-- The bound a stored TransferState has to respect when its `total` is a
positive integer: `1 <= received < total`. -/
def TransferOk (t : Transfer) : Prop :=
  ∀ T : Int, t.total = .prim (.num T) → 0 < T → 1 ≤ t.received ∧ (t.received : Int) < T

/-- Every TransferState stored in `transferMap` respects the bound. -/
def TransfersOk (st : State) : Prop :=
  ∀ e ∈ st.transferMap.entries, TransferOk e.2

/-- The event is a message from `ws` that the router hands to the share-code
handler `REQUIST_SHARE_CODE`. -/
def asksShareCode (ws : Conn) : Event → Prop
  | .message w parsed _ _ => w = ws ∧ routed parsed = some .REQUIST_SHARE_CODE
  | _ => False

/-- The event is a message from `ws` that the router hands to
`CONNECTION_REQUEST` or to `CONNECTION_ACCEPT`, the two handlers that bind
an origin code to the sender. -/
def asksPairing (ws : Conn) : Event → Prop
  | .message w parsed _ _ =>
    w = ws ∧ (routed parsed = some .CONNECTION_REQUEST ∨
      routed parsed = some .CONNECTION_ACCEPT)
  | _ => False

/-- Whether a message handed to `safeSend` carries the event name `name`. -/
def hasEvent (name : String) (message : JVal) : Bool :=
  match message.optProp "event" with
  | .prim (.str s) => decide (s = name)
  | _ => false

/-- Whether the `data.fileName` of a message is the string `f`. -/
def namesFile (f : String) (message : JVal) : Bool :=
  match (message.optProp "data").optProp "fileName" with
  | .prim (.str s) => decide (s = f)
  | _ => false

/-- Number of `FILE_CHUNK` messages among the `safeSend` calls of a handler
run. -/
def relaysOf (out : Outcome) : Nat :=
  ((calls out.acts).filter (fun c => hasEvent "FILE_CHUNK" c.2)).length

/-- Whether a handler run hands a `FILE_COMPLETE` message to `safeSend`. -/
def completes (out : Outcome) : Bool :=
  (calls out.acts).any (fun c => hasEvent "FILE_COMPLETE" c.2)

/-- What the `FILE_CHUNK` handler does for destination `d` when the event is
handled in state `st`: how many `FILE_CHUNK` messages it relays and whether
it sends `FILE_COMPLETE`. Events that are not a `FILE_CHUNK` message naming
`d` count for nothing. -/
def chunkStep (d : Prim) (st : State) : Event → Nat × Bool
  | .message _ (some data) _ _ =>
    match routed (some data), data.optProp "destination" with
    | some .FILE_CHUNK, .prim p =>
      if p = d then
        (relaysOf (eventHandlers.FILE_CHUNK st data),
         completes (eventHandlers.FILE_CHUNK st data))
      else (0, false)
    | _, _ => (0, false)
  | _ => (0, false)

/-- Number of `FILE_CHUNK` messages relayed for destination `d` since the
last `FILE_COMPLETE` for `d`, or since the start of the count, once the
events have run from `s`; `n` is the count on entry. -/
def relayedSince (d : Prim) : Sys → List Event → Nat → Nat
  | _, [], n => n
  | s, e :: rest, n =>
    relayedSince d (Sys.step s e) rest
      (if (chunkStep d s.st e).2 then 0 else n + (chunkStep d s.st e).1)

/-- The total a chunk for `d` is counted against: the `total` of the
TransferState of `d` when there is one, else the `totalChunks` the chunk
itself declares, which the TransferState it creates takes over. -/
def totalInForce (d : Prim) (st : State) : Event → JVal
  | .message _ (some data) _ _ =>
    match st.transferMap.get d with
    | some t => t.total
    | none => (data.optProp "data").optProp "totalChunks"
  | _ => JVal.undefined

/-- Whenever the event is a `FILE_CHUNK` message for destination `d`, every
connection is open with its send buffer below the mark at each `safeSend`
call of its handling, so that each call writes its message at once. -/
def idleFor (d : Prim) : Event → Prop
  | .message _ (some data) _ status =>
    routed (some data) = some .FILE_CHUNK → data.optProp "destination" = .prim d →
      ∀ k ws, (status k ws).readyState = OPEN ∧ (status k ws).congested = false
  | _ => True

/-- Number of `FILE_CHUNK` messages that the `safeSend` calls of the
`FILE_CHUNK` handler write at once for destination `d` when the event is
handled in state `st`, given what the connections show at each call; a call
that is dropped or deferred writes nothing here. -/
def writtenStep (d : Prim) (st : State) : Event → Nat
  | .message _ (some data) _ status =>
    match routed (some data), data.optProp "destination" with
    | some .FILE_CHUNK, .prim p =>
      if p = d then
        ((sends (runActions status (eventHandlers.FILE_CHUNK st data).acts)).filter
          (fun c => hasEvent "FILE_CHUNK" c.2)).length
      else 0
    | _, _ => 0
  | _ => 0

/-- Number of `FILE_CHUNK` messages written at once for destination `d`
since the last `FILE_COMPLETE` for `d`, or since the start of the count,
once the events have run from `s`; `n` is the count on entry. -/
def writtenSince (d : Prim) : Sys → List Event → Nat → Nat
  | _, [], n => n
  | s, e :: rest, n =>
    writtenSince d (Sys.step s e) rest
      (if (chunkStep d s.st e).2 then 0 else n + writtenStep d s.st e)

/-- The TransferState of `d`, if there is one, has counted at most `n`
chunks. -/
def CountedBy (d : Prim) (n : Nat) (st : State) : Prop :=
  ∀ t, st.transferMap.get d = some t → t.received ≤ n

/-- The event is the close of connection `ws`. -/
def closes (ws : Conn) : Event → Prop
  | .close w => w = ws
  | _ => False

/-- The event is a message routed to `CONNECTION_REQUEST` or to
`CONNECTION_ACCEPT` during whose handling the generator returns the origin
code `o`. -/
def mints (o : Prim) : Event → Prop
  | .message _ parsed env _ =>
    (routed parsed = some .CONNECTION_REQUEST ∨ routed parsed = some .CONNECTION_ACCEPT) ∧
      env.originCode = o
  | _ => False

/-- The event is a message routed to the share-code handler
`REQUIST_SHARE_CODE` during whose handling the generator returns the share
code `c`. -/
def reissues (c : Prim) : Event → Prop
  | .message _ parsed env _ =>
    routed parsed = some .REQUIST_SHARE_CODE ∧ env.shareCode = c
  | _ => False

/-- No entry of the map has `ws` as its value. -/
def Unowned (ws : Conn) (m : JMap Conn) : Prop := ∀ e ∈ m.entries, e.2 ≠ ws

/-- The state after a `CONNECTION_REQUEST` of `B` (read with `env1`) followed
by a `CONNECTION_ACCEPT` of `A` (read with `env2`). -/
def paired (env1 env2 : Env) (st : State) (A B : Conn) (data1 data2 : JVal) : State :=
  (eventHandlers.CONNECTION_ACCEPT env2
    (eventHandlers.CONNECTION_REQUEST env1 st B data1).st A data2).st

/-! ## Sample inputs -/

/-- A state in which connection 5 owns a share code and an origin code and
connection 6 a share code. -/
def sampleRegistry : State :=
  { State.init with
    shareCodeMap := ⟨[(.num 1001, 5), (.num 1002, 6)]⟩
    originCodeMap := ⟨[(.str "a1", 5)]⟩ }

/-- A conversion that agrees with `Number` on the values the samples use:
a number converts to itself, the string "1001" to 1001, `null` and `false`
to 0, `true` to 1, and `undefined` to `NaN`. -/
def sampleNumber : JVal → Option Prim
  | .prim (.num n) => some (.num n)
  | .prim (.str "1001") => some (.num 1001)
  | .prim .null => some (.num 0)
  | .prim (.bool false) => some (.num 0)
  | .prim (.bool true) => some (.num 1)
  | _ => some .nan

/-- An environment whose generators return the share code 2002 and the
origin code "b7". -/
def sampleEnv : Env :=
  { Number := sampleNumber, shareCode := .num 2002, originCode := .str "b7", now := 0 }

/-- An inbound `CONNECTION_REQUEST` naming the share code of connection 5. -/
def sampleRequest : JVal :=
  .obj [("event", .ofString "CONNECTION_REQUEST"), ("destination", .ofString "1001")]

/-- An inbound `CONNECTION_REQUEST` naming a share code nobody holds. -/
def sampleBadRequest : JVal :=
  .obj [("event", .ofString "CONNECTION_REQUEST"), ("destination", .prim (.num 4040))]

/-- An inbound `CONNECTION_ACCEPT` for origin code "a1" offering one file. -/
def sampleAccept : JVal :=
  .obj [("event", .ofString "CONNECTION_ACCEPT"), ("destination", .ofString "a1"),
        ("data", .obj [("files", .arr [.ofString "a.txt"])])]

/-- An inbound `CONNECTION_ACCEPT` for origin code "a1" whose `files` is the
object `{length: 9007199254740992}`, that is 2^53. -/
def sampleBulkAccept : JVal :=
  .obj [("event", .ofString "CONNECTION_ACCEPT"), ("destination", .ofString "a1"),
        ("data", .obj [("files", .obj [("length", .prim (.num 9007199254740992))])])]

/-- The `data` payload of a first chunk of three of the file "a.txt". -/
def samplePayload : JVal :=
  .obj [("chunk", .ofString "AAAA"), ("chunkIndex", .ofNat 0),
        ("totalChunks", .ofNat 3), ("fileName", .ofString "a.txt")]

/-- An inbound chunk addressed to an origin code nobody holds. -/
def sampleStray : JVal :=
  .obj [("event", .ofString "FILE_CHUNK"), ("destination", .ofString "zz"),
        ("data", samplePayload)]

/-- An inbound `FILE_CHUNK` for the given origin code, index, total and
file name. -/
def chunkFor (destination : String) (index total : Nat) (fileName : String) : JVal :=
  .obj [("event", .ofString "FILE_CHUNK"), ("destination", .ofString destination),
    ("data", .obj [("chunk", .ofString "AAAA"), ("chunkIndex", .ofNat index),
                   ("totalChunks", .ofNat total), ("fileName", .ofString fileName)])]

/-- An inbound `FILE_CHUNK` for origin code "a1", handled while every
connection is idle. -/
def sampleChunk (index total : Nat) (fileName : String) : Inbound :=
  { after := 40
    ws := 6
    data := chunkFor "a1" index total fileName
    env := sampleEnv
    status := fun _ _ => { readyState := OPEN, writableLength := some 0 } }

/-- An inbound message with the event name of the wire table,
`REQUEST_SHARE_CODE`. -/
def sampleShareRequest : JVal := .obj [("event", .ofString "REQUEST_SHARE_CODE")]

/-- An inbound message with the event name the handler table is keyed by,
`REQUIST_SHARE_CODE`. -/
def sampleShareRequist : JVal := .obj [("event", .ofString "REQUIST_SHARE_CODE")]

/-- An inbound application message named `toString`, addressed to origin
code "a1". -/
def sampleToString : JVal :=
  .obj [("event", .ofString "toString"), ("destination", .ofString "a1"),
        ("data", .ofString "hi")]

/-- An inbound application message named `offer`, addressed to origin code
"a1". -/
def sampleOffer : JVal :=
  .obj [("event", .ofString "offer"), ("destination", .ofString "a1"),
        ("data", .ofString "hi")]

/-- A run from server start: connection 5 obtains the origin code "b7";
connection 6 sends it the only chunk of "a.txt", whose transfer completes at
once; 299999 ms later connection 6 sends the first of two chunks of
"b.txt"; one more millisecond passes. -/
def staleRun : List Event :=
  [ .message 5 (some sampleBadRequest) sampleEnv (fun _ _ => ⟨OPEN, some 0⟩),
    .message 6 (some (chunkFor "b7" 0 1 "a.txt")) sampleEnv (fun _ _ => ⟨OPEN, some 0⟩),
    .tick 299999,
    .message 6 (some (chunkFor "b7" 0 2 "b.txt")) sampleEnv (fun _ _ => ⟨OPEN, some 0⟩),
    .tick 1 ]

/-- A server at rest in the state `sampleRegistry`. -/
def sampleSys : Sys := { now := 0, st := sampleRegistry, timers := [], sent := [] }

/-- An inbound `FILE_CHUNK` for origin code "a1" that has no `data` payload. -/
def sampleBareChunk : JVal :=
  .obj [("event", .ofString "FILE_CHUNK"), ("destination", .ofString "a1")]

/-- The server after the three chunks of "a.txt" for origin code "a1" have
been handled: the transfer is complete. -/
def sampleCompleted : Sys :=
  Sys.run sampleSys
    (arrivals [sampleChunk 2 3 "a.txt", sampleChunk 0 3 "a.txt", sampleChunk 1 3 "a.txt"])

/-- An environment whose origin-code generator returns "c9". -/
def sampleEnv2 : Env :=
  { Number := sampleNumber, shareCode := .num 3003, originCode := .str "c9", now := 0 }

/-- An inbound `CONNECTION_ACCEPT` for origin code "b7" offering one file. -/
def sampleAcceptB7 : JVal :=
  .obj [("event", .ofString "CONNECTION_ACCEPT"), ("destination", .ofString "b7"),
        ("data", .obj [("files", .arr [.ofString "a.txt"])])]

/-- An inbound `CONNECTION_REQUEST` naming the share code 2002. -/
def sampleRequest2002 : JVal :=
  .obj [("event", .ofString "CONNECTION_REQUEST"), ("destination", .prim (.num 2002))]

/-- A run from server start: connection 5 obtains the share code 2002, then
connection 9 asks to be connected to it and is given the origin code "b7". -/
def joinRun : List Event :=
  [ .message 5 (some sampleShareRequist) sampleEnv (fun _ _ => ⟨OPEN, some 0⟩),
    .message 9 (some sampleRequest2002) sampleEnv (fun _ _ => ⟨OPEN, some 0⟩) ]

/-- A run from server start in which connections 9 and 8 send a
`CONNECTION_REQUEST` each and the generator returns "b7" both times. -/
def collideRun : List Event :=
  [ .message 9 (some sampleRequest2002) sampleEnv (fun _ _ => ⟨OPEN, some 0⟩),
    .message 8 (some sampleRequest2002) sampleEnv (fun _ _ => ⟨OPEN, some 0⟩) ]

/-- The server right after connection 9 asked, in `sampleRegistry`, for the
share code 1001 and was given the origin code "b7". -/
def sampleJoined : Sys :=
  { now := 0
    st := (eventHandlers.CONNECTION_REQUEST sampleEnv sampleRegistry 9 sampleRequest).st
    timers := []
    sent := [] }

/-- Events that neither close connection 9 nor generate "b7" again:
connection 6 closes, connection 8 asks for the same share code and is given
"c9", five milliseconds pass. -/
def calmRun : List Event :=
  [ .close 6,
    .message 8 (some sampleRequest) sampleEnv2 (fun _ _ => ⟨OPEN, some 0⟩),
    .tick 5 ]

/-- A run from server start: connection 5 obtains the origin code "b7" and
connection 6 sends it the first of two chunks of "a.txt". -/
def mixedStart : List Event :=
  [ .message 5 (some sampleBadRequest) sampleEnv (fun _ _ => ⟨OPEN, some 0⟩),
    .message 6 (some (chunkFor "b7" 0 2 "a.txt")) sampleEnv (fun _ _ => ⟨OPEN, some 0⟩) ]

/-- Connection 6 sends to "b7" the first of five chunks of "b.txt". -/
def mixedLast : Event :=
  .message 6 (some (chunkFor "b7" 0 5 "b.txt")) sampleEnv (fun _ _ => ⟨OPEN, some 0⟩)

/-- The run `mixedStart` followed by `mixedLast`. -/
def mixedRun : List Event := mixedStart ++ [mixedLast]

/-- A connection that is open with a send buffer above the mark. -/
def busy : ConnStatus := { readyState := OPEN, writableLength := some (11 * 1024 * 1024) }

/-- A connection that is open with an empty send buffer. -/
def idle : ConnStatus := { readyState := OPEN, writableLength := some 0 }

/-- A run from server start: connection 5 obtains the share code 2002 and
connection 9 asks to be connected to it; then connection 6 asks for a share
code and the generator returns 2002 again; then connection 8 asks to be
connected to 2002. Nobody closes. -/
def reissueRun : List Event :=
  [ .message 5 (some sampleShareRequist) sampleEnv (fun _ _ => idle),
    .message 9 (some sampleRequest2002) sampleEnv (fun _ _ => idle),
    .message 6 (some sampleShareRequist) sampleEnv (fun _ _ => idle),
    .message 8 (some sampleRequest2002) sampleEnv2 (fun _ _ => idle) ]

/-- A run from server start: connection 5 obtains the origin code "b7";
connection 6 sends it the first of two chunks of "a.txt" while the send
buffers are above the mark, then the second chunk once they are empty. -/
def deferRun : List Event :=
  [ .message 5 (some sampleBadRequest) sampleEnv (fun _ _ => idle),
    .message 6 (some (chunkFor "b7" 0 2 "a.txt")) sampleEnv (fun _ _ => busy),
    .message 6 (some (chunkFor "b7" 1 2 "a.txt")) sampleEnv (fun _ _ => idle) ]

/-- Events that neither close connection 5 nor issue the share code 1001
again: connection 6 obtains the share code 3003, connection 6 closes, five
milliseconds pass. -/
def quietRun : List Event :=
  [ .message 6 (some sampleShareRequist) sampleEnv2 (fun _ _ => idle),
    .close 6,
    .tick 5 ]

/-! ## Lemmas on maps -/

namespace JMap

variable {V : Type}

theorem getList_setList_self (k : Prim) (v : V) (l : List (Prim × V)) :
    getList k (setList k v l) = some v := by
  induction l with
  | nil => simp [setList, getList]
  | cons e rest ih =>
    obtain ⟨k', v'⟩ := e
    by_cases h : k' = k
    · simp [setList, getList, h]
    · simp [setList, getList, h, ih]

theorem getList_setList_ne {k k' : Prim} (h : k' ≠ k) (v : V) (l : List (Prim × V)) :
    getList k' (setList k v l) = getList k' l := by
  induction l with
  | nil => simp [setList, getList, Ne.symm h]
  | cons e rest ih =>
    obtain ⟨k0, v0⟩ := e
    by_cases h0 : k0 = k
    · subst h0
      simp [setList, getList, Ne.symm h]
    · by_cases h1 : k0 = k'
      · subst h1
        simp [setList, getList, h0]
      · simp [setList, getList, h0, h1, ih]

theorem getList_filter_key (q : Prim → Bool) (k : Prim) (l : List (Prim × V)) :
    getList k (l.filter (fun e => q e.1)) = if q k then getList k l else none := by
  induction l with
  | nil => simp [getList]
  | cons e rest ih =>
    obtain ⟨k0, v0⟩ := e
    by_cases h0 : k0 = k
    · subst h0
      by_cases hq : q k0
      · simp [List.filter, getList, hq]
      · simp [List.filter, getList, hq, ih]
    · by_cases hq : q k0
      · simp [List.filter, getList, hq, h0, ih]
      · simp [List.filter, getList, hq, h0, ih]

theorem get_set_self (m : JMap V) (k : Prim) (v : V) : (m.set k v).get k = some v :=
  getList_setList_self k v m.entries

theorem get_set_ne (m : JMap V) {k k' : Prim} (h : k' ≠ k) (v : V) :
    (m.set k v).get k' = m.get k' :=
  getList_setList_ne h v m.entries

theorem get_delete_self (m : JMap V) (k : Prim) : (m.delete k).get k = none := by
  have h := getList_filter_key (fun x => decide (x ≠ k)) k m.entries
  simpa [get, delete] using h

theorem get_delete_ne (m : JMap V) {k k' : Prim} (h : k' ≠ k) :
    (m.delete k).get k' = m.get k' := by
  have h1 := getList_filter_key (fun x => decide (x ≠ k)) k' m.entries
  simpa [get, delete, h] using h1

theorem has_eq_false_iff (m : JMap V) (k : Prim) : m.has k = false ↔ m.get k = none := by
  simp [has]

theorem getList_mem {k : Prim} {v : V} {l : List (Prim × V)} (h : getList k l = some v) :
    (k, v) ∈ l := by
  induction l with
  | nil => simp [getList] at h
  | cons e rest ih =>
    obtain ⟨k0, v0⟩ := e
    by_cases h0 : k0 = k
    · subst h0
      simp [getList] at h
      simp [h]
    · simp [getList, h0] at h
      simp [ih h]

end JMap

/-! ## `cleanupConnection` -/

theorem foldl_delete_eq_filter (ws : Conn) (l : List (Prim × Conn)) (acc : JMap Conn) :
    l.foldl (fun acc e => if e.2 = ws then acc.delete e.1 else acc) acc
      = ⟨acc.entries.filter (fun e => decide (∀ x ∈ l, x.2 = ws → x.1 ≠ e.1))⟩ := by
  induction l generalizing acc with
  | nil => simp
  | cons e rest ih =>
    rw [List.foldl_cons, ih]
    by_cases h : e.2 = ws
    · simp only [h, if_true, JMap.delete, List.filter_filter, JMap.mk.injEq]
      apply List.filter_congr
      intro x _
      simp only [List.mem_cons, forall_eq_or_imp, h, true_implies, Bool.decide_and,
        Bool.and_comm, ne_eq, decide_not]
      by_cases hx : e.1 = x.1
      · simp [hx]
      · have hx' : ¬ x.1 = e.1 := fun h' => hx h'.symm
        simp [hx, hx']
    · simp only [h, if_false, JMap.mk.injEq]
      apply List.filter_congr
      intro x _
      simp [h]

theorem sweep_entries (ws : Conn) (m : JMap Conn) :
    (sweep ws m).entries
      = m.entries.filter (fun e => decide (∀ x ∈ m.entries, x.2 = ws → x.1 ≠ e.1)) := by
  simp [sweep, foldl_delete_eq_filter]

theorem sweep_value_ne (ws : Conn) (m : JMap Conn) :
    ∀ e ∈ (sweep ws m).entries, e.2 ≠ ws := by
  intro e he hws
  rw [sweep_entries, List.mem_filter] at he
  have h := of_decide_eq_true he.2
  exact h e he.1 hws rfl

theorem sweep_subset (ws : Conn) (m : JMap Conn) :
    ∀ e ∈ (sweep ws m).entries, e ∈ m.entries := by
  intro e he
  rw [sweep_entries, List.mem_filter] at he
  exact he.1

theorem sweep_keeps (ws : Conn) (m : JMap Conn) (hwf : m.WF) :
    ∀ e ∈ m.entries, e.2 ≠ ws → e ∈ (sweep ws m).entries := by
  intro e he hne
  rw [sweep_entries, List.mem_filter]
  refine ⟨he, decide_eq_true ?_⟩
  intro x hx hxws hkey
  have hinj := List.inj_on_of_nodup_map hwf hx he hkey
  exact hne (hinj ▸ hxws)

theorem sweep_eq_self (ws : Conn) (m : JMap Conn) (h : ∀ e ∈ m.entries, e.2 ≠ ws) :
    sweep ws m = m := by
  have he : (sweep ws m).entries = m.entries := by
    rw [sweep_entries, List.filter_eq_self]
    intro e _
    exact decide_eq_true (fun x hx hxws _ => h x hx hxws)
  cases m
  cases hs : sweep ws _
  simp_all

/-- C4: after `cleanupConnection(ws)` neither code map has an entry whose
value is `ws`; every entry whose value is another connection is still
there, nothing else appears, the transfer map and both counters are
untouched; and when `ws` owns no entry the state is the same state. -/
theorem cleanupConnection_purges (st : State) (ws : Conn) (hwf : st.WF) :
    (∀ e ∈ (cleanupConnection st ws).shareCodeMap.entries, e.2 ≠ ws) ∧
    (∀ e ∈ (cleanupConnection st ws).originCodeMap.entries, e.2 ≠ ws) ∧
    (∀ e ∈ st.shareCodeMap.entries, e.2 ≠ ws →
        e ∈ (cleanupConnection st ws).shareCodeMap.entries) ∧
    (∀ e ∈ st.originCodeMap.entries, e.2 ≠ ws →
        e ∈ (cleanupConnection st ws).originCodeMap.entries) ∧
    (∀ e ∈ (cleanupConnection st ws).shareCodeMap.entries, e ∈ st.shareCodeMap.entries) ∧
    (∀ e ∈ (cleanupConnection st ws).originCodeMap.entries, e ∈ st.originCodeMap.entries) ∧
    (cleanupConnection st ws).transferMap = st.transferMap ∧
    (cleanupConnection st ws).NoOfVisitors = st.NoOfVisitors ∧
    (cleanupConnection st ws).NoOfFilesTransferred = st.NoOfFilesTransferred ∧
    ((∀ e ∈ st.shareCodeMap.entries, e.2 ≠ ws) →
      (∀ e ∈ st.originCodeMap.entries, e.2 ≠ ws) → cleanupConnection st ws = st) := by
  refine ⟨sweep_value_ne ws _, sweep_value_ne ws _, sweep_keeps ws _ hwf.1,
    sweep_keeps ws _ hwf.2.1, sweep_subset ws _, sweep_subset ws _, rfl, rfl, rfl, ?_⟩
  intro h1 h2
  simp [cleanupConnection, sweep_eq_self ws _ h1, sweep_eq_self ws _ h2]

/-- Witness for C4: closing connection 5 in `sampleRegistry` leaves only the
share code of connection 6. -/
theorem cleanupConnection_purges_witness :
    sampleRegistry.WF ∧
    (∀ e ∈ (cleanupConnection sampleRegistry 5).shareCodeMap.entries, e.2 ≠ 5) ∧
    (∀ e ∈ (cleanupConnection sampleRegistry 5).originCodeMap.entries, e.2 ≠ 5) ∧
    (∀ e ∈ sampleRegistry.shareCodeMap.entries, e.2 ≠ 5 →
        e ∈ (cleanupConnection sampleRegistry 5).shareCodeMap.entries) :=
  have hwf : sampleRegistry.WF := by
    simp [State.WF, JMap.WF, sampleRegistry, State.init, JMap.empty]
  ⟨hwf, (cleanupConnection_purges sampleRegistry 5 hwf).1,
    (cleanupConnection_purges sampleRegistry 5 hwf).2.1,
    (cleanupConnection_purges sampleRegistry 5 hwf).2.2.1⟩

/-! ## `safeSend` -/

/-- C8: one run of `safeSend` writes the message exactly when the connection
is open and its buffered byte count, if any, is at most 10 * 1024 * 1024;
on a connection that is not open it does nothing at all; on an open
connection whose count is above the mark it writes nothing and queues one
retry of the same message with `attempt + 1`. -/
theorem safeSend_step (s : ConnStatus) (ws : Conn) (message : JVal) (attempt : Nat) :
    (sends (safeSend s ws message attempt) = [(ws, message)] ↔
      (s.readyState = OPEN ∧ ∀ n, s.writableLength = some n → n ≤ 10 * 1024 * 1024)) ∧
    (¬ (s.readyState = OPEN ∧ ∀ n, s.writableLength = some n → n ≤ 10 * 1024 * 1024) →
      sends (safeSend s ws message attempt) = []) ∧
    (s.readyState = OPEN → (∀ n, s.writableLength = some n → n ≤ 10 * 1024 * 1024) →
      safeSend s ws message attempt = [Effect.send ws message]) ∧
    (s.readyState ≠ OPEN → safeSend s ws message attempt = []) ∧
    (s.readyState = OPEN → (∃ n, s.writableLength = some n ∧ 10 * 1024 * 1024 < n) →
      safeSend s ws message attempt =
        [Effect.setTimeout (Timer.safeSend ws message (attempt + 1))
          (min (100 * 2 ^ attempt) 2000)]) := by
  obtain ⟨rs, wl⟩ := s
  by_cases hopen : rs = OPEN
  · cases wl with
    | none => simp [safeSend, ConnStatus.congested, sends, hopen]
    | some n =>
      by_cases hn : n ≤ 10 * 1024 * 1024
      · have hn' : ¬ n > MAX_BUFFER_SIZE := by simp [MAX_BUFFER_SIZE]; omega
        simp [safeSend, ConnStatus.congested, sends, hopen, hn, hn']
      · have hn' : n > MAX_BUFFER_SIZE := by simp [MAX_BUFFER_SIZE]; omega
        have hn2 : 10 * 1024 * 1024 < n := by omega
        simp [safeSend, ConnStatus.congested, sends, hopen, hn, hn', hn2]
  · simp [safeSend, sends, hopen]

/-! ## The pairing handlers -/

open eventHandlers

theorem prim_add_num (n m : Int) : Prim.add (.num n) (.num m) = roundDouble (n + m) := by
  simp [Prim.add, Prim.isStr, Prim.toNumber, addNumber]

theorem roundDouble_safe (x : Int) (h : x.natAbs ≤ 9007199254740992) :
    roundDouble x = .num x := by
  simp [roundDouble, roundDyadic, h, dyadic]

theorem prop_of_ne_nullish (v : JVal) (name : String)
    (h1 : v ≠ .prim .null) (h2 : v ≠ .prim .undefined) : ∃ x, v.prop name = some x := by
  cases v with
  | prim p => cases p <;> simp_all [JVal.prop]
  | arr xs => simp [JVal.prop]
  | obj kvs => simp [JVal.prop]

theorem optProp_of_prop {v x : JVal} {name : String} (h : v.prop name = some x) :
    v.optProp name = x := by
  simp [JVal.optProp, h]

/-- C2: when `Number(data.destination)` is a share code held by `A`, the
`CONNECTION_REQUEST` handler run for `B` returns normally, binds the one
origin code `o` it generates to `B` in `originCodeMap`, and makes exactly
two `safeSend` calls, in this order: to `B` the object
`{event: "CONNECTION_REQUEST", data: {AssignedOriginCOde: o, success: true}}`
and to `A` the object `{event: "CONNECTION_REQUEST", origin: o}` with that
same `o`; nothing else of the state changes. With both connections open and
below the buffer mark, exactly these two messages are written. -/
theorem connection_request_success (env : Env) (st : State) (A B : Conn)
    (data destination : JVal) (c : Prim)
    (hd : data.prop "destination" = some destination)
    (hn : env.Number destination = some c)
    (hA : st.shareCodeMap.get c = some A) :
    (CONNECTION_REQUEST env st B data).threw = false ∧
    (CONNECTION_REQUEST env st B data).st.originCodeMap
      = st.originCodeMap.set env.originCode B ∧
    (CONNECTION_REQUEST env st B data).st.originCodeMap.get env.originCode = some B ∧
    (CONNECTION_REQUEST env st B data).acts
      = [Action.safeSend B
           (JVal.obj [("event", JVal.prim (Prim.str "CONNECTION_REQUEST")),
             ("data", JVal.obj [("AssignedOriginCOde", JVal.prim env.originCode),
               ("success", JVal.prim (Prim.bool true))])]),
         Action.safeSend A
           (JVal.obj [("event", JVal.prim (Prim.str "CONNECTION_REQUEST")),
             ("origin", JVal.prim env.originCode)])] ∧
    (CONNECTION_REQUEST env st B data).st.shareCodeMap = st.shareCodeMap ∧
    (CONNECTION_REQUEST env st B data).st.transferMap = st.transferMap ∧
    (CONNECTION_REQUEST env st B data).st.NoOfVisitors = st.NoOfVisitors ∧
    (CONNECTION_REQUEST env st B data).st.NoOfFilesTransferred = st.NoOfFilesTransferred ∧
    (∀ status : Nat → Conn → ConnStatus,
      (status 0 B).readyState = OPEN → (status 0 B).congested = false →
      (status 1 A).readyState = OPEN → (status 1 A).congested = false →
      runActions status (CONNECTION_REQUEST env st B data).acts
        = [Effect.send B
             (JVal.obj [("event", JVal.prim (Prim.str "CONNECTION_REQUEST")),
               ("data", JVal.obj [("AssignedOriginCOde", JVal.prim env.originCode),
                 ("success", JVal.prim (Prim.bool true))])]),
           Effect.send A
             (JVal.obj [("event", JVal.prim (Prim.str "CONNECTION_REQUEST")),
               ("origin", JVal.prim env.originCode)])]) := by
  have h : CONNECTION_REQUEST env st B data
      = Outcome.done { st with originCodeMap := st.originCodeMap.set env.originCode B }
          [Action.safeSend B (requestAckMessage env.originCode),
           Action.safeSend A (requestNoticeMessage env.originCode)] := by
    simp [CONNECTION_REQUEST, hd, hn, hA]
  rw [h]
  refine ⟨rfl, rfl, JMap.get_set_self _ _ _, rfl, rfl, rfl, rfl, rfl, ?_⟩
  intro status h1 h2 h3 h4
  simp [Outcome.done, runActions, Action.run, safeSend, h1, h2, h3, h4,
    requestAckMessage, requestNoticeMessage, JVal.ofString]

/-- Witness for C2: connection 9 asks for the share code 1001 of connection
5 and is given the origin code "b7"; both connections are idle. -/
theorem connection_request_success_witness :
    (CONNECTION_REQUEST sampleEnv sampleRegistry 9 sampleRequest).acts
      = [Action.safeSend 9
           (JVal.obj [("event", JVal.prim (Prim.str "CONNECTION_REQUEST")),
             ("data", JVal.obj [("AssignedOriginCOde", JVal.prim (Prim.str "b7")),
               ("success", JVal.prim (Prim.bool true))])]),
         Action.safeSend 5
           (JVal.obj [("event", JVal.prim (Prim.str "CONNECTION_REQUEST")),
             ("origin", JVal.prim (Prim.str "b7"))])] ∧
    runActions (fun _ _ => idle)
        (CONNECTION_REQUEST sampleEnv sampleRegistry 9 sampleRequest).acts
      = [Effect.send 9
           (JVal.obj [("event", JVal.prim (Prim.str "CONNECTION_REQUEST")),
             ("data", JVal.obj [("AssignedOriginCOde", JVal.prim (Prim.str "b7")),
               ("success", JVal.prim (Prim.bool true))])]),
         Effect.send 5
           (JVal.obj [("event", JVal.prim (Prim.str "CONNECTION_REQUEST")),
             ("origin", JVal.prim (Prim.str "b7"))])] :=
  have h := connection_request_success sampleEnv sampleRegistry 5 9 sampleRequest
    (.ofString "1001") (.num 1001) rfl rfl rfl
  ⟨h.2.2.2.1, h.2.2.2.2.2.2.2.2 (fun _ _ => idle) rfl rfl rfl rfl⟩

/-- C7: when `Number(data.destination)` is a code with no entry in
`shareCodeMap`, the `CONNECTION_REQUEST` handler run for `B` returns
normally after exactly one `safeSend` call, to `B`, with the object
`{event: "CONNECTION_REQUEST", data: {success: false}}`; `shareCodeMap` is
unchanged, and whatever the connections show no message is written to a
connection other than `B`. -/
theorem connection_request_unknown (env : Env) (st : State) (B : Conn)
    (data destination : JVal) (c : Prim)
    (hd : data.prop "destination" = some destination)
    (hn : env.Number destination = some c)
    (hA : st.shareCodeMap.get c = none) :
    (CONNECTION_REQUEST env st B data).threw = false ∧
    (CONNECTION_REQUEST env st B data).acts
      = [Action.safeSend B
           (JVal.obj [("event", JVal.prim (Prim.str "CONNECTION_REQUEST")),
             ("data", JVal.obj [("success", JVal.prim (Prim.bool false))])])] ∧
    (CONNECTION_REQUEST env st B data).st.shareCodeMap = st.shareCodeMap ∧
    (∀ status : Nat → Conn → ConnStatus,
      ∀ e ∈ sends (runActions status (CONNECTION_REQUEST env st B data).acts),
        e = (B, JVal.obj [("event", JVal.prim (Prim.str "CONNECTION_REQUEST")),
             ("data", JVal.obj [("success", JVal.prim (Prim.bool false))])])) ∧
    (∀ status : Nat → Conn → ConnStatus,
      (status 0 B).readyState = OPEN → (status 0 B).congested = false →
      runActions status (CONNECTION_REQUEST env st B data).acts
        = [Effect.send B
             (JVal.obj [("event", JVal.prim (Prim.str "CONNECTION_REQUEST")),
               ("data", JVal.obj [("success", JVal.prim (Prim.bool false))])])]) := by
  have h : CONNECTION_REQUEST env st B data
      = Outcome.done { st with originCodeMap := st.originCodeMap.set env.originCode B }
          [Action.safeSend B requestFailedMessage] := by
    simp [CONNECTION_REQUEST, hd, hn, hA]
  rw [h]
  refine ⟨rfl, rfl, rfl, ?_, ?_⟩
  · intro status e he
    simp only [Outcome.done, runActions, Action.run, safeSend, List.append_nil] at he
    split at he
    · simp [sends] at he
    · split at he
      · simp [sends] at he
      · simpa [sends, requestFailedMessage, JVal.ofString] using he
  · intro status h1 h2
    simp [Outcome.done, runActions, Action.run, safeSend, h1, h2, requestFailedMessage,
      JVal.ofString]

/-- Witness for C7: connection 9 asks for the share code 4040, which nobody
holds. -/
theorem connection_request_unknown_witness :
    (CONNECTION_REQUEST sampleEnv sampleRegistry 9 sampleBadRequest).acts
      = [Action.safeSend 9
           (JVal.obj [("event", JVal.prim (Prim.str "CONNECTION_REQUEST")),
             ("data", JVal.obj [("success", JVal.prim (Prim.bool false))])])] :=
  (connection_request_unknown sampleEnv sampleRegistry 9 sampleBadRequest
    (.prim (.num 4040)) (.num 4040) rfl rfl rfl).2.1

/-- Counterexample to C3 as stated: the counter is a double. Connection 6
accepts the peer behind "a1" with `files = {length: 2^53}`, which brings
`NoOfFilesTransferred` from 0 to 2^53; it then accepts again offering the
one file "a.txt", and the counter is still 2^53, not 2^53 + 1. -/
theorem accept_counter_saturates :
    (CONNECTION_ACCEPT sampleEnv sampleRegistry 6 sampleBulkAccept).st.NoOfFilesTransferred
      = .num 9007199254740992 ∧
    (CONNECTION_ACCEPT sampleEnv sampleRegistry 6 sampleBulkAccept).st.originCodeMap.getJ
      (.prim (.str "a1")) = some 5 ∧
    sampleAccept.optProp "data" = .obj [("files", .arr [.prim (.str "a.txt")])] ∧
    (CONNECTION_ACCEPT sampleEnv2
        (CONNECTION_ACCEPT sampleEnv sampleRegistry 6 sampleBulkAccept).st 6
        sampleAccept).st.NoOfFilesTransferred
      = .num 9007199254740992 ∧
    (CONNECTION_ACCEPT sampleEnv2
        (CONNECTION_ACCEPT sampleEnv sampleRegistry 6 sampleBulkAccept).st 6
        sampleAccept).st.NoOfFilesTransferred
      ≠ .num (9007199254740992 + 1) := by
  refine ⟨rfl, rfl, rfl, rfl, ?_⟩
  intro h
  have h2 : Prim.num 9007199254740992 = Prim.num (9007199254740992 + 1) :=
    Eq.trans (Eq.symm (by rfl)) h
  exact absurd (Prim.num.inj h2) (by decide)

/-- C3, amended: when `data.destination` resolves in `originCodeMap` to `B`
and the message offers the file list `fs` (an array under `data.files`, or
nothing truthy there, in which case `fs` is empty), the `CONNECTION_ACCEPT`
handler run for `A` returns normally, binds the origin code `o2` it
generates to `A`, replaces `NoOfFilesTransferred` by its `+` with the length
of `fs`, which for a counter holding the integer `n` is `n` plus that
length whenever this sum is at most 2^53 in size, and makes exactly one
`safeSend` call, to `B`, with the object
`{event: "CONNECTION_ACCEPT", origin: o2, data: {success: true, files: fs}}`;
nothing else of the state changes, and with `B` open and below the buffer
mark exactly this message is written. -/
theorem connection_accept_forwards (env : Env) (st : State) (A B : Conn)
    (data destination : JVal) (fs : List JVal)
    (hd : data.prop "destination" = some destination)
    (hB : st.originCodeMap.getJ destination = some B)
    (hf : (data.optProp "data").optProp "files" = .arr fs ∨
          (((data.optProp "data").optProp "files").truthy = false ∧ fs = [])) :
    (CONNECTION_ACCEPT env st A data).threw = false ∧
    (CONNECTION_ACCEPT env st A data).st.originCodeMap
      = st.originCodeMap.set env.originCode A ∧
    (CONNECTION_ACCEPT env st A data).st.originCodeMap.get env.originCode = some A ∧
    (CONNECTION_ACCEPT env st A data).st.NoOfFilesTransferred
      = st.NoOfFilesTransferred.add (.num fs.length) ∧
    (∀ n : Int, st.NoOfFilesTransferred = .num n →
      (n + fs.length).natAbs ≤ 9007199254740992 →
      (CONNECTION_ACCEPT env st A data).st.NoOfFilesTransferred = .num (n + fs.length)) ∧
    (CONNECTION_ACCEPT env st A data).acts
      = [Action.safeSend B
           (JVal.obj [("event", JVal.prim (Prim.str "CONNECTION_ACCEPT")),
             ("origin", JVal.prim env.originCode),
             ("data", JVal.obj [("success", JVal.prim (Prim.bool true)),
               ("files", JVal.arr fs)])])] ∧
    (CONNECTION_ACCEPT env st A data).st.shareCodeMap = st.shareCodeMap ∧
    (CONNECTION_ACCEPT env st A data).st.transferMap = st.transferMap ∧
    (CONNECTION_ACCEPT env st A data).st.NoOfVisitors = st.NoOfVisitors ∧
    (∀ status : Nat → Conn → ConnStatus,
      (status 0 B).readyState = OPEN → (status 0 B).congested = false →
      runActions status (CONNECTION_ACCEPT env st A data).acts
        = [Effect.send B
             (JVal.obj [("event", JVal.prim (Prim.str "CONNECTION_ACCEPT")),
               ("origin", JVal.prim env.originCode),
               ("data", JVal.obj [("success", JVal.prim (Prim.bool true)),
                 ("files", JVal.arr fs)])])]) := by
  have hfiles : ((data.optProp "data").optProp "files").orElse (.arr []) = .arr fs := by
    rcases hf with h | ⟨h, rfl⟩
    · simp [JVal.orElse, h, JVal.truthy]
    · simp [JVal.orElse, h]
  have h : CONNECTION_ACCEPT env st A data
      = Outcome.done
          { st with
            originCodeMap := st.originCodeMap.set env.originCode A
            NoOfFilesTransferred := st.NoOfFilesTransferred.add (.num fs.length) }
          [Action.safeSend B (acceptMessage env.originCode (.arr fs))] := by
    simp [CONNECTION_ACCEPT, hd, hB, hfiles, JVal.length, JVal.ofNat, jsAdd,
      JVal.toPrimitive]
  rw [h]
  refine ⟨rfl, rfl, JMap.get_set_self _ _ _, rfl, ?_, rfl, rfl, rfl, rfl, ?_⟩
  · intro n hn hsafe
    simp [Outcome.done, hn, prim_add_num, roundDouble_safe _ hsafe]
  · intro status h1 h2
    simp [Outcome.done, runActions, Action.run, safeSend, h1, h2, acceptMessage,
      JVal.ofString]

/-- Witness for C3: connection 6 accepts the peer behind origin code "a1"
(connection 5) and offers one file; the counter goes from 0 to 1. -/
theorem connection_accept_forwards_witness :
    (CONNECTION_ACCEPT sampleEnv sampleRegistry 6 sampleAccept).acts
      = [Action.safeSend 5
           (JVal.obj [("event", JVal.prim (Prim.str "CONNECTION_ACCEPT")),
             ("origin", JVal.prim (Prim.str "b7")),
             ("data", JVal.obj [("success", JVal.prim (Prim.bool true)),
               ("files", JVal.arr [JVal.prim (Prim.str "a.txt")])])])] ∧
    (CONNECTION_ACCEPT sampleEnv sampleRegistry 6 sampleAccept).st.NoOfFilesTransferred
      = .num 1 :=
  have h := connection_accept_forwards sampleEnv sampleRegistry 6 5 sampleAccept
    (.ofString "a1") [.ofString "a.txt"] rfl rfl (Or.inl rfl)
  ⟨h.2.2.2.2.2.1, h.2.2.2.2.1 0 rfl (by decide)⟩

/-- C6: when `data.destination` has no entry in `originCodeMap`, the
handlers `CONNECTION_ACCEPT`, `DEFAULT` and, given a `data` payload that is
neither `null` nor `undefined`, `FILE_CHUNK` return normally with the state
they were given and without a single call: no message is sent, no map or
counter changes, no TransferState is created and no timer is scheduled. -/
theorem unknown_destination_dropped (env : Env) (st : State) (ws : Conn)
    (data destination : JVal)
    (hd : data.prop "destination" = some destination)
    (hnone : st.originCodeMap.getJ destination = none) :
    CONNECTION_ACCEPT env st ws data = Outcome.done st [] ∧
    DEFAULT st data = Outcome.done st [] ∧
    (∀ payload, data.prop "data" = some payload →
      payload ≠ .prim .null → payload ≠ .prim .undefined →
      FILE_CHUNK st data = Outcome.done st []) ∧
    (∀ status, runActions status (Outcome.done st []).acts = []) := by
  refine ⟨by simp [CONNECTION_ACCEPT, hd, hnone], by simp [DEFAULT, hd, hnone], ?_, ?_⟩
  · intro payload hp h1 h2
    obtain ⟨x1, hx1⟩ := prop_of_ne_nullish payload "chunk" h1 h2
    obtain ⟨x2, hx2⟩ := prop_of_ne_nullish payload "totalChunks" h1 h2
    obtain ⟨x3, hx3⟩ := prop_of_ne_nullish payload "chunkIndex" h1 h2
    obtain ⟨x4, hx4⟩ := prop_of_ne_nullish payload "fileName" h1 h2
    have ho := optProp_of_prop hd
    cases destination with
    | prim p =>
      have hg : st.originCodeMap.get p = none := by simpa [JMap.getJ] using hnone
      simp [FILE_CHUNK, hp, hx1, hx2, hx3, hx4, ho, hg]
    | arr xs => simp [FILE_CHUNK, hp, hx1, hx2, hx3, hx4, ho]
    | obj kvs => simp [FILE_CHUNK, hp, hx1, hx2, hx3, hx4, ho]
  · intro status
    simp [Outcome.done, runActions]

/-- Witness for C6: a chunk addressed to the unknown origin code "zz". -/
theorem unknown_destination_dropped_witness :
    FILE_CHUNK sampleRegistry sampleStray = Outcome.done sampleRegistry [] :=
  (unknown_destination_dropped sampleEnv sampleRegistry 9 sampleStray (.ofString "zz")
    rfl rfl).2.2.1 samplePayload rfl (by simp [samplePayload]) (by simp [samplePayload])

/-! ## Chunked transfers -/

theorem strictEqNum_ofNat (n N : Nat) : strictEqNum n (.ofNat N) = decide (N = n) := by
  simp [strictEqNum, JVal.ofNat]

theorem prop_isSome_of_prop {v x : JVal} {a : String} (h : v.prop a = some x) (b : String) :
    v.prop b = some (v.optProp b) := by
  cases v with
  | prim p => cases p <;> simp_all [JVal.prop, JVal.optProp]
  | arr xs => simp [JVal.prop, JVal.optProp]
  | obj kvs => simp [JVal.prop, JVal.optProp]

theorem FILE_CHUNK_of_chunk (st : State) (data : JVal) (d : Prim) (R : Conn) (N : Nat)
    (hc : IsChunk d N data) (hR : st.originCodeMap.get d = some R) :
    FILE_CHUNK st data =
      (let fresh := !st.transferMap.has d
       let map1 :=
         if fresh then
           st.transferMap.set d
             { total := .ofNat N, received := 0, fileName := fileNameOf data }
         else st.transferMap
       let scheduled := if fresh then [Action.scheduleTransferCleanup d] else []
       match map1.get d with
       | none => Outcome.raise { st with transferMap := map1 } scheduled
       | some transfer0 =>
         if strictEqNum (transfer0.received + 1) transfer0.total then
           Outcome.done
             { st with
               transferMap := (map1.set d
                 { transfer0 with received := transfer0.received + 1 }).delete d }
             (scheduled ++ [Action.safeSend R (relayOfChunk data),
               Action.safeSend R (fileCompleteMessage (fileNameOf data))])
         else
           Outcome.done
             { st with
               transferMap := map1.set d
                 { transfer0 with received := transfer0.received + 1 } }
             (scheduled ++ [Action.safeSend R (relayOfChunk data)])) := by
  obtain ⟨_, hdst, payload, hp, htot⟩ := hc
  have h1 := prop_isSome_of_prop htot "chunk"
  have h3 := prop_isSome_of_prop htot "chunkIndex"
  have h4 := prop_isSome_of_prop htot "fileName"
  have hpay : data.optProp "data" = payload := optProp_of_prop hp
  have htot' : payload.optProp "totalChunks" = .ofNat N := optProp_of_prop htot
  have hdst' : data.optProp "destination" = .prim d := optProp_of_prop hdst
  simp only [FILE_CHUNK, hp, h1, htot, h3, h4, hdst', hR, relayOfChunk, chunkIndexOf,
    fileNameOf, hpay, htot']

theorem FILE_CHUNK_progress (st : State) (data : JVal) (d : Prim) (R : Conn) (N j : Nat)
    (hc : IsChunk d N data) (hR : st.originCodeMap.get d = some R)
    (hp : Progress d N j st) (hj : j + 1 < N) :
    Progress d N (j + 1) (FILE_CHUNK st data).st ∧
    (FILE_CHUNK st data).st.originCodeMap = st.originCodeMap ∧
    calls (FILE_CHUNK st data).acts = [(R, relayOfChunk data)] := by
  rw [FILE_CHUNK_of_chunk st data d R N hc hR]
  rcases hp with ⟨hj0, hnone⟩ | ⟨hjpos, t, ht, hrec, htotal⟩
  · subst hj0
    have hhas : st.transferMap.has d = false := (JMap.has_eq_false_iff _ _).2 hnone
    have hN : ¬ N = 1 := by omega
    simp [hhas, JMap.get_set_self, strictEqNum_ofNat, hN, Outcome.done, calls, Progress]
  · have hhas : st.transferMap.has d = true := by simp [JMap.has, ht]
    have hN : ¬ N = j + 1 := by omega
    simp [hhas, ht, hrec, htotal, strictEqNum_ofNat, hN, Outcome.done, calls, Progress,
      JMap.get_set_self]

theorem FILE_CHUNK_final (st : State) (data : JVal) (d : Prim) (R : Conn) (N j : Nat)
    (hc : IsChunk d N data) (hR : st.originCodeMap.get d = some R)
    (hp : Progress d N j st) (hj : j + 1 = N) :
    (FILE_CHUNK st data).st.transferMap.get d = none ∧
    (FILE_CHUNK st data).st.originCodeMap = st.originCodeMap ∧
    calls (FILE_CHUNK st data).acts
      = [(R, relayOfChunk data), (R, fileCompleteMessage (fileNameOf data))] := by
  rw [FILE_CHUNK_of_chunk st data d R N hc hR]
  rcases hp with ⟨hj0, hnone⟩ | ⟨hjpos, t, ht, hrec, htotal⟩
  · subst hj0
    have hhas : st.transferMap.has d = false := (JMap.has_eq_false_iff _ _).2 hnone
    have hN : N = 1 := by omega
    simp [hhas, JMap.get_set_self, strictEqNum_ofNat, hN, Outcome.done, calls,
      JMap.get_delete_self]
  · have hhas : st.transferMap.has d = true := by simp [JMap.has, ht]
    have hN : N = j + 1 := by omega
    simp [hhas, ht, hrec, htotal, strictEqNum_ofNat, hN, Outcome.done, calls,
      JMap.get_delete_self]

theorem perform_fields (effs : List Effect) (s : Sys) :
    (Sys.perform s effs).sent = s.sent ++ sends effs ∧
    (Sys.perform s effs).st = s.st ∧ (Sys.perform s effs).now = s.now := by
  induction effs generalizing s with
  | nil => simp [Sys.perform, sends]
  | cons e rest ih =>
    cases e with
    | send ws message =>
      have h := ih { s with sent := s.sent ++ [(ws, message)] }
      simp [Sys.perform, sends, h]
    | setTimeout cb delay =>
      have h := ih { s with timers := s.timers ++ [(s.now + delay, cb)] }
      simp [Sys.perform, sends, h]

theorem sends_append (a b : List Effect) : sends (a ++ b) = sends a ++ sends b := by
  induction a with
  | nil => simp [sends]
  | cons e rest ih => cases e <;> simp [sends, ih]

theorem sends_runActions (R : Conn) (acts : List Action) (status : Nat → Conn → ConnStatus)
    (hopen : ∀ k, (status k R).readyState = OPEN ∧ (status k R).congested = false)
    (hto : ∀ c ∈ calls acts, c.1 = R) :
    sends (runActions status acts) = calls acts := by
  induction acts generalizing status with
  | nil => simp [runActions, sends, calls]
  | cons a rest ih =>
    have hrest := ih (fun k => status (k + 1)) (fun k => hopen (k + 1))
    cases a with
    | safeSend ws message =>
      have hws : ws = R := hto (ws, message) (by simp [calls])
      subst hws
      have h := hrest (fun c hc => hto c (by simp [calls, hc]))
      simp [runActions, Action.run, safeSend, (hopen 0).1, (hopen 0).2, sends, calls, h]
    | scheduleTransferCleanup dst =>
      have h := hrest (fun c hc => hto c (by simpa [calls] using hc))
      simp [runActions, Action.run, sends, calls, h]

theorem onMessage_chunk (env : Env) (st : State) (ws : Conn) (data : JVal) (d : Prim)
    (N : Nat) (hc : IsChunk d N data) :
    onMessage env st ws (some data) = FILE_CHUNK st data := by
  have h : ("FILE_CHUNK" : String) ≠ "HEARTBEAT" ∧ ("FILE_CHUNK" : String) ≠ "REQUIST_SHARE_CODE"
      ∧ ("FILE_CHUNK" : String) ≠ "CONNECTION_REQUEST"
      ∧ ("FILE_CHUNK" : String) ≠ "CONNECTION_ACCEPT" := by decide
  simp [onMessage, hc.1, JVal.ofString, JVal.toStr, Prim.toStr, eventHandlers.lookup,
    eventHandlers.call, h]

theorem step_chunk (s : Sys) (m : Inbound) (d : Prim) (R : Conn) (N : Nat)
    (hc : IsChunk d N m.data)
    (hopen : ∀ k, (m.status k R).readyState = OPEN ∧ (m.status k R).congested = false)
    (hto : ∀ c ∈ calls (FILE_CHUNK s.st m.data).acts, c.1 = R) :
    (Sys.step (Sys.step s (.tick m.after)) m.event).st = (FILE_CHUNK s.st m.data).st ∧
    (Sys.step (Sys.step s (.tick m.after)) m.event).sent
      = s.sent ++ calls (FILE_CHUNK s.st m.data).acts := by
  have hp := perform_fields
    (runActions m.status (FILE_CHUNK s.st m.data).acts)
    { s with now := s.now + m.after, st := (FILE_CHUNK s.st m.data).st }
  simp only [Inbound.event, Sys.step, onMessage_chunk m.env s.st m.ws m.data d N hc]
  rw [sends_runActions R _ m.status hopen hto] at hp
  exact ⟨hp.2.1, hp.1⟩

theorem run_append (s : Sys) (a b : List Event) :
    Sys.run s (a ++ b) = Sys.run (Sys.run s a) b := by
  simp [Sys.run, List.foldl_append]

theorem arrivals_append (a b : List Inbound) : arrivals (a ++ b) = arrivals a ++ arrivals b := by
  induction a with
  | nil => simp [arrivals]
  | cons m rest ih => simp [arrivals, ih]

theorem run_chunks_upto (d : Prim) (R : Conn) (N : Nat) :
    ∀ (msgs : List Inbound) (s : Sys) (j : Nat),
      (∀ m ∈ msgs, IsChunk d N m.data) →
      (∀ m ∈ msgs, ∀ k, (m.status k R).readyState = OPEN ∧ (m.status k R).congested = false) →
      s.st.originCodeMap.get d = some R →
      Progress d N j s.st →
      j + msgs.length < N →
      Progress d N (j + msgs.length) (Sys.run s (arrivals msgs)).st ∧
      (Sys.run s (arrivals msgs)).st.originCodeMap = s.st.originCodeMap ∧
      (Sys.run s (arrivals msgs)).sent
        = s.sent ++ msgs.map (fun m => (R, relayOfChunk m.data)) := by
  intro msgs
  induction msgs with
  | nil =>
    intro s j _ _ _ hp _
    simpa [Sys.run, arrivals] using hp
  | cons m rest ih =>
    intro s j hc hopen hR hp hlt
    have hcm := hc m (List.mem_cons_self _ _)
    have hom := hopen m (List.mem_cons_self _ _)
    have hlen : j + 1 < N := by simp at hlt; omega
    obtain ⟨hp1, ho1, hcalls⟩ := FILE_CHUNK_progress s.st m.data d R N j hcm hR hp hlen
    have hstep := step_chunk s m d R N hcm hom (by simp [hcalls])
    have hR1 : (Sys.step (Sys.step s (.tick m.after)) m.event).st.originCodeMap.get d
        = some R := by
      rw [hstep.1, ho1]; exact hR
    have hp1' : Progress d N (j + 1) (Sys.step (Sys.step s (.tick m.after)) m.event).st := by
      rw [hstep.1]; exact hp1
    have hrec := ih (Sys.step (Sys.step s (.tick m.after)) m.event) (j + 1)
      (fun x hx => hc x (List.mem_cons_of_mem _ hx))
      (fun x hx => hopen x (List.mem_cons_of_mem _ hx)) hR1 hp1'
      (by simp at hlt; omega)
    have hrun : Sys.run s (arrivals (m :: rest))
        = Sys.run (Sys.step (Sys.step s (.tick m.after)) m.event) (arrivals rest) := by
      simp [Sys.run, arrivals]
    rw [hrun]
    refine ⟨?_, ?_, ?_⟩
    · have : j + (m :: rest).length = j + 1 + rest.length := by simp; omega
      rw [this]; exact hrec.1
    · rw [hrec.2.1, hstep.1, ho1]
    · rw [hrec.2.2, hstep.2, hcalls]; simp

/-- C1: let `d` resolve in `originCodeMap` to `R` and have no TransferState,
and let `N >= 1` inbound `FILE_CHUNK` messages for `d`, each declaring
`totalChunks = N`, with pairwise distinct `chunkIndex` values in whatever
order, be handled one after the other, any time passing between them,
while `R` is open and below the buffer mark at every send. Then the messages written are exactly the `N`
relayed `FILE_CHUNK` messages to `R`, in arrival order, followed by one
`FILE_COMPLETE` to `R` naming the file of the last chunk; after `k` chunks
with `0 < k < N` the TransferState holds `received = k`, the last chunk
finds the count at `N - 1` and raises it to `total`, and afterwards
`transferMap` has no entry for `d`. -/
theorem file_chunks_complete (s : Sys) (d : Prim) (R : Conn) (N : Nat)
    (msgs : List Inbound) (last : Inbound)
    (hN : 1 ≤ N)
    (hR : s.st.originCodeMap.get d = some R)
    (hT : s.st.transferMap.get d = none)
    (hlen : msgs.length = N)
    (hlast : msgs.getLast? = some last)
    (hc : ∀ m ∈ msgs, IsChunk d N m.data)
    (hopen : ∀ m ∈ msgs, ∀ k,
      (m.status k R).readyState = OPEN ∧ (m.status k R).congested = false)
    (_hidx : (msgs.map (fun m => chunkIndexOf m.data)).Nodup) :
    (Sys.run s (arrivals msgs)).sent
      = s.sent ++ msgs.map (fun m => (R, relayOfChunk m.data))
          ++ [(R, fileCompleteMessage (fileNameOf last.data))] ∧
    (Sys.run s (arrivals msgs)).st.transferMap.get d = none ∧
    (∀ k, 0 < k → k < N →
      ((Sys.run s (arrivals (msgs.take k))).st.transferMap.get d).map
        (fun t => t.received) = some k) ∧
    Progress d N (N - 1) (Sys.run s (arrivals (msgs.take (N - 1)))).st ∧
    (Sys.run s (arrivals msgs)).st.originCodeMap = s.st.originCodeMap := by
  have hp0 : Progress d N 0 s.st := Or.inl ⟨rfl, hT⟩
  have hupto : ∀ k, k < N →
      Progress d N k (Sys.run s (arrivals (msgs.take k))).st ∧
      (Sys.run s (arrivals (msgs.take k))).st.originCodeMap = s.st.originCodeMap ∧
      (Sys.run s (arrivals (msgs.take k))).sent
        = s.sent ++ (msgs.take k).map (fun m => (R, relayOfChunk m.data)) := by
    intro k hk
    have hl : (msgs.take k).length = k := by simp [List.length_take]; omega
    have h := run_chunks_upto d R N (msgs.take k) s 0
      (fun m hm => hc m (List.mem_of_mem_take hm))
      (fun m hm => hopen m (List.mem_of_mem_take hm)) hR hp0 (by omega)
    rw [hl] at h
    simpa using h
  obtain ⟨init, hinit⟩ := List.getLast?_eq_some_iff.1 hlast
  have hil : init.length = N - 1 := by
    have : msgs.length = init.length + 1 := by simp [hinit]
    omega
  have htake : msgs.take (N - 1) = init := by
    rw [hinit]; exact List.take_left' hil
  obtain ⟨hpi, hoi, hsi⟩ := hupto (N - 1) (by omega)
  rw [htake] at hpi hoi hsi
  have hcl : IsChunk d N last.data := hc last (by simp [hinit])
  have hol := hopen last (by simp [hinit])
  have hRi : (Sys.run s (arrivals init)).st.originCodeMap.get d = some R := by
    rw [hoi]; exact hR
  obtain ⟨hf1, hf2, hf3⟩ := FILE_CHUNK_final (Sys.run s (arrivals init)).st
    last.data d R N (N - 1) hcl hRi hpi (by omega)
  have hstep := step_chunk (Sys.run s (arrivals init)) last d R N hcl hol
    (by simp [hf3])
  have hrun : Sys.run s (arrivals msgs)
      = Sys.step (Sys.step (Sys.run s (arrivals init)) (.tick last.after)) last.event := by
    rw [hinit, arrivals_append, run_append]
    simp [Sys.run, arrivals]
  refine ⟨?_, ?_, ?_, ?_, ?_⟩
  · rw [hrun, hstep.2, hf3, hsi, hinit]; simp
  · rw [hrun, hstep.1]; exact hf1
  · intro k hk0 hkN
    rcases (hupto k hkN).1 with ⟨h0, _⟩ | ⟨_, t, ht, hrec, _⟩
    · omega
    · rw [ht]; simp [hrec]
  · rw [htake]; exact hpi
  · rw [hrun, hstep.1, hf2, hoi]

/-- Witness for C1: three chunks of "a.txt" for origin code "a1" (connection
5) arriving in the order 2, 0, 1. -/
theorem file_chunks_complete_witness :
    (Sys.run sampleSys
        (arrivals
          [sampleChunk 2 3 "a.txt", sampleChunk 0 3 "a.txt", sampleChunk 1 3 "a.txt"])).sent
      = [(5, relayOfChunk (sampleChunk 2 3 "a.txt").data),
         (5, relayOfChunk (sampleChunk 0 3 "a.txt").data),
         (5, relayOfChunk (sampleChunk 1 3 "a.txt").data),
         (5, fileCompleteMessage (.ofString "a.txt"))] ∧
    (Sys.run sampleSys
        (arrivals
          [sampleChunk 2 3 "a.txt", sampleChunk 0 3 "a.txt", sampleChunk 1 3 "a.txt"])).st.transferMap.get
      (.str "a1") = none :=
  have h := file_chunks_complete sampleSys (.str "a1") 5 3
    [sampleChunk 2 3 "a.txt", sampleChunk 0 3 "a.txt", sampleChunk 1 3 "a.txt"]
    (sampleChunk 1 3 "a.txt") (by decide) rfl rfl rfl rfl
    (by
      intro m hm
      simp only [List.mem_cons, List.mem_singleton, List.not_mem_nil, or_false] at hm
      rcases hm with rfl | rfl | rfl <;>
        exact ⟨rfl, rfl, _, rfl, rfl⟩)
    (by
      intro m hm k
      simp only [List.mem_cons, List.mem_singleton, List.not_mem_nil, or_false] at hm
      rcases hm with rfl | rfl | rfl <;> exact ⟨rfl, rfl⟩)
    (by
      simp [chunkIndexOf, sampleChunk, chunkFor, JVal.optProp, JVal.prop, ownProp,
        JVal.ofNat])
  ⟨h.1, h.2.1⟩

/-! ## Dispatch -/

theorem DEFAULT_state (st : State) (data : JVal) : (DEFAULT st data).st = st := by
  unfold DEFAULT
  split
  · rfl
  · split <;> rfl

theorem onMessage_unlisted (env : Env) (st : State) (ws : Conn) (data event : JVal)
    (key : String) (he : data.prop "event" = some event) (hk : event.toStr = some key)
    (hl : eventHandlers.lookup key = none ∨ eventHandlers.lookup key = some .DEFAULT) :
    onMessage env st ws (some data) = DEFAULT st data := by
  rcases hl with h | h <;> simp [onMessage, he, hk, h, eventHandlers.call]

theorem onMessage_inherited (env : Env) (st : State) (ws : Conn) (data event : JVal)
    (key : String) (he : data.prop "event" = some event) (hk : event.toStr = some key)
    (hl : eventHandlers.lookup key = some .inheritedQuiet) :
    onMessage env st ws (some data) = Outcome.done st [] := by
  simp [onMessage, he, hk, hl, eventHandlers.call]

theorem request_share_code_falls_through (env : Env) (st : State) (ws : Conn) (data : JVal)
    (he : data.prop "event" = some (.ofString "REQUEST_SHARE_CODE")) :
    onMessage env st ws (some data) = DEFAULT st data ∧
    (onMessage env st ws (some data)).st = st := by
  have h := onMessage_unlisted env st ws data _ "REQUEST_SHARE_CODE" he rfl (Or.inl (by decide))
  rw [h]
  exact ⟨rfl, DEFAULT_state st data⟩

/-- C5, at the failing input: the table has no entry `REQUEST_SHARE_CODE`
(its key is spelt `REQUIST_SHARE_CODE`), so on a fresh server a message with
event `REQUEST_SHARE_CODE` from connection 9 goes to `DEFAULT`, which finds
no destination: nothing is bound in `shareCodeMap` and no `SHARE_CODE` reply
is sent. The same message spelt `REQUIST_SHARE_CODE` binds the generated
code 2002 to connection 9 and replies with it. -/
theorem request_share_code_unhandled :
    eventHandlers.lookup "REQUEST_SHARE_CODE" = none ∧
    onMessage sampleEnv State.init 9 (some sampleShareRequest) = Outcome.done State.init [] ∧
    (onMessage sampleEnv State.init 9 (some sampleShareRequest)).st.shareCodeMap.entries = [] ∧
    (onMessage sampleEnv State.init 9 (some sampleShareRequist)).st.shareCodeMap.entries
      = [(.num 2002, 9)] ∧
    (onMessage sampleEnv State.init 9 (some sampleShareRequist)).acts
      = [Action.safeSend 9 (shareCodeMessage (.num 2002))] :=
  ⟨by decide, rfl, rfl, rfl, rfl⟩

/-- C9, at the failing input: the lookup `eventHandlers["toString"]` finds
the function inherited from `Object.prototype`, so a message named
`toString` whose destination "a1" resolves to connection 5 is not relayed:
the router returns without a single call, where `DEFAULT` would have sent
`{event: "toString", data: "hi"}` to connection 5. A message named `offer`
with the same destination is relayed. -/
theorem inherited_event_not_relayed :
    eventHandlers.lookup "toString" = some .inheritedQuiet ∧
    sampleRegistry.originCodeMap.get (.str "a1") = some 5 ∧
    onMessage sampleEnv sampleRegistry 6 (some sampleToString)
      = Outcome.done sampleRegistry [] ∧
    DEFAULT sampleRegistry sampleToString
      = Outcome.done sampleRegistry
          [Action.safeSend 5 (relayMessage (.ofString "toString") (.ofString "hi"))] ∧
    onMessage sampleEnv sampleRegistry 6 (some sampleOffer)
      = Outcome.done sampleRegistry
          [Action.safeSend 5 (relayMessage (.ofString "offer") (.ofString "hi"))] :=
  ⟨by decide, rfl, rfl, rfl, rfl⟩

/-! ## Expiry timers -/

/-- C10, at the failing run: in `staleRun` the TransferState for "b7" found
at 299999 ms did not exist before the chunk handled at that instant, and the
first pending timer is the expiry callback scheduled at instant 0 for the
earlier, completed transfer to "b7". When that timer fires at 300000 ms it
removes the TransferState created one millisecond before, far less than
`TRANSFER_TIMEOUT` after its creation. -/
theorem stale_timer_removes_fresh_transfer :
    (Sys.run Sys.init (staleRun.take 3)).now = 299999 ∧
    (Sys.run Sys.init (staleRun.take 3)).st.transferMap.get (.str "b7") = none ∧
    (Sys.run Sys.init (staleRun.take 4)).now = 299999 ∧
    ((Sys.run Sys.init (staleRun.take 4)).st.transferMap.get (.str "b7")).map
        (fun t => t.received) = some 1 ∧
    (Sys.run Sys.init staleRun).now = 300000 ∧
    (Sys.run Sys.init staleRun).timers.get? 0
      = some (300000, Timer.transferCleanup (.str "b7")) ∧
    ((Sys.run Sys.init staleRun).st.transferMap.get (.str "b7")).map
        (fun t => t.received) = some 1 ∧
    (Sys.step (Sys.run Sys.init staleRun) (.timeout 0 idle)).st.transferMap.get (.str "b7")
      = none ∧
    (Sys.step (Sys.run Sys.init staleRun) (.timeout 0 idle)).now - 299999 < TRANSFER_TIMEOUT :=
  ⟨rfl, rfl, rfl, rfl, rfl, rfl, rfl, rfl, by decide⟩

/-! ## Retry delays -/

theorem retryDelay_mono {m n : Nat} (h : m ≤ n) : retryDelay m ≤ retryDelay n := by
  have hp : 2 ^ m ≤ 2 ^ n := Nat.pow_le_pow_right (by decide) h
  unfold retryDelay
  omega

theorem retryDelay_cap {n : Nat} (h : 5 ≤ n) : retryDelay n = 2000 := by
  have hp : 2 ^ 5 ≤ 2 ^ n := Nat.pow_le_pow_right (by decide) h
  have h5 : (2 : Nat) ^ 5 = 32 := by decide
  unfold retryDelay
  omega

/-- C18: a deferred `safeSend` with attempt number `n` schedules its retry
after `retryDelay n = min(100 * 2^n, 2000)` milliseconds. The delay is 100
at `n = 0`, doubles from `n` to `n + 1` whenever the doubled value is at
most 2000, is non-decreasing, never exceeds 2000, and is 2000 from `n = 5`
on. -/
theorem retry_delay_schedule (n : Nat) :
    (∀ (s : ConnStatus) (ws : Conn) (message : JVal),
      s.readyState = OPEN → s.congested = true →
      safeSend s ws message n
        = [Effect.setTimeout (Timer.safeSend ws message (n + 1)) (retryDelay n)]) ∧
    retryDelay n = min (100 * 2 ^ n) 2000 ∧
    retryDelay 0 = 100 ∧
    (2 * retryDelay n ≤ 2000 → retryDelay (n + 1) = 2 * retryDelay n) ∧
    (∀ m, m ≤ n → retryDelay m ≤ retryDelay n) ∧
    retryDelay n ≤ 2000 ∧
    (5 ≤ n → retryDelay n = 2000) := by
  refine ⟨?_, rfl, by decide, ?_, fun m h => retryDelay_mono h, ?_, retryDelay_cap⟩
  · intro s ws message h1 h2
    simp [safeSend, h1, h2, retryDelay]
  · intro h
    have hp : 2 ^ (n + 1) = 2 * 2 ^ n := by rw [Nat.pow_succ]; omega
    unfold retryDelay at h ⊢
    omega
  · unfold retryDelay
    omega

/-- Witness for C18: the second retry on a busy connection waits 200 ms,
twice the 100 ms of the first. -/
theorem retry_delay_schedule_witness :
    safeSend busy 5 (.ofString "x") 1
      = [Effect.setTimeout (Timer.safeSend 5 (.ofString "x") 2) 200] ∧
    retryDelay 1 = 2 * retryDelay 0 :=
  ⟨(retry_delay_schedule 1).1 busy 5 (.ofString "x") rfl (by decide),
   (retry_delay_schedule 0).2.2.2.1 (by decide)⟩

/-! ## Expiry callback -/

theorem getList_none_no_entry {V : Type} {k : Prim} {l : List (Prim × V)}
    (h : JMap.getList k l = none) : ∀ e ∈ l, e.1 ≠ k := by
  induction l with
  | nil => simp
  | cons e rest ih =>
    obtain ⟨k0, v0⟩ := e
    by_cases h0 : k0 = k
    · simp [JMap.getList, h0] at h
    · simp only [JMap.getList, h0, if_false] at h
      intro x hx
      rcases List.mem_cons.1 hx with rfl | hx'
      · exact h0
      · exact ih h x hx'

theorem step_timeout_cleanup (s : Sys) (i due : Nat) (d : Prim) (status : ConnStatus)
    (ht : s.timers.get? i = some (due, Timer.transferCleanup d)) (hdue : due ≤ s.now) :
    (Sys.step s (.timeout i status)).st = transferCleanup s.st d := by
  have ht' : s.timers[i]? = some (due, Timer.transferCleanup d) := by simpa using ht
  simp [Sys.step, ht', hdue]

/-- C17: when the expiry callback for `d` runs, `transferMap` afterwards has
no entry for `d` (whatever that entry held), the entries under other keys
are exactly those from before, nothing else of the state changes, and with
no entry for `d` the state is left as it is. Firing a due timer that holds
this callback does exactly that to the server state. -/
theorem expiry_removes_transfer (st : State) (d : Prim) :
    (transferCleanup st d).transferMap.get d = none ∧
    (∀ e ∈ (transferCleanup st d).transferMap.entries, e.1 ≠ d) ∧
    (∀ k, k ≠ d → (transferCleanup st d).transferMap.get k = st.transferMap.get k) ∧
    (∀ e ∈ st.transferMap.entries, e.1 ≠ d →
      e ∈ (transferCleanup st d).transferMap.entries) ∧
    (∀ e ∈ (transferCleanup st d).transferMap.entries, e ∈ st.transferMap.entries) ∧
    (transferCleanup st d).shareCodeMap = st.shareCodeMap ∧
    (transferCleanup st d).originCodeMap = st.originCodeMap ∧
    (transferCleanup st d).NoOfVisitors = st.NoOfVisitors ∧
    (transferCleanup st d).NoOfFilesTransferred = st.NoOfFilesTransferred ∧
    (st.transferMap.get d = none → transferCleanup st d = st) ∧
    (∀ (s : Sys) (i due : Nat) (status : ConnStatus),
      s.st = st → s.timers.get? i = some (due, Timer.transferCleanup d) → due ≤ s.now →
      (Sys.step s (.timeout i status)).st = transferCleanup st d) := by
  by_cases hhas : st.transferMap.has d = true
  · have hd : transferCleanup st d = { st with transferMap := st.transferMap.delete d } := by
      simp [transferCleanup, hhas]
    rw [hd]
    refine ⟨JMap.get_delete_self _ _, ?_, fun k hk => JMap.get_delete_ne _ hk, ?_, ?_,
      rfl, rfl, rfl, rfl, ?_, ?_⟩
    · intro e he
      simp only [JMap.delete, List.mem_filter] at he
      exact of_decide_eq_true he.2
    · intro e he hne
      simp only [JMap.delete, List.mem_filter]
      exact ⟨he, decide_eq_true hne⟩
    · intro e he
      simp only [JMap.delete, List.mem_filter] at he
      exact he.1
    · intro hnone
      simp [JMap.has, hnone] at hhas
    · intro s i due status hs ht hdue
      rw [step_timeout_cleanup s i due d status ht hdue, hs, hd]
  · have hfalse : st.transferMap.has d = false := by simpa using hhas
    have hnone : st.transferMap.get d = none := (JMap.has_eq_false_iff _ _).1 hfalse
    have hd : transferCleanup st d = st := by simp [transferCleanup, hfalse]
    rw [hd]
    refine ⟨hnone, getList_none_no_entry hnone, fun _ _ => rfl, fun e he _ => he,
      fun e he => he, rfl, rfl, rfl, rfl, fun _ => rfl, ?_⟩
    intro s i due status hs ht hdue
    rw [step_timeout_cleanup s i due d status ht hdue, hs, hd]

/-! ## The chunk handler, case by case -/

theorem FILE_CHUNK_fresh (st : State) (data payload : JVal) (d : Prim) (R : Conn)
    (hp : data.prop "data" = some payload)
    (h1 : payload ≠ .prim .null) (h2 : payload ≠ .prim .undefined)
    (hd : data.prop "destination" = some (.prim d))
    (hR : st.originCodeMap.get d = some R)
    (hno : st.transferMap.get d = none) :
    FILE_CHUNK st data =
      if strictEqNum 1 (payload.optProp "totalChunks") then
        Outcome.done
          { st with
            transferMap := ((st.transferMap.set d
              { total := payload.optProp "totalChunks", received := 0,
                fileName := fileNameOf data }).set d
              { total := payload.optProp "totalChunks", received := 1,
                fileName := fileNameOf data }).delete d }
          [Action.scheduleTransferCleanup d, Action.safeSend R (relayOfChunk data),
           Action.safeSend R (fileCompleteMessage (fileNameOf data))]
      else
        Outcome.done
          { st with
            transferMap := (st.transferMap.set d
              { total := payload.optProp "totalChunks", received := 0,
                fileName := fileNameOf data }).set d
              { total := payload.optProp "totalChunks", received := 1,
                fileName := fileNameOf data } }
          [Action.scheduleTransferCleanup d, Action.safeSend R (relayOfChunk data)] := by
  obtain ⟨x1, hx1⟩ := prop_of_ne_nullish payload "chunk" h1 h2
  have hc := prop_isSome_of_prop hx1 "chunk"
  have ht := prop_isSome_of_prop hx1 "totalChunks"
  have hi := prop_isSome_of_prop hx1 "chunkIndex"
  have hf := prop_isSome_of_prop hx1 "fileName"
  have hpay : data.optProp "data" = payload := optProp_of_prop hp
  have hdst : data.optProp "destination" = .prim d := optProp_of_prop hd
  have hhas : st.transferMap.has d = false := (JMap.has_eq_false_iff _ _).2 hno
  simp [FILE_CHUNK, hp, hc, ht, hi, hf, hdst, hR, hhas, relayOfChunk, chunkIndexOf,
    fileNameOf, hpay, JMap.get_set_self]

theorem FILE_CHUNK_ongoing (st : State) (data payload : JVal) (d : Prim) (R : Conn)
    (t : Transfer)
    (hp : data.prop "data" = some payload)
    (h1 : payload ≠ .prim .null) (h2 : payload ≠ .prim .undefined)
    (hd : data.prop "destination" = some (.prim d))
    (hR : st.originCodeMap.get d = some R)
    (ht0 : st.transferMap.get d = some t) :
    FILE_CHUNK st data =
      if strictEqNum (t.received + 1) t.total then
        Outcome.done
          { st with
            transferMap := (st.transferMap.set d
              { t with received := t.received + 1 }).delete d }
          [Action.safeSend R (relayOfChunk data),
           Action.safeSend R (fileCompleteMessage (fileNameOf data))]
      else
        Outcome.done
          { st with
            transferMap := st.transferMap.set d { t with received := t.received + 1 } }
          [Action.safeSend R (relayOfChunk data)] := by
  obtain ⟨x1, hx1⟩ := prop_of_ne_nullish payload "chunk" h1 h2
  have hc := prop_isSome_of_prop hx1 "chunk"
  have ht := prop_isSome_of_prop hx1 "totalChunks"
  have hi := prop_isSome_of_prop hx1 "chunkIndex"
  have hf := prop_isSome_of_prop hx1 "fileName"
  have hpay : data.optProp "data" = payload := optProp_of_prop hp
  have hdst : data.optProp "destination" = .prim d := optProp_of_prop hd
  have hhas : st.transferMap.has d = true := by simp [JMap.has, ht0]
  simp [FILE_CHUNK, hp, hc, ht, hi, hf, hdst, hR, hhas, ht0, relayOfChunk, chunkIndexOf,
    fileNameOf, hpay]

theorem FILE_CHUNK_dropped (st : State) (data : JVal)
    (h : ∀ payload d R, data.prop "data" = some payload → payload ≠ .prim .null →
      payload ≠ .prim .undefined → data.prop "destination" = some (.prim d) →
      st.originCodeMap.get d = some R → False) :
    (FILE_CHUNK st data).st = st ∧ (FILE_CHUNK st data).acts = [] := by
  cases hp : data.prop "data" with
  | none => simp [FILE_CHUNK, hp, Outcome.raise]
  | some payload =>
    by_cases h1 : payload = .prim .null
    · subst h1
      have hn : ∀ name, (JVal.prim Prim.null).prop name = none := fun _ => rfl
      simp [FILE_CHUNK, hp, hn, Outcome.raise]
    · by_cases h2 : payload = .prim .undefined
      · subst h2
        have hn : ∀ name, (JVal.prim Prim.undefined).prop name = none := fun _ => rfl
        simp [FILE_CHUNK, hp, hn, Outcome.raise]
      · obtain ⟨x1, hx1⟩ := prop_of_ne_nullish payload "chunk" h1 h2
        have hc := prop_isSome_of_prop hx1 "chunk"
        have ht := prop_isSome_of_prop hx1 "totalChunks"
        have hi := prop_isSome_of_prop hx1 "chunkIndex"
        have hf := prop_isSome_of_prop hx1 "fileName"
        have hdd := prop_isSome_of_prop hp "destination"
        cases hdst : data.optProp "destination" with
        | prim d =>
          rw [hdst] at hdd
          cases hR : st.originCodeMap.get d with
          | none => simp [FILE_CHUNK, hp, hc, ht, hi, hf, hdst, hR, Outcome.done]
          | some R => exact (h payload d R hp h1 h2 hdd hR).elim
        | arr xs => simp [FILE_CHUNK, hp, hc, ht, hi, hf, hdst, Outcome.done]
        | obj kvs => simp [FILE_CHUNK, hp, hc, ht, hi, hf, hdst, Outcome.done]

/-- C16: when `d` resolves to `R` and has no TransferState, one `FILE_CHUNK`
for `d` declaring `totalChunks = T` with `T >= 2` returns normally: it
schedules the expiry timer, relays the chunk to `R` and nothing else, and
leaves for `d` a TransferState with `total = T`, `received = 1` and the file
name of the chunk. The router hands such a message to this handler. -/
theorem chunk_starts_transfer (env : Env) (st : State) (ws : Conn) (data : JVal)
    (d : Prim) (R : Conn) (T : Nat)
    (hT : 2 ≤ T) (hc : IsChunk d T data)
    (hR : st.originCodeMap.get d = some R)
    (hno : st.transferMap.get d = none) :
    onMessage env st ws (some data) = FILE_CHUNK st data ∧
    (FILE_CHUNK st data).threw = false ∧
    (FILE_CHUNK st data).acts
      = [Action.scheduleTransferCleanup d, Action.safeSend R (relayOfChunk data)] ∧
    (FILE_CHUNK st data).st.transferMap.get d
      = some { total := .ofNat T, received := 1, fileName := fileNameOf data } ∧
    (FILE_CHUNK st data).st.originCodeMap = st.originCodeMap ∧
    (FILE_CHUNK st data).st.shareCodeMap = st.shareCodeMap := by
  obtain ⟨he, hd, payload, hp, htot⟩ := hc
  have h1 : payload ≠ .prim .null := by
    intro h; rw [h] at htot; exact absurd htot (by simp [JVal.prop])
  have h2 : payload ≠ .prim .undefined := by
    intro h; rw [h] at htot; exact absurd htot (by simp [JVal.prop])
  have htot' : payload.optProp "totalChunks" = .ofNat T := optProp_of_prop htot
  have hne : ¬ T = 1 := by omega
  have hf := FILE_CHUNK_fresh st data payload d R hp h1 h2 hd hR hno
  rw [htot', strictEqNum_ofNat] at hf
  simp only [hne, decide_False, Bool.false_eq_true, if_false] at hf
  refine ⟨onMessage_chunk env st ws data d T ⟨he, hd, payload, hp, htot⟩, ?_⟩
  rw [hf]
  exact ⟨rfl, rfl, JMap.get_set_self _ _ _, rfl, rfl⟩

/-- Witness for C16: right after the transfer of "a.txt" to origin code "a1"
completed, a chunk of "b.txt" declaring four chunks starts a new
TransferState for "a1". -/
theorem chunk_starts_transfer_witness :
    sampleCompleted.st.transferMap.get (.str "a1") = none ∧
    (FILE_CHUNK sampleCompleted.st (chunkFor "a1" 0 4 "b.txt")).st.transferMap.get (.str "a1")
      = some { total := .ofNat 4, received := 1, fileName := .ofString "b.txt" } :=
  ⟨rfl, (chunk_starts_transfer sampleEnv sampleCompleted.st 6 (chunkFor "a1" 0 4 "b.txt")
    (.str "a1") 5 4 (by decide) ⟨rfl, rfl, _, rfl, rfl⟩ rfl rfl).2.2.2.1⟩

/-! ## Pairing, step after step -/

theorem CONNECTION_REQUEST_frame (env : Env) (st : State) (ws : Conn) (data : JVal) :
    (CONNECTION_REQUEST env st ws data).st
      = { st with originCodeMap := st.originCodeMap.set env.originCode ws } := by
  cases hd : data.prop "destination" with
  | none => simp [CONNECTION_REQUEST, hd, Outcome.raise]
  | some destination =>
    cases hn : env.Number destination with
    | none => simp [CONNECTION_REQUEST, hd, hn, Outcome.raise]
    | some code =>
      cases hA : st.shareCodeMap.get code with
      | none => simp [CONNECTION_REQUEST, hd, hn, hA, Outcome.done]
      | some A => simp [CONNECTION_REQUEST, hd, hn, hA, Outcome.done]

theorem CONNECTION_REQUEST_resolved (env : Env) (st : State) (A B : Conn)
    (data destination : JVal) (c : Prim)
    (hd : data.prop "destination" = some destination)
    (hn : env.Number destination = some c)
    (hA : st.shareCodeMap.get c = some A) :
    CONNECTION_REQUEST env st B data
      = Outcome.done { st with originCodeMap := st.originCodeMap.set env.originCode B }
          [Action.safeSend B (requestAckMessage env.originCode),
           Action.safeSend A (requestNoticeMessage env.originCode)] := by
  simp [CONNECTION_REQUEST, hd, hn, hA]

theorem CONNECTION_ACCEPT_binds (env : Env) (st : State) (ws R : Conn)
    (data destination : JVal)
    (hd : data.prop "destination" = some destination)
    (hR : st.originCodeMap.getJ destination = some R) :
    (CONNECTION_ACCEPT env st ws data).st.originCodeMap
      = st.originCodeMap.set env.originCode ws := by
  cases hj : jsAdd st.NoOfFilesTransferred
      (((data.optProp "data").optProp "files").orElse (.arr [])).length with
  | none => simp [CONNECTION_ACCEPT, hd, hR, hj, Outcome.raise]
  | some total => simp [CONNECTION_ACCEPT, hd, hR, hj, Outcome.done]

theorem DEFAULT_resolved (st : State) (data : JVal) (d : Prim) (R : Conn)
    (hd : data.prop "destination" = some (.prim d))
    (hR : st.originCodeMap.get d = some R) :
    DEFAULT st data
      = Outcome.done st
          [Action.safeSend R (relayMessage (data.optProp "event") (data.optProp "data"))] := by
  have hJ : st.originCodeMap.getJ (.prim d) = some R := by simpa [JMap.getJ] using hR
  simp [DEFAULT, hd, hJ]

theorem FILE_CHUNK_relays (st : State) (data payload : JVal) (d : Prim) (R : Conn)
    (hp : data.prop "data" = some payload)
    (h1 : payload ≠ .prim .null) (h2 : payload ≠ .prim .undefined)
    (hd : data.prop "destination" = some (.prim d))
    (hR : st.originCodeMap.get d = some R) :
    (FILE_CHUNK st data).threw = false ∧
    (calls (FILE_CHUNK st data).acts = [(R, relayOfChunk data)] ∨
     calls (FILE_CHUNK st data).acts
       = [(R, relayOfChunk data), (R, fileCompleteMessage (fileNameOf data))]) := by
  cases ht : st.transferMap.get d with
  | none =>
    rw [FILE_CHUNK_fresh st data payload d R hp h1 h2 hd hR ht]
    split
    · exact ⟨rfl, Or.inr rfl⟩
    · exact ⟨rfl, Or.inl rfl⟩
  | some t =>
    rw [FILE_CHUNK_ongoing st data payload d R t hp h1 h2 hd hR ht]
    split
    · exact ⟨rfl, Or.inr rfl⟩
    · exact ⟨rfl, Or.inl rfl⟩

/-- C15: let `A` hold share code `c`, let `B`'s `CONNECTION_REQUEST` naming
`c` be handled (generating the origin code `O1 = env1.originCode`) and then
`A`'s `CONNECTION_ACCEPT` naming `O1` (generating `O2 = env2.originCode`,
which is not a key of `originCodeMap` when it is generated). The request
is acknowledged to `B` and notified to `A`, and in the state reached `originCodeMap` resolves `O1` to `B` and `O2` to `A`; a generic
relay naming `O1` is sent to `B` and one naming `O2` to `A`, and a
`FILE_CHUNK` with a payload naming `O1` is relayed to `B` and one naming
`O2` to `A`. -/
theorem pairing_addresses_both (env1 env2 : Env) (st : State) (A B : Conn)
    (data1 data2 dest1 : JVal) (c : Prim)
    (hA : st.shareCodeMap.get c = some A)
    (hd1 : data1.prop "destination" = some dest1) (hn1 : env1.Number dest1 = some c)
    (hd2 : data2.prop "destination" = some (.prim env1.originCode))
    (hfresh : (CONNECTION_REQUEST env1 st B data1).st.originCodeMap.get env2.originCode
      = none) :
    (CONNECTION_REQUEST env1 st B data1).acts
      = [Action.safeSend B (requestAckMessage env1.originCode),
         Action.safeSend A (requestNoticeMessage env1.originCode)] ∧
    (paired env1 env2 st A B data1 data2).originCodeMap.get env1.originCode = some B ∧
    (paired env1 env2 st A B data1 data2).originCodeMap.get env2.originCode = some A ∧
    (∀ data, data.prop "destination" = some (.prim env1.originCode) →
      DEFAULT (paired env1 env2 st A B data1 data2) data
        = Outcome.done (paired env1 env2 st A B data1 data2)
            [Action.safeSend B (relayMessage (data.optProp "event") (data.optProp "data"))]) ∧
    (∀ data, data.prop "destination" = some (.prim env2.originCode) →
      DEFAULT (paired env1 env2 st A B data1 data2) data
        = Outcome.done (paired env1 env2 st A B data1 data2)
            [Action.safeSend A (relayMessage (data.optProp "event") (data.optProp "data"))]) ∧
    (∀ data payload, data.prop "data" = some payload →
      payload ≠ .prim .null → payload ≠ .prim .undefined →
      data.prop "destination" = some (.prim env1.originCode) →
      (FILE_CHUNK (paired env1 env2 st A B data1 data2) data).threw = false ∧
      (calls (FILE_CHUNK (paired env1 env2 st A B data1 data2) data).acts).head?
        = some (B, relayOfChunk data)) ∧
    (∀ data payload, data.prop "data" = some payload →
      payload ≠ .prim .null → payload ≠ .prim .undefined →
      data.prop "destination" = some (.prim env2.originCode) →
      (FILE_CHUNK (paired env1 env2 st A B data1 data2) data).threw = false ∧
      (calls (FILE_CHUNK (paired env1 env2 st A B data1 data2) data).acts).head?
        = some (A, relayOfChunk data)) := by
  have hreq : (CONNECTION_REQUEST env1 st B data1).st.originCodeMap
      = st.originCodeMap.set env1.originCode B := by
    rw [CONNECTION_REQUEST_frame]
  have hO1 : (CONNECTION_REQUEST env1 st B data1).st.originCodeMap.get env1.originCode
      = some B := by
    rw [hreq]; exact JMap.get_set_self _ _ _
  have hne : env1.originCode ≠ env2.originCode := by
    intro h
    rw [← h, hO1] at hfresh
    exact absurd hfresh (by simp)
  have hmap : (paired env1 env2 st A B data1 data2).originCodeMap
      = (CONNECTION_REQUEST env1 st B data1).st.originCodeMap.set env2.originCode A :=
    CONNECTION_ACCEPT_binds env2 _ A B data2 (.prim env1.originCode) hd2
      (by simpa [JMap.getJ] using hO1)
  have hB : (paired env1 env2 st A B data1 data2).originCodeMap.get env1.originCode
      = some B := by
    rw [hmap, JMap.get_set_ne _ hne]; exact hO1
  have hA2 : (paired env1 env2 st A B data1 data2).originCodeMap.get env2.originCode
      = some A := by
    rw [hmap]; exact JMap.get_set_self _ _ _
  refine ⟨by rw [CONNECTION_REQUEST_resolved env1 st A B data1 dest1 c hd1 hn1 hA]; rfl,
    hB, hA2, fun data hd => DEFAULT_resolved _ data _ B hd hB,
    fun data hd => DEFAULT_resolved _ data _ A hd hA2, ?_, ?_⟩
  · intro data payload hp h1 h2 hd
    obtain ⟨ht, hc | hc⟩ := FILE_CHUNK_relays _ data payload _ B hp h1 h2 hd hB
    · exact ⟨ht, by rw [hc]; rfl⟩
    · exact ⟨ht, by rw [hc]; rfl⟩
  · intro data payload hp h1 h2 hd
    obtain ⟨ht, hc | hc⟩ := FILE_CHUNK_relays _ data payload _ A hp h1 h2 hd hA2
    · exact ⟨ht, by rw [hc]; rfl⟩
    · exact ⟨ht, by rw [hc]; rfl⟩

/-- Witness for C15: connection 9 asks for the share code 1001 of connection
5 and gets the origin code "b7"; connection 5 accepts and gets "c9". -/
theorem pairing_addresses_both_witness :
    (paired sampleEnv sampleEnv2 sampleRegistry 5 9 sampleRequest
        sampleAcceptB7).originCodeMap.get (.str "b7") = some 9 ∧
    (paired sampleEnv sampleEnv2 sampleRegistry 5 9 sampleRequest
        sampleAcceptB7).originCodeMap.get (.str "c9") = some 5 :=
  have h := pairing_addresses_both sampleEnv sampleEnv2 sampleRegistry 5 9 sampleRequest
    sampleAcceptB7 (.ofString "1001") (.num 1001) rfl rfl rfl rfl rfl
  ⟨h.2.1, h.2.2.1⟩

/-! ## Exceptions -/

theorem onMessage_null (env : Env) (st : State) (ws : Conn) :
    onMessage env st ws (some (.prim .null)) = Outcome.raise st [] := rfl

theorem onMessage_unparsed (env : Env) (st : State) (ws : Conn) :
    onMessage env st ws none = Outcome.done st [] := rfl

/-- C12, at the failing inputs: a text that `JSON.parse` rejects is dropped
and the listener returns; but the text `null` parses, and reading
`data.event` on it throws outside the `try`, and a `FILE_CHUNK` message
without a `data` payload makes the destructuring in the handler throw. In
both cases the exception leaves the listener (no message sent, no map or
counter changed). -/
theorem malformed_message_throws :
    onMessage sampleEnv sampleRegistry 9 none = Outcome.done sampleRegistry [] ∧
    (onMessage sampleEnv sampleRegistry 9 (some (.prim .null))).threw = true ∧
    onMessage sampleEnv sampleRegistry 9 (some (.prim .null))
      = Outcome.raise sampleRegistry [] ∧
    routed (some sampleBareChunk) = some .FILE_CHUNK ∧
    (onMessage sampleEnv sampleRegistry 9 (some sampleBareChunk)).threw = true ∧
    onMessage sampleEnv sampleRegistry 9 (some sampleBareChunk)
      = Outcome.raise sampleRegistry [] :=
  ⟨rfl, rfl, rfl, rfl, rfl, rfl⟩

/-! ## Runs of the event loop -/

theorem onMessage_routed (env : Env) (st : State) (ws : Conn) (data : JVal)
    (h : eventHandlers.Entry) (hr : routed (some data) = some h) :
    onMessage env st ws (some data) = eventHandlers.call h env st ws data := by
  cases he : data.prop "event" with
  | none => simp [routed, he] at hr
  | some event =>
    cases hk : event.toStr with
    | none => simp [routed, he, hk] at hr
    | some key =>
      simp only [routed, he, hk, Option.some.injEq] at hr
      simp [onMessage, he, hk, hr]

theorem onMessage_unrouted (env : Env) (st : State) (ws : Conn) (parsed : Option JVal)
    (hr : routed parsed = none) :
    (onMessage env st ws parsed).st = st ∧ (onMessage env st ws parsed).acts = [] := by
  cases parsed with
  | none => exact ⟨rfl, rfl⟩
  | some data =>
    cases he : data.prop "event" with
    | none => simp [onMessage, he, Outcome.raise]
    | some event =>
      cases hk : event.toStr with
      | none => simp [onMessage, he, hk, Outcome.raise]
      | some key => simp [routed, he, hk] at hr

theorem CONNECTION_ACCEPT_frame (env : Env) (st : State) (ws : Conn) (data : JVal) :
    (CONNECTION_ACCEPT env st ws data).st.shareCodeMap = st.shareCodeMap ∧
    (CONNECTION_ACCEPT env st ws data).st.transferMap = st.transferMap ∧
    ((CONNECTION_ACCEPT env st ws data).st.originCodeMap = st.originCodeMap ∨
     (CONNECTION_ACCEPT env st ws data).st.originCodeMap
       = st.originCodeMap.set env.originCode ws) := by
  cases hd : data.prop "destination" with
  | none => simp [CONNECTION_ACCEPT, hd, Outcome.raise]
  | some destination =>
    cases hR : st.originCodeMap.getJ destination with
    | none => simp [CONNECTION_ACCEPT, hd, hR, Outcome.done]
    | some R =>
      cases hj : jsAdd st.NoOfFilesTransferred
          (((data.optProp "data").optProp "files").orElse (.arr [])).length with
      | none => simp [CONNECTION_ACCEPT, hd, hR, hj, Outcome.raise]
      | some total => simp [CONNECTION_ACCEPT, hd, hR, hj, Outcome.done]

theorem FILE_CHUNK_cases (st : State) (data : JVal) :
    ((FILE_CHUNK st data).st = st ∧ (FILE_CHUNK st data).acts = []) ∨
    (∃ payload d R, data.prop "data" = some payload ∧ payload ≠ .prim .null ∧
      payload ≠ .prim .undefined ∧ data.prop "destination" = some (.prim d) ∧
      st.originCodeMap.get d = some R) := by
  by_cases h : ∃ payload d R, data.prop "data" = some payload ∧ payload ≠ .prim .null ∧
      payload ≠ .prim .undefined ∧ data.prop "destination" = some (.prim d) ∧
      st.originCodeMap.get d = some R
  · exact Or.inr h
  · refine Or.inl (FILE_CHUNK_dropped st data ?_)
    intro payload d R h1 h2 h3 h4 h5
    exact h ⟨payload, d, R, h1, h2, h3, h4, h5⟩

theorem FILE_CHUNK_frame (st : State) (data : JVal) :
    (FILE_CHUNK st data).st.shareCodeMap = st.shareCodeMap ∧
    (FILE_CHUNK st data).st.originCodeMap = st.originCodeMap := by
  rcases FILE_CHUNK_cases st data with h | ⟨payload, d, R, hp, h1, h2, hd, hR⟩
  · rw [h.1]; exact ⟨rfl, rfl⟩
  · cases ht : st.transferMap.get d with
    | none =>
      rw [FILE_CHUNK_fresh st data payload d R hp h1 h2 hd hR ht]
      split <;> exact ⟨rfl, rfl⟩
    | some t =>
      rw [FILE_CHUNK_ongoing st data payload d R t hp h1 h2 hd hR ht]
      split <;> exact ⟨rfl, rfl⟩

theorem step_state_cases (s : Sys) (e : Event) :
    (Sys.step s e).st = s.st ∨
    (∃ ws parsed env status, e = .message ws parsed env status ∧
      (Sys.step s e).st = (onMessage env s.st ws parsed).st) ∨
    (∃ ws, e = .close ws ∧ (Sys.step s e).st = cleanupConnection s.st ws) ∨
    (∃ i status d, e = .timeout i status ∧ (Sys.step s e).st = transferCleanup s.st d) ∨
    (e = .visit ∧
      (Sys.step s e).st = { s.st with NoOfVisitors := s.st.NoOfVisitors + 1 }) := by
  cases e with
  | message ws parsed env status =>
    refine Or.inr (Or.inl ⟨ws, parsed, env, status, rfl, ?_⟩)
    simp only [Sys.step]
    exact (perform_fields _ _).2.1
  | close ws => exact Or.inr (Or.inr (Or.inl ⟨ws, rfl, rfl⟩))
  | timeout i status =>
    cases ht : s.timers.get? i with
    | none =>
      have ht' : s.timers[i]? = none := by simpa using ht
      left
      simp [Sys.step, ht']
    | some p =>
      obtain ⟨due, cb⟩ := p
      have ht' : s.timers[i]? = some (due, cb) := by simpa using ht
      by_cases hdue : due ≤ s.now
      · cases cb with
        | safeSend ws message attempt =>
          left
          simp only [Sys.step, ht, hdue, if_true]
          exact (perform_fields _ _).2.1
        | transferCleanup d =>
          right; right; right; left
          exact ⟨i, status, d, rfl, step_timeout_cleanup s i due d status ht hdue⟩
      · left
        simp [Sys.step, ht', hdue]
  | tick dt => exact Or.inl rfl
  | visit => exact Or.inr (Or.inr (Or.inr (Or.inr ⟨rfl, rfl⟩)))

theorem run_cons (s : Sys) (e : Event) (evs : List Event) :
    Sys.run s (e :: evs) = Sys.run (Sys.step s e) evs := rfl

theorem run_invariant (P : State → Prop) (ok : Event → Prop)
    (hstep : ∀ (s : Sys) (e : Event), ok e → P s.st → P (Sys.step s e).st) :
    ∀ (evs : List Event) (s : Sys), (∀ e ∈ evs, ok e) → P s.st → P (Sys.run s evs).st := by
  intro evs
  induction evs with
  | nil => intro s _ h; exact h
  | cons e rest ih =>
    intro s hok h
    rw [run_cons]
    exact ih (Sys.step s e) (fun x hx => hok x (List.mem_cons_of_mem _ hx))
      (hstep s e (hok e (List.mem_cons_self _ _)) h)

/-! ## The bound on stored transfers -/

theorem mem_setList {V : Type} {k : Prim} {v : V} {l : List (Prim × V)} {e : Prim × V}
    (h : e ∈ JMap.setList k v l) : e = (k, v) ∨ e ∈ l := by
  induction l with
  | nil => simpa [JMap.setList] using h
  | cons x rest ih =>
    obtain ⟨k0, v0⟩ := x
    by_cases h0 : k0 = k
    · simp only [JMap.setList, h0, if_true, List.mem_cons] at h
      rcases h with h | h
      · exact Or.inl h
      · exact Or.inr (List.mem_cons_of_mem _ h)
    · simp only [JMap.setList, h0, if_false, List.mem_cons] at h
      rcases h with h | h
      · exact Or.inr (by simp [h])
      · rcases ih h with h' | h'
        · exact Or.inl h'
        · exact Or.inr (List.mem_cons_of_mem _ h')

theorem setList_setList {V : Type} (k : Prim) (v v0 : V) (l : List (Prim × V)) :
    JMap.setList k v (JMap.setList k v0 l) = JMap.setList k v l := by
  induction l with
  | nil => simp [JMap.setList]
  | cons x rest ih =>
    obtain ⟨k0, v1⟩ := x
    by_cases h0 : k0 = k
    · simp [JMap.setList, h0]
    · simp [JMap.setList, h0, ih]

theorem mem_delete {V : Type} {m : JMap V} {k : Prim} {e : Prim × V}
    (h : e ∈ (m.delete k).entries) : e ∈ m.entries ∧ e.1 ≠ k := by
  simp only [JMap.delete, List.mem_filter] at h
  exact ⟨h.1, of_decide_eq_true h.2⟩

theorem strictEqNum_false_num {n : Nat} {T : Int}
    (h : strictEqNum n (.prim (.num T)) = false) : T ≠ (n : Int) := by
  simpa [strictEqNum] using h

theorem FILE_CHUNK_transfers_ok (st : State) (data : JVal) (h : TransfersOk st) :
    TransfersOk (FILE_CHUNK st data).st := by
  rcases FILE_CHUNK_cases st data with hdrop | ⟨payload, d, R, hp, h1, h2, hd, hR⟩
  · rw [hdrop.1]; exact h
  · cases ht : st.transferMap.get d with
    | none =>
      rw [FILE_CHUNK_fresh st data payload d R hp h1 h2 hd hR ht]
      split
      · intro e he
        obtain ⟨hmem, hkey⟩ := mem_delete he
        simp only [JMap.set, setList_setList] at hmem
        rcases mem_setList hmem with heq | hold
        · exact absurd (by rw [heq]) hkey
        · exact h e hold
      · rename_i hne
        intro e he
        simp only [JMap.set, setList_setList] at he
        rcases mem_setList he with heq | hold
        · rw [heq]
          intro T hT hpos
          simp only at hT
          rw [hT] at hne
          have hT1 : T ≠ ((1 : Nat) : Int) :=
            strictEqNum_false_num (by simpa using hne)
          refine ⟨le_refl _, ?_⟩
          simp only [Nat.cast_one] at hT1 ⊢
          omega
        · exact h e hold
    | some t =>
      have htok : TransferOk t := h (d, t) (JMap.getList_mem ht)
      rw [FILE_CHUNK_ongoing st data payload d R t hp h1 h2 hd hR ht]
      split
      · intro e he
        obtain ⟨hmem, hkey⟩ := mem_delete he
        rcases mem_setList hmem with heq | hold
        · exact absurd (by rw [heq]) hkey
        · exact h e hold
      · rename_i hne
        intro e he
        rcases mem_setList he with heq | hold
        · rw [heq]
          intro T hT hpos
          simp only at hT
          obtain ⟨hr1, hr2⟩ := htok T hT hpos
          rw [hT] at hne
          have hT1 : T ≠ ((t.received + 1 : Nat) : Int) :=
            strictEqNum_false_num (by simpa using hne)
          refine ⟨Nat.le_add_left _ _, ?_⟩
          simp only [Nat.cast_add, Nat.cast_one] at hT1 ⊢
          omega
        · exact h e hold

theorem call_transferMap (h : eventHandlers.Entry) (env : Env) (st : State) (ws : Conn)
    (data : JVal) (hne : h ≠ .FILE_CHUNK) :
    (eventHandlers.call h env st ws data).st.transferMap = st.transferMap := by
  cases h with
  | HEARTBEAT => rfl
  | REQUIST_SHARE_CODE => rfl
  | CONNECTION_REQUEST =>
    simp only [eventHandlers.call]
    rw [CONNECTION_REQUEST_frame]
  | CONNECTION_ACCEPT => exact (CONNECTION_ACCEPT_frame env st ws data).2.1
  | FILE_CHUNK => exact absurd rfl hne
  | DEFAULT =>
    simp only [eventHandlers.call]
    rw [DEFAULT_state]
  | inheritedQuiet => rfl
  | inheritedThrow => rfl

theorem onMessage_transfers_ok (env : Env) (st : State) (ws : Conn) (parsed : Option JVal)
    (h : TransfersOk st) : TransfersOk (onMessage env st ws parsed).st := by
  cases hr : routed parsed with
  | none => rw [(onMessage_unrouted env st ws parsed hr).1]; exact h
  | some entry =>
    cases parsed with
    | none => simp [routed] at hr
    | some data =>
      rw [onMessage_routed env st ws data entry hr]
      by_cases hf : entry = .FILE_CHUNK
      · subst hf
        exact FILE_CHUNK_transfers_ok st data h
      · intro e he
        rw [call_transferMap entry env st ws data hf] at he
        exact h e he

theorem step_transfers_ok (s : Sys) (e : Event) (h : TransfersOk s.st) :
    TransfersOk (Sys.step s e).st := by
  rcases step_state_cases s e with hs | ⟨ws, parsed, env, status, _, hs⟩ | ⟨ws, _, hs⟩ |
      ⟨i, status, d, _, hs⟩ | ⟨_, hs⟩
  · rw [hs]; exact h
  · rw [hs]; exact onMessage_transfers_ok env s.st ws parsed h
  · rw [hs]; exact h
  · rw [hs]
    intro x hx
    unfold transferCleanup at hx
    split at hx
    · exact h x (mem_delete hx).1
    · exact h x hx
  · rw [hs]; exact h

/-- C19: in every state reached from the start state by any events (inbound
messages of any content, closes, timer firings, the passing of time,
visits), a TransferState stored in `transferMap` whose `total` is a positive
integer `T` has `1 <= received < T`: the count never passes the total and
no entry with `received = total` stays stored. -/
theorem stored_transfers_bounded (evs : List Event) :
    ∀ e ∈ (Sys.run Sys.init evs).st.transferMap.entries, ∀ T : Int,
      e.2.total = .prim (.num T) → 0 < T →
        1 ≤ e.2.received ∧ (e.2.received : Int) < T :=
  run_invariant TransfersOk (fun _ => True) (fun s e _ h => step_transfers_ok s e h)
    evs Sys.init (fun _ _ => trivial) (by intro e he; simp [Sys.init, State.init, JMap.empty] at he)

/-- Witness for C19: after the first four events of `staleRun` the
TransferState stored for "b7" has `total = 2` and `received = 1`. -/
theorem stored_transfers_bounded_witness :
    (Sys.run Sys.init (staleRun.take 4)).st.transferMap.entries
      = [(.str "b7", { total := .ofNat 2, received := 1, fileName := .ofString "b.txt" })] ∧
    (1 ≤ (1 : Nat) ∧ ((1 : Nat) : Int) < 2) :=
  have hentries : (Sys.run Sys.init (staleRun.take 4)).st.transferMap.entries
      = [(.str "b7", { total := .ofNat 2, received := 1, fileName := .ofString "b.txt" })] :=
    rfl
  ⟨hentries,
    stored_transfers_bounded (staleRun.take 4)
      (.str "b7", { total := .ofNat 2, received := 1, fileName := .ofString "b.txt" })
      (by rw [hentries]; exact List.mem_singleton_self _) 2 rfl (by decide)⟩

/-! ## Which connections own entries -/

theorem unowned_set {ws w : Conn} {m : JMap Conn} (k : Prim) (h : Unowned ws m)
    (hw : w ≠ ws) : Unowned ws (m.set k w) := by
  intro e he
  rcases mem_setList he with heq | hold
  · rw [heq]; exact hw
  · exact h e hold

theorem unowned_sweep {ws : Conn} (w : Conn) {m : JMap Conn} (h : Unowned ws m) :
    Unowned ws (sweep w m) :=
  fun e he => h e (sweep_subset w m e he)

theorem call_shareCodeMap (h : eventHandlers.Entry) (env : Env) (st : State) (ws : Conn)
    (data : JVal) (hne : h ≠ .REQUIST_SHARE_CODE) :
    (eventHandlers.call h env st ws data).st.shareCodeMap = st.shareCodeMap := by
  cases h with
  | HEARTBEAT => rfl
  | REQUIST_SHARE_CODE => exact absurd rfl hne
  | CONNECTION_REQUEST =>
    simp only [eventHandlers.call]
    rw [CONNECTION_REQUEST_frame]
  | CONNECTION_ACCEPT => exact (CONNECTION_ACCEPT_frame env st ws data).1
  | FILE_CHUNK => exact (FILE_CHUNK_frame st data).1
  | DEFAULT =>
    simp only [eventHandlers.call]
    rw [DEFAULT_state]
  | inheritedQuiet => rfl
  | inheritedThrow => rfl

theorem call_originCodeMap (h : eventHandlers.Entry) (env : Env) (st : State) (ws : Conn)
    (data : JVal) :
    (eventHandlers.call h env st ws data).st.originCodeMap = st.originCodeMap ∨
    ((h = .CONNECTION_REQUEST ∨ h = .CONNECTION_ACCEPT) ∧
      (eventHandlers.call h env st ws data).st.originCodeMap
        = st.originCodeMap.set env.originCode ws) := by
  cases h with
  | HEARTBEAT => exact Or.inl rfl
  | REQUIST_SHARE_CODE => exact Or.inl rfl
  | CONNECTION_REQUEST =>
    right
    refine ⟨Or.inl rfl, ?_⟩
    simp only [eventHandlers.call]
    rw [CONNECTION_REQUEST_frame]
  | CONNECTION_ACCEPT =>
    rcases (CONNECTION_ACCEPT_frame env st ws data).2.2 with h | h
    · exact Or.inl h
    · exact Or.inr ⟨Or.inr rfl, h⟩
  | FILE_CHUNK => exact Or.inl (FILE_CHUNK_frame st data).2
  | DEFAULT =>
    left
    simp only [eventHandlers.call]
    rw [DEFAULT_state]
  | inheritedQuiet => exact Or.inl rfl
  | inheritedThrow => exact Or.inl rfl

theorem step_unowned_share (ws : Conn) (s : Sys) (e : Event) (hok : ¬ asksShareCode ws e)
    (h : Unowned ws s.st.shareCodeMap) : Unowned ws (Sys.step s e).st.shareCodeMap := by
  rcases step_state_cases s e with hs | ⟨w, parsed, env, status, he, hs⟩ | ⟨w, _, hs⟩ |
      ⟨i, status, d, _, hs⟩ | ⟨_, hs⟩
  · rw [hs]; exact h
  · rw [hs]
    cases hr : routed parsed with
    | none => rw [(onMessage_unrouted env s.st w parsed hr).1]; exact h
    | some entry =>
      cases parsed with
      | none => simp [routed] at hr
      | some data =>
        rw [onMessage_routed env s.st w data entry hr]
        by_cases hq : entry = .REQUIST_SHARE_CODE
        · subst hq
          have hw : w ≠ ws := by
            intro hww
            apply hok
            rw [he]
            exact ⟨hww, hr⟩
          exact unowned_set env.shareCode h hw
        · rw [call_shareCodeMap entry env s.st w data hq]; exact h
  · rw [hs]; exact unowned_sweep w h
  · rw [hs]
    have : (transferCleanup s.st d).shareCodeMap = s.st.shareCodeMap := by
      unfold transferCleanup; split <;> rfl
    rw [this]; exact h
  · rw [hs]; exact h

theorem step_unowned_origin (ws : Conn) (s : Sys) (e : Event) (hok : ¬ asksPairing ws e)
    (h : Unowned ws s.st.originCodeMap) : Unowned ws (Sys.step s e).st.originCodeMap := by
  rcases step_state_cases s e with hs | ⟨w, parsed, env, status, he, hs⟩ | ⟨w, _, hs⟩ |
      ⟨i, status, d, _, hs⟩ | ⟨_, hs⟩
  · rw [hs]; exact h
  · rw [hs]
    cases hr : routed parsed with
    | none => rw [(onMessage_unrouted env s.st w parsed hr).1]; exact h
    | some entry =>
      cases parsed with
      | none => simp [routed] at hr
      | some data =>
        rw [onMessage_routed env s.st w data entry hr]
        rcases call_originCodeMap entry env s.st w data with hsame | ⟨hentry, hset⟩
        · rw [hsame]; exact h
        · rw [hset]
          have hw : w ≠ ws := by
            intro hww
            apply hok
            rw [he]
            refine ⟨hww, ?_⟩
            rcases hentry with h1 | h1
            · exact Or.inl (by rw [hr, h1])
            · exact Or.inr (by rw [hr, h1])
          exact unowned_set env.originCode h hw
  · rw [hs]; exact unowned_sweep w h
  · rw [hs]
    have : (transferCleanup s.st d).originCodeMap = s.st.originCodeMap := by
      unfold transferCleanup; split <;> rfl
    rw [this]; exact h
  · rw [hs]; exact h

theorem joinRun_no_share_request : ∀ e ∈ joinRun, ¬ asksShareCode 9 e := by
  intro e he
  simp only [joinRun, List.mem_cons, List.mem_singleton, List.not_mem_nil, or_false] at he
  rcases he with rfl | rfl
  · intro h
    have h1 : (5 : Conn) = 9 := h.1
    exact absurd h1 (by decide)
  · intro h
    have h2 : routed (some sampleRequest2002) = some .REQUIST_SHARE_CODE := h.2
    have hr : routed (some sampleRequest2002) = some .CONNECTION_REQUEST := rfl
    rw [hr] at h2
    exact absurd h2 (by decide)

/-- C14 as stated fails: in `joinRun` connection 9 never sends a share-code
request, only a `CONNECTION_REQUEST`, yet it owns the origin code "b7", and
`cleanupConnection` on it changes `originCodeMap`. -/
theorem cleanup_changes_origin_codes :
    (∀ e ∈ joinRun, ¬ asksShareCode 9 e) ∧
    (Sys.run Sys.init joinRun).st.originCodeMap.entries = [(.str "b7", 9)] ∧
    (cleanupConnection (Sys.run Sys.init joinRun).st 9).originCodeMap.entries = [] ∧
    (cleanupConnection (Sys.run Sys.init joinRun).st 9).originCodeMap
      ≠ (Sys.run Sys.init joinRun).st.originCodeMap := by
  refine ⟨joinRun_no_share_request, rfl, rfl, ?_⟩
  · intro h
    have h1 : (cleanupConnection (Sys.run Sys.init joinRun).st 9).originCodeMap.entries = [] :=
      rfl
    have h2 : (Sys.run Sys.init joinRun).st.originCodeMap.entries = [(.str "b7", 9)] := rfl
    rw [h, h2] at h1
    exact absurd h1 (by simp)

/-- C14, amended: in every state reached from the start state by events among
which connection `ws` never sends a message routed to the share-code
handler, `cleanupConnection` on `ws` leaves `shareCodeMap` exactly as it
was, since no share code is bound to `ws`; when `ws` has also never sent a
message routed to `CONNECTION_REQUEST` or `CONNECTION_ACCEPT`, no origin
code is bound to it either and the call leaves the whole state as it is. -/
theorem cleanup_without_share_code (evs : List Event) (ws : Conn)
    (hnever : ∀ e ∈ evs, ¬ asksShareCode ws e) :
    Unowned ws (Sys.run Sys.init evs).st.shareCodeMap ∧
    (cleanupConnection (Sys.run Sys.init evs).st ws).shareCodeMap
      = (Sys.run Sys.init evs).st.shareCodeMap ∧
    ((∀ e ∈ evs, ¬ asksPairing ws e) →
      Unowned ws (Sys.run Sys.init evs).st.originCodeMap ∧
      cleanupConnection (Sys.run Sys.init evs).st ws = (Sys.run Sys.init evs).st) := by
  have hshare : Unowned ws (Sys.run Sys.init evs).st.shareCodeMap :=
    run_invariant (fun st => Unowned ws st.shareCodeMap) (fun e => ¬ asksShareCode ws e)
      (fun s e hok h => step_unowned_share ws s e hok h) evs Sys.init hnever
      (by intro e he; simp [Sys.init, State.init, JMap.empty] at he)
  refine ⟨hshare, ?_, ?_⟩
  · simp only [cleanupConnection]
    exact sweep_eq_self ws _ hshare
  · intro hpair
    have horigin : Unowned ws (Sys.run Sys.init evs).st.originCodeMap :=
      run_invariant (fun st => Unowned ws st.originCodeMap) (fun e => ¬ asksPairing ws e)
        (fun s e hok h => step_unowned_origin ws s e hok h) evs Sys.init hpair
        (by intro e he; simp [Sys.init, State.init, JMap.empty] at he)
    refine ⟨horigin, ?_⟩
    simp [cleanupConnection, sweep_eq_self ws _ hshare, sweep_eq_self ws _ horigin]

/-- Witness for C14, amended: in `joinRun` connection 9 never asked for a
share code, and closing it leaves `shareCodeMap`, which holds the code 2002
of connection 5, as it was. -/
theorem cleanup_without_share_code_witness :
    (∀ e ∈ joinRun, ¬ asksShareCode 9 e) ∧
    (cleanupConnection (Sys.run Sys.init joinRun).st 9).shareCodeMap
      = (Sys.run Sys.init joinRun).st.shareCodeMap ∧
    (Sys.run Sys.init joinRun).st.shareCodeMap.entries = [(.num 2002, 5)] :=
  have hnever : ∀ e ∈ joinRun, ¬ asksShareCode 9 e := joinRun_no_share_request
  ⟨hnever, (cleanup_without_share_code joinRun 9 hnever).2.1, rfl⟩

/-! ## How long an origin code stays bound -/

theorem key_mem_setList {V : Type} {k x : Prim} {v : V} {l : List (Prim × V)}
    (h : x ∈ (JMap.setList k v l).map Prod.fst) : x = k ∨ x ∈ l.map Prod.fst := by
  obtain ⟨e, he, hx⟩ := List.mem_map.1 h
  rcases mem_setList he with heq | hold
  · left; rw [← hx, heq]
  · right; exact List.mem_map.2 ⟨e, hold, hx⟩

theorem wf_set {V : Type} (m : JMap V) (k : Prim) (v : V) (h : m.WF) : (m.set k v).WF := by
  obtain ⟨l⟩ := m
  simp only [JMap.WF, JMap.set] at h ⊢
  induction l with
  | nil => simp [JMap.setList]
  | cons x rest ih =>
    obtain ⟨k0, v0⟩ := x
    rw [List.map_cons, List.nodup_cons] at h
    by_cases h0 : k0 = k
    · simp only [JMap.setList, h0, if_true, List.map_cons, List.nodup_cons]
      rw [h0] at h
      exact h
    · simp only [JMap.setList, h0, if_false, List.map_cons, List.nodup_cons]
      refine ⟨?_, ih h.2⟩
      intro hmem
      rcases key_mem_setList hmem with h1 | h1
      · exact h0 h1
      · exact h.1 h1

theorem wf_sweep (ws : Conn) (m : JMap Conn) (h : m.WF) : (sweep ws m).WF := by
  simp only [JMap.WF, sweep_entries]
  exact List.Nodup.sublist (List.Sublist.map _ (List.filter_sublist _)) h

theorem get_of_mem {V : Type} {k : Prim} {v : V} {l : List (Prim × V)}
    (hwf : (l.map Prod.fst).Nodup) (h : (k, v) ∈ l) : JMap.getList k l = some v := by
  induction l with
  | nil => simp at h
  | cons x rest ih =>
    obtain ⟨k0, v0⟩ := x
    rw [List.map_cons, List.nodup_cons] at hwf
    rcases List.mem_cons.1 h with heq | hrest
    · have hk : k0 = k := (Prod.mk.inj heq).1.symm
      have hv : v0 = v := (Prod.mk.inj heq).2.symm
      simp [JMap.getList, hk, hv]
    · have hk : k0 ≠ k := by
        intro hk
        apply hwf.1
        rw [hk]
        exact List.mem_map.2 ⟨(k, v), hrest, rfl⟩
      simp [JMap.getList, hk, ih hwf.2 hrest]

theorem sweep_get_keeps (ws : Conn) (m : JMap Conn) (hwf : m.WF) {k : Prim} {v : Conn}
    (hget : m.get k = some v) (hne : v ≠ ws) : (sweep ws m).get k = some v :=
  get_of_mem (wf_sweep ws m hwf) (sweep_keeps ws m hwf (k, v) (JMap.getList_mem hget) hne)

theorem step_keeps_binding (o : Prim) (B : Conn) (s : Sys) (e : Event)
    (hok : ¬ closes B e ∧ ¬ mints o e)
    (h : s.st.originCodeMap.WF ∧ s.st.originCodeMap.get o = some B) :
    (Sys.step s e).st.originCodeMap.WF ∧ (Sys.step s e).st.originCodeMap.get o = some B := by
  rcases step_state_cases s e with hs | ⟨w, parsed, env, status, he, hs⟩ | ⟨w, he, hs⟩ |
      ⟨i, status, d, _, hs⟩ | ⟨_, hs⟩
  · rw [hs]; exact h
  · rw [hs]
    cases hr : routed parsed with
    | none => rw [(onMessage_unrouted env s.st w parsed hr).1]; exact h
    | some entry =>
      cases parsed with
      | none => simp [routed] at hr
      | some data =>
        rw [onMessage_routed env s.st w data entry hr]
        rcases call_originCodeMap entry env s.st w data with hsame | ⟨hentry, hset⟩
        · rw [hsame]; exact h
        · rw [hset]
          have hcode : o ≠ env.originCode := by
            intro hc
            apply hok.2
            rw [he]
            refine ⟨?_, hc.symm⟩
            rcases hentry with h1 | h1
            · exact Or.inl (by rw [hr, h1])
            · exact Or.inr (by rw [hr, h1])
          exact ⟨wf_set _ _ _ h.1, by rw [JMap.get_set_ne _ hcode]; exact h.2⟩
  · rw [hs]
    have hw : B ≠ w := by
      intro hb
      apply hok.1
      rw [he]
      exact hb.symm
    exact ⟨wf_sweep w _ h.1, sweep_get_keeps w _ h.1 h.2 hw⟩
  · rw [hs]
    have : (transferCleanup s.st d).originCodeMap = s.st.originCodeMap := by
      unfold transferCleanup; split <;> rfl
    rw [this]; exact h
  · rw [hs]; exact h

/-- C20 as stated fails: in `collideRun` the `CONNECTION_REQUEST` of
connection 9 binds the origin code "b7" to it, connection 9 never closes,
and yet after the `CONNECTION_REQUEST` of connection 8, for which the
generator returns "b7" again, the code is bound to connection 8. -/
theorem binding_lost_without_close :
    (Sys.run Sys.init (collideRun.take 1)).st.originCodeMap.get (.str "b7") = some 9 ∧
    (∀ e ∈ collideRun, ¬ closes 9 e) ∧
    (Sys.run Sys.init collideRun).st.originCodeMap.get (.str "b7") = some 8 ∧
    (Sys.run Sys.init collideRun).st.originCodeMap.get (.str "b7") ≠ some 9 := by
  refine ⟨rfl, ?_, rfl, by decide⟩
  intro e he
  simp only [collideRun, List.mem_cons, List.mem_singleton, List.not_mem_nil, or_false] at he
  rcases he with rfl | rfl <;> exact fun h => h

/-- C20, amended: whatever the state and the message, resolving share code
or not, throwing or not, the `CONNECTION_REQUEST` handler run for `B` sets
the generated origin code to `B` in `originCodeMap`: that code then resolves
to `B`, every other key resolves as before, and no entry appears besides
this binding. From a map with distinct keys the binding then survives every
run of events in which `B` does not close and no later `CONNECTION_REQUEST`
or `CONNECTION_ACCEPT` is handled with the same generated code. -/
theorem request_binding_lasts (env : Env) (st : State) (B : Conn) (data : JVal)
    (s : Sys) (evs : List Event)
    (hs : s.st = (CONNECTION_REQUEST env st B data).st)
    (hwf : st.originCodeMap.WF)
    (hclose : ∀ e ∈ evs, ¬ closes B e)
    (hmint : ∀ e ∈ evs, ¬ mints env.originCode e) :
    (CONNECTION_REQUEST env st B data).st.originCodeMap
      = st.originCodeMap.set env.originCode B ∧
    (CONNECTION_REQUEST env st B data).st.originCodeMap.get env.originCode = some B ∧
    (∀ k, k ≠ env.originCode →
      (CONNECTION_REQUEST env st B data).st.originCodeMap.get k = st.originCodeMap.get k) ∧
    (∀ e ∈ (CONNECTION_REQUEST env st B data).st.originCodeMap.entries,
      e = (env.originCode, B) ∨ e ∈ st.originCodeMap.entries) ∧
    (Sys.run s evs).st.originCodeMap.get env.originCode = some B := by
  have hmap : (CONNECTION_REQUEST env st B data).st.originCodeMap
      = st.originCodeMap.set env.originCode B := by
    rw [CONNECTION_REQUEST_frame]
  refine ⟨hmap, ?_, ?_, ?_, ?_⟩
  · rw [hmap]; exact JMap.get_set_self _ _ _
  · intro k hk
    rw [hmap]; exact JMap.get_set_ne _ hk _
  · intro e he
    rw [hmap] at he
    exact mem_setList he
  · have hstart : s.st.originCodeMap.WF ∧ s.st.originCodeMap.get env.originCode = some B := by
      rw [hs, hmap]
      exact ⟨wf_set _ _ _ hwf, JMap.get_set_self _ _ _⟩
    exact (run_invariant
      (fun st => st.originCodeMap.WF ∧ st.originCodeMap.get env.originCode = some B)
      (fun e => ¬ closes B e ∧ ¬ mints env.originCode e)
      (fun s e hok h => step_keeps_binding env.originCode B s e hok h) evs s
      (fun e he => ⟨hclose e he, hmint e he⟩) hstart).2

/-- Witness for C20, amended: the origin code "b7" given to connection 9
still resolves to it after `calmRun`. -/
theorem request_binding_lasts_witness :
    (Sys.run sampleJoined calmRun).st.originCodeMap.get (.str "b7") = some 9 :=
  (request_binding_lasts sampleEnv sampleRegistry 9 sampleRequest sampleJoined calmRun rfl
    (by simp [JMap.WF, sampleRegistry])
    (by
      intro e he
      simp only [calmRun, List.mem_cons, List.mem_singleton, List.not_mem_nil, or_false] at he
      rcases he with rfl | rfl | rfl
      · intro h
        have h1 : (6 : Conn) = 9 := h
        exact absurd h1 (by decide)
      · exact fun h => h
      · exact fun h => h)
    (by
      intro e he
      simp only [calmRun, List.mem_cons, List.mem_singleton, List.not_mem_nil, or_false] at he
      rcases he with rfl | rfl | rfl
      · exact fun h => h
      · intro h
        have h1 : sampleEnv2.originCode = sampleEnv.originCode := h.2
        exact absurd h1 (by decide)
      · exact fun h => h)).2.2.2.2

/-! ## How long a share code stays bound -/

theorem step_keeps_share (c : Prim) (A : Conn) (s : Sys) (e : Event)
    (hok : ¬ closes A e ∧ ¬ reissues c e)
    (h : s.st.shareCodeMap.WF ∧ s.st.shareCodeMap.get c = some A) :
    (Sys.step s e).st.shareCodeMap.WF ∧ (Sys.step s e).st.shareCodeMap.get c = some A := by
  rcases step_state_cases s e with hs | ⟨w, parsed, env, status, he, hs⟩ | ⟨w, he, hs⟩ |
      ⟨i, status, d, _, hs⟩ | ⟨_, hs⟩
  · rw [hs]; exact h
  · rw [hs]
    cases hr : routed parsed with
    | none => rw [(onMessage_unrouted env s.st w parsed hr).1]; exact h
    | some entry =>
      cases parsed with
      | none => simp [routed] at hr
      | some data =>
        rw [onMessage_routed env s.st w data entry hr]
        by_cases hentry : entry = .REQUIST_SHARE_CODE
        · subst hentry
          have hcode : c ≠ env.shareCode := by
            intro hc
            apply hok.2
            rw [he]
            exact ⟨hr, hc.symm⟩
          have hset : (eventHandlers.call .REQUIST_SHARE_CODE env s.st w data).st.shareCodeMap
              = s.st.shareCodeMap.set env.shareCode w := rfl
          rw [hset]
          exact ⟨wf_set _ _ _ h.1, by rw [JMap.get_set_ne _ hcode]; exact h.2⟩
        · rw [call_shareCodeMap entry env s.st w data hentry]; exact h
  · rw [hs]
    have hw : A ≠ w := by
      intro hb
      apply hok.1
      rw [he]
      exact hb.symm
    exact ⟨wf_sweep w _ h.1, sweep_get_keeps w _ h.1 h.2 hw⟩
  · rw [hs]
    have : (transferCleanup s.st d).shareCodeMap = s.st.shareCodeMap := by
      unfold transferCleanup; split <;> rfl
    rw [this]; exact h
  · rw [hs]; exact h

/-- C13 as stated fails: in `reissueRun` connection 5 holds the share code
2002 and the `CONNECTION_REQUEST` of connection 9 naming it is notified to
connection 5; connection 5 never closes, yet once the share-code handler has
given 2002 to connection 6 as well, the `CONNECTION_REQUEST` of connection 8
naming 2002 is notified to connection 6 and nothing is sent to
connection 5. -/
theorem share_code_rebound_without_close :
    (Sys.run Sys.init (reissueRun.take 1)).st.shareCodeMap.get (.num 2002) = some 5 ∧
    (Sys.run Sys.init (reissueRun.take 2)).sent
      = [(5, JVal.obj [("event", JVal.prim (Prim.str "SHARE_CODE")),
            ("data", JVal.prim (Prim.num 2002))]),
         (9, JVal.obj [("event", JVal.prim (Prim.str "CONNECTION_REQUEST")),
            ("data", JVal.obj [("AssignedOriginCOde", JVal.prim (Prim.str "b7")),
              ("success", JVal.prim (Prim.bool true))])]),
         (5, JVal.obj [("event", JVal.prim (Prim.str "CONNECTION_REQUEST")),
            ("origin", JVal.prim (Prim.str "b7"))])] ∧
    (Sys.run Sys.init (reissueRun.take 2)).st.shareCodeMap.get (.num 2002) = some 5 ∧
    (∀ e ∈ reissueRun, ¬ closes 5 e) ∧
    (Sys.run Sys.init reissueRun).sent.drop 3
      = [(6, JVal.obj [("event", JVal.prim (Prim.str "SHARE_CODE")),
            ("data", JVal.prim (Prim.num 2002))]),
         (8, JVal.obj [("event", JVal.prim (Prim.str "CONNECTION_REQUEST")),
            ("data", JVal.obj [("AssignedOriginCOde", JVal.prim (Prim.str "c9")),
              ("success", JVal.prim (Prim.bool true))])]),
         (6, JVal.obj [("event", JVal.prim (Prim.str "CONNECTION_REQUEST")),
            ("origin", JVal.prim (Prim.str "c9"))])] ∧
    (Sys.run Sys.init reissueRun).st.shareCodeMap.get (.num 2002) ≠ some 5 := by
  refine ⟨rfl, rfl, rfl, ?_, rfl, by decide⟩
  intro e he
  simp only [reissueRun, List.mem_cons, List.mem_singleton, List.not_mem_nil, or_false] at he
  rcases he with rfl | rfl | rfl | rfl <;> exact fun h => h

/-- C13, amended: when share code `c` resolves to `A` (in a `shareCodeMap`
with distinct keys), handling a `CONNECTION_REQUEST` naming `c` notifies `A`
and leaves `shareCodeMap` as it was; after any run of events that follows
in which `A` does not close and no share-code request is handled for which
the generator returns `c` again, `c` still resolves to `A`, and a
`CONNECTION_REQUEST` naming `c` handled then, from whatever connection `B2`,
succeeds again: it returns normally after exactly two `safeSend` calls, to
`B2` the object
`{event: "CONNECTION_REQUEST", data: {AssignedOriginCOde: o, success: true}}`
and to the same `A` the object `{event: "CONNECTION_REQUEST", origin: o}`,
both written when the two connections are open and below the buffer mark,
and leaves `shareCodeMap` unchanged in turn. -/
theorem share_code_stays_valid (env1 env2 : Env) (st : State) (A B1 B2 : Conn)
    (data1 data2 dest1 dest2 : JVal) (c : Prim) (s : Sys) (evs : List Event)
    (hwf : st.shareCodeMap.WF)
    (hA : st.shareCodeMap.get c = some A)
    (hd1 : data1.prop "destination" = some dest1) (hn1 : env1.Number dest1 = some c)
    (hd2 : data2.prop "destination" = some dest2) (hn2 : env2.Number dest2 = some c)
    (hs : s.st = (CONNECTION_REQUEST env1 st B1 data1).st)
    (hclose : ∀ e ∈ evs, ¬ closes A e)
    (hissue : ∀ e ∈ evs, ¬ reissues c e) :
    (CONNECTION_REQUEST env1 st B1 data1).acts
      = [Action.safeSend B1
           (JVal.obj [("event", JVal.prim (Prim.str "CONNECTION_REQUEST")),
             ("data", JVal.obj [("AssignedOriginCOde", JVal.prim env1.originCode),
               ("success", JVal.prim (Prim.bool true))])]),
         Action.safeSend A
           (JVal.obj [("event", JVal.prim (Prim.str "CONNECTION_REQUEST")),
             ("origin", JVal.prim env1.originCode)])] ∧
    (CONNECTION_REQUEST env1 st B1 data1).st.shareCodeMap = st.shareCodeMap ∧
    (Sys.run s evs).st.shareCodeMap.get c = some A ∧
    (CONNECTION_REQUEST env2 (Sys.run s evs).st B2 data2).threw = false ∧
    (CONNECTION_REQUEST env2 (Sys.run s evs).st B2 data2).acts
      = [Action.safeSend B2
           (JVal.obj [("event", JVal.prim (Prim.str "CONNECTION_REQUEST")),
             ("data", JVal.obj [("AssignedOriginCOde", JVal.prim env2.originCode),
               ("success", JVal.prim (Prim.bool true))])]),
         Action.safeSend A
           (JVal.obj [("event", JVal.prim (Prim.str "CONNECTION_REQUEST")),
             ("origin", JVal.prim env2.originCode)])] ∧
    (CONNECTION_REQUEST env2 (Sys.run s evs).st B2 data2).st.shareCodeMap
      = (Sys.run s evs).st.shareCodeMap ∧
    (∀ status : Nat → Conn → ConnStatus,
      (status 0 B2).readyState = OPEN → (status 0 B2).congested = false →
      (status 1 A).readyState = OPEN → (status 1 A).congested = false →
      runActions status (CONNECTION_REQUEST env2 (Sys.run s evs).st B2 data2).acts
        = [Effect.send B2
             (JVal.obj [("event", JVal.prim (Prim.str "CONNECTION_REQUEST")),
               ("data", JVal.obj [("AssignedOriginCOde", JVal.prim env2.originCode),
                 ("success", JVal.prim (Prim.bool true))])]),
           Effect.send A
             (JVal.obj [("event", JVal.prim (Prim.str "CONNECTION_REQUEST")),
               ("origin", JVal.prim env2.originCode)])]) := by
  have h1 := CONNECTION_REQUEST_resolved env1 st A B1 data1 dest1 c hd1 hn1 hA
  have hs1 : (CONNECTION_REQUEST env1 st B1 data1).st.shareCodeMap = st.shareCodeMap := by
    rw [CONNECTION_REQUEST_frame]
  have hstart : s.st.shareCodeMap.WF ∧ s.st.shareCodeMap.get c = some A := by
    rw [hs, hs1]
    exact ⟨hwf, hA⟩
  have hrun : (Sys.run s evs).st.shareCodeMap.get c = some A :=
    (run_invariant
      (fun st => st.shareCodeMap.WF ∧ st.shareCodeMap.get c = some A)
      (fun e => ¬ closes A e ∧ ¬ reissues c e)
      (fun s e hok h => step_keeps_share c A s e hok h) evs s
      (fun e he => ⟨hclose e he, hissue e he⟩) hstart).2
  have h2 := CONNECTION_REQUEST_resolved env2 (Sys.run s evs).st A B2 data2 dest2 c
    hd2 hn2 hrun
  refine ⟨by rw [h1]; rfl, hs1, hrun, by rw [h2]; rfl, by rw [h2]; rfl, ?_, ?_⟩
  · rw [CONNECTION_REQUEST_frame]
  · intro status k1 k2 k3 k4
    rw [h2]
    simp [Outcome.done, runActions, Action.run, safeSend, k1, k2, k3, k4,
      requestAckMessage, requestNoticeMessage, JVal.ofString]

/-- Witness for C13, amended: connection 9 asks in `sampleRegistry` for the
share code 1001 of connection 5; after `quietRun` connection 8 asks for it
too and the notice goes to connection 5 again. -/
theorem share_code_stays_valid_witness :
    (CONNECTION_REQUEST sampleEnv2 (Sys.run sampleJoined quietRun).st 8 sampleRequest).acts
      = [Action.safeSend 8
           (JVal.obj [("event", JVal.prim (Prim.str "CONNECTION_REQUEST")),
             ("data", JVal.obj [("AssignedOriginCOde", JVal.prim (Prim.str "c9")),
               ("success", JVal.prim (Prim.bool true))])]),
         Action.safeSend 5
           (JVal.obj [("event", JVal.prim (Prim.str "CONNECTION_REQUEST")),
             ("origin", JVal.prim (Prim.str "c9"))])] :=
  (share_code_stays_valid sampleEnv sampleEnv2 sampleRegistry 5 9 8 sampleRequest
    sampleRequest (.ofString "1001") (.ofString "1001") (.num 1001) sampleJoined quietRun
    (by simp [JMap.WF, sampleRegistry]) rfl rfl rfl rfl rfl rfl
    (by
      intro e he
      simp only [quietRun, List.mem_cons, List.mem_singleton, List.not_mem_nil, or_false] at he
      rcases he with rfl | rfl | rfl
      · exact fun h => h
      · intro h
        have h1 : (6 : Conn) = 5 := h
        exact absurd h1 (by decide)
      · exact fun h => h)
    (by
      intro e he
      simp only [quietRun, List.mem_cons, List.mem_singleton, List.not_mem_nil, or_false] at he
      rcases he with rfl | rfl | rfl
      · intro h
        have h1 : sampleEnv2.shareCode = .num 1001 := h.2
        exact absurd h1 (by decide)
      · exact fun h => h
      · exact fun h => h)).2.2.2.2.1

/-! ## Counting relayed chunks -/

theorem relaysOf_relay (st : State) (R : Conn) (data : JVal) (rest : List Action) :
    relaysOf (Outcome.done st (Action.safeSend R (relayOfChunk data) :: rest))
      = 1 + relaysOf (Outcome.done st rest) := by
  have h : hasEvent "FILE_CHUNK" (relayOfChunk data) = true := rfl
  simp [relaysOf, Outcome.done, calls, h]
  omega

theorem strictEqNum_true {n : Nat} {v : JVal} (h : strictEqNum n v = true) : v = .ofNat n := by
  cases v with
  | prim p =>
    cases p with
    | num k =>
      have hk : k = (n : Int) := by simpa [strictEqNum] using h
      rw [hk]; rfl
    | undefined => simp [strictEqNum] at h
    | null => simp [strictEqNum] at h
    | bool b => simp [strictEqNum] at h
    | nan => simp [strictEqNum] at h
    | str s => simp [strictEqNum] at h
    | inf s => simp [strictEqNum] at h
    | frac m k => simp [strictEqNum] at h
  | arr xs => simp [strictEqNum] at h
  | obj kvs => simp [strictEqNum] at h

theorem FILE_CHUNK_other (st : State) (data : JVal) (d : Prim)
    (hne : data.optProp "destination" ≠ .prim d) :
    (FILE_CHUNK st data).st.transferMap.get d = st.transferMap.get d := by
  rcases FILE_CHUNK_cases st data with hdrop | ⟨payload, p, R, hp, h1, h2, hd, hR⟩
  · rw [hdrop.1]
  · have hpd : d ≠ p := by
      intro h
      apply hne
      rw [optProp_of_prop hd, h]
    cases ht : st.transferMap.get p with
    | none =>
      rw [FILE_CHUNK_fresh st data payload p R hp h1 h2 hd hR ht]
      split
      · simp only [Outcome.done]
        rw [JMap.get_delete_ne _ hpd, JMap.get_set_ne _ hpd, JMap.get_set_ne _ hpd]
      · simp only [Outcome.done]
        rw [JMap.get_set_ne _ hpd, JMap.get_set_ne _ hpd]
    | some t =>
      rw [FILE_CHUNK_ongoing st data payload p R t hp h1 h2 hd hR ht]
      split
      · simp only [Outcome.done]
        rw [JMap.get_delete_ne _ hpd, JMap.get_set_ne _ hpd]
      · simp only [Outcome.done]
        rw [JMap.get_set_ne _ hpd]

theorem FILE_CHUNK_counts (st : State) (data : JVal) (d : Prim) (n : Nat)
    (hdst : data.optProp "destination" = .prim d)
    (hJ : ∀ t, st.transferMap.get d = some t → t.received ≤ n) :
    (completes (FILE_CHUNK st data) = true →
      relaysOf (FILE_CHUNK st data) = 1 ∧
      (FILE_CHUNK st data).st.transferMap.get d = none ∧
      ∃ T : Nat, T ≤ n + 1 ∧
        (match st.transferMap.get d with
          | some t => t.total
          | none => (data.optProp "data").optProp "totalChunks") = .ofNat T) ∧
    (completes (FILE_CHUNK st data) = false →
      ∀ t, (FILE_CHUNK st data).st.transferMap.get d = some t →
        t.received ≤ n + relaysOf (FILE_CHUNK st data)) := by
  have hc1 : ∀ data : JVal, hasEvent "FILE_CHUNK" (relayOfChunk data) = true := fun _ => rfl
  have hc2 : ∀ data : JVal, hasEvent "FILE_COMPLETE" (relayOfChunk data) = false := fun _ => rfl
  have hc3 : ∀ f : JVal, hasEvent "FILE_CHUNK" (fileCompleteMessage f) = false := fun _ => rfl
  have hc4 : ∀ f : JVal, hasEvent "FILE_COMPLETE" (fileCompleteMessage f) = true := fun _ => rfl
  rcases FILE_CHUNK_cases st data with hdrop | ⟨payload, p, R, hp, h1, h2, hd, hR⟩
  · have hrel : relaysOf (FILE_CHUNK st data) = 0 := by simp [relaysOf, hdrop.2, calls]
    have hcom : completes (FILE_CHUNK st data) = false := by simp [completes, hdrop.2, calls]
    rw [hrel, hcom, hdrop.1]
    exact ⟨fun h => absurd h (by simp), fun _ t ht => hJ t ht⟩
  · have hpd : p = d := by
      have := optProp_of_prop hd
      rw [hdst] at this
      exact (JVal.prim.inj this).symm
    subst hpd
    have hpay : data.optProp "data" = payload := optProp_of_prop hp
    cases ht : st.transferMap.get p with
    | none =>
      rw [FILE_CHUNK_fresh st data payload p R hp h1 h2 hd hR ht]
      split
      · rename_i heq
        refine ⟨fun _ => ⟨?_, ?_, 1, by omega, ?_⟩, fun h => ?_⟩
        · simp [relaysOf, Outcome.done, calls, hc1, hc3]
        · exact JMap.get_delete_self _ _
        · simp only [hpay]
          exact strictEqNum_true heq
        · simp [completes, Outcome.done, calls, hc4] at h
      · refine ⟨fun h => ?_, fun _ t hget => ?_⟩
        · simp [completes, Outcome.done, calls, hc2] at h
        · simp only [Outcome.done, JMap.get_set_self, Option.some.injEq] at hget
          have hrel : relaysOf (Outcome.done
              { st with
                transferMap := (st.transferMap.set p
                  { total := payload.optProp "totalChunks", received := 0,
                    fileName := fileNameOf data }).set p
                  { total := payload.optProp "totalChunks", received := 1,
                    fileName := fileNameOf data } }
              [Action.scheduleTransferCleanup p, Action.safeSend R (relayOfChunk data)])
              = 1 := by
            simp [relaysOf, Outcome.done, calls, hc1]
          rw [hrel, ← hget]
          simp
    | some t0 =>
      have hr0 : t0.received ≤ n := hJ t0 ht
      rw [FILE_CHUNK_ongoing st data payload p R t0 hp h1 h2 hd hR ht]
      split
      · rename_i heq
        refine ⟨fun _ => ⟨?_, ?_, t0.received + 1, by omega, ?_⟩, fun h => ?_⟩
        · simp [relaysOf, Outcome.done, calls, hc1, hc3]
        · exact JMap.get_delete_self _ _
        · exact strictEqNum_true heq
        · simp [completes, Outcome.done, calls, hc4] at h
      · refine ⟨fun h => ?_, fun _ t hget => ?_⟩
        · simp [completes, Outcome.done, calls, hc2] at h
        · simp only [Outcome.done, JMap.get_set_self, Option.some.injEq] at hget
          have hrel : relaysOf (Outcome.done
              { st with
                transferMap := st.transferMap.set p
                  { t0 with received := t0.received + 1 } }
              [Action.safeSend R (relayOfChunk data)]) = 1 := by
            simp [relaysOf, Outcome.done, calls, hc1]
          rw [hrel, ← hget]
          simp only
          omega

theorem chunkStep_hit (d : Prim) (st : State) (ws : Conn) (data : JVal) (env : Env)
    (status : Nat → Conn → ConnStatus)
    (hr : routed (some data) = some .FILE_CHUNK)
    (hdst : data.optProp "destination" = .prim d) :
    chunkStep d st (.message ws (some data) env status)
      = (relaysOf (FILE_CHUNK st data), completes (FILE_CHUNK st data)) := by
  simp [chunkStep, hr, hdst]

theorem chunkStep_miss (d : Prim) (st : State) (ws : Conn) (data : JVal) (env : Env)
    (status : Nat → Conn → ConnStatus)
    (h : ¬ (routed (some data) = some .FILE_CHUNK ∧ data.optProp "destination" = .prim d)) :
    chunkStep d st (.message ws (some data) env status) = (0, false) := by
  simp only [chunkStep]
  split
  · rename_i p hr hdst
    by_cases hp : p = d
    · exact absurd ⟨hr, by rw [hdst, hp]⟩ h
    · simp [hp]
  · rfl

theorem countedBy_unchanged {d : Prim} {n : Nat} {st st' : State}
    (h : st'.transferMap.get d = st.transferMap.get d) (hJ : CountedBy d n st) :
    CountedBy d n st' := by
  intro t ht
  rw [h] at ht
  exact hJ t ht

theorem step_counted (d : Prim) (s : Sys) (e : Event) (n : Nat) (hJ : CountedBy d n s.st) :
    CountedBy d (if (chunkStep d s.st e).2 then 0 else n + (chunkStep d s.st e).1)
      (Sys.step s e).st := by
  cases e with
  | message ws parsed env status =>
    have hst : (Sys.step s (.message ws parsed env status)).st
        = (onMessage env s.st ws parsed).st := by
      simp only [Sys.step]
      exact (perform_fields _ _).2.1
    rw [hst]
    cases parsed with
    | none =>
      have h0 : chunkStep d s.st (.message ws none env status) = (0, false) := rfl
      rw [h0]
      exact hJ
    | some data =>
      by_cases hit : routed (some data) = some .FILE_CHUNK ∧
          data.optProp "destination" = .prim d
      · rw [chunkStep_hit d s.st ws data env status hit.1 hit.2,
          onMessage_routed env s.st ws data .FILE_CHUNK hit.1]
        simp only [eventHandlers.call]
        obtain ⟨h1, h2⟩ := FILE_CHUNK_counts s.st data d n hit.2 hJ
        cases hc : completes (FILE_CHUNK s.st data) with
        | true =>
          intro t ht
          rw [(h1 hc).2.1] at ht
          exact absurd ht (by simp)
        | false =>
          simp only [Bool.false_eq_true, if_false]
          exact h2 hc
      · rw [chunkStep_miss d s.st ws data env status hit]
        simp only [Bool.false_eq_true, if_false, Nat.add_zero]
        refine countedBy_unchanged ?_ hJ
        cases hr : routed (some data) with
        | none => rw [(onMessage_unrouted env s.st ws (some data) hr).1]
        | some entry =>
          rw [onMessage_routed env s.st ws data entry hr]
          by_cases hf : entry = .FILE_CHUNK
          · subst hf
            have hne : data.optProp "destination" ≠ .prim d := fun hd => hit ⟨hr, hd⟩
            exact FILE_CHUNK_other s.st data d hne
          · rw [call_transferMap entry env s.st ws data hf]
  | close ws => exact hJ
  | timeout i status =>
    have h0 : chunkStep d s.st (.timeout i status) = (0, false) := rfl
    rw [h0]
    simp only [Bool.false_eq_true, if_false, Nat.add_zero]
    rcases step_state_cases s (.timeout i status) with hs | ⟨_, _, _, _, he, _⟩ |
        ⟨_, he, _⟩ | ⟨_, _, d', _, hs⟩ | ⟨he, _⟩
    · rw [hs]; exact hJ
    · exact absurd he (by simp)
    · exact absurd he (by simp)
    · rw [hs]
      intro t ht
      unfold transferCleanup at ht
      split at ht
      · by_cases hd : d = d'
        · rw [hd, JMap.get_delete_self] at ht
          exact absurd ht (by simp)
        · rw [JMap.get_delete_ne _ hd] at ht
          exact hJ t ht
      · exact hJ t ht
    · exact absurd he (by simp)
  | tick dt => exact hJ
  | visit => exact hJ

theorem run_counted (d : Prim) :
    ∀ (evs : List Event) (s : Sys) (n : Nat), CountedBy d n s.st →
      CountedBy d (relayedSince d s evs n) (Sys.run s evs).st := by
  intro evs
  induction evs with
  | nil => intro s n h; exact h
  | cons e rest ih =>
    intro s n h
    rw [run_cons]
    exact ih (Sys.step s e) _ (step_counted d s e n h)

theorem sends_runActions_idle (acts : List Action) (status : Nat → Conn → ConnStatus)
    (hidle : ∀ k ws, (status k ws).readyState = OPEN ∧ (status k ws).congested = false) :
    sends (runActions status acts) = calls acts := by
  induction acts generalizing status with
  | nil => simp [runActions, sends, calls]
  | cons a rest ih =>
    have hrest := ih (fun k => status (k + 1)) (fun k ws => hidle (k + 1) ws)
    cases a with
    | safeSend ws message =>
      simp [runActions, Action.run, safeSend, (hidle 0 ws).1, (hidle 0 ws).2, sends, calls,
        hrest]
    | scheduleTransferCleanup dst =>
      simp [runActions, Action.run, sends, calls, hrest]

theorem writtenStep_idle (d : Prim) (st : State) (e : Event) (h : idleFor d e) :
    writtenStep d st e = (chunkStep d st e).1 := by
  cases e with
  | message ws parsed env status =>
    cases parsed with
    | none => rfl
    | some data =>
      by_cases hit : routed (some data) = some .FILE_CHUNK ∧
          data.optProp "destination" = .prim d
      · rw [chunkStep_hit d st ws data env status hit.1 hit.2]
        have hidle := h hit.1 hit.2
        simp [writtenStep, hit.1, hit.2, relaysOf, sends_runActions_idle _ _ hidle]
      · rw [chunkStep_miss d st ws data env status hit]
        simp only [writtenStep]
        split
        · rename_i p hr hdst
          by_cases hp : p = d
          · exact absurd ⟨hr, by rw [hdst, hp]⟩ hit
          · simp [hp]
        · rfl
  | close ws => rfl
  | timeout i status => rfl
  | tick dt => rfl
  | visit => rfl

theorem writtenSince_idle (d : Prim) :
    ∀ (evs : List Event) (s : Sys) (n : Nat), (∀ e ∈ evs, idleFor d e) →
      writtenSince d s evs n = relayedSince d s evs n := by
  intro evs
  induction evs with
  | nil => intro s n _; rfl
  | cons e rest ih =>
    intro s n h
    simp only [writtenSince, relayedSince]
    rw [writtenStep_idle d s.st e (h e (List.mem_cons_self _ _))]
    exact ih _ _ (fun x hx => h x (List.mem_cons_of_mem _ hx))

theorem FILE_CHUNK_completes (st : State) (data : JVal) (d : Prim)
    (hdst : data.optProp "destination" = .prim d)
    (hc : completes (FILE_CHUNK st data) = true) :
    ∃ R, st.originCodeMap.get d = some R ∧
      calls (FILE_CHUNK st data).acts
        = [(R, relayOfChunk data), (R, fileCompleteMessage (fileNameOf data))] := by
  have hc2 : ∀ data : JVal, hasEvent "FILE_COMPLETE" (relayOfChunk data) = false := fun _ => rfl
  rcases FILE_CHUNK_cases st data with hdrop | ⟨payload, p, R, hp, h1, h2, hd, hR⟩
  · rw [completes, hdrop.2] at hc
    simp [calls] at hc
  · have hpd : p = d := by
      have := optProp_of_prop hd
      rw [hdst] at this
      exact (JVal.prim.inj this).symm
    subst hpd
    refine ⟨R, hR, ?_⟩
    cases ht : st.transferMap.get p with
    | none =>
      rw [FILE_CHUNK_fresh st data payload p R hp h1 h2 hd hR ht] at hc ⊢
      split at hc
      · rename_i heq
        simp [heq, Outcome.done, calls]
      · simp [completes, Outcome.done, calls, hc2] at hc
    | some t =>
      rw [FILE_CHUNK_ongoing st data payload p R t hp h1 h2 hd hR ht] at hc ⊢
      split at hc
      · rename_i heq
        simp [heq, Outcome.done, calls]
      · simp [completes, Outcome.done, calls, hc2] at hc

/-- C11 as stated fails, in two ways. In `mixedRun` the handler sends
`FILE_COMPLETE` naming "b.txt" to the connection behind "b7" although a
single `FILE_CHUNK` naming "b.txt" has been relayed and that chunk declares
five: the count is kept per destination and measured against the two chunks
that the first chunk, of "a.txt", declared. In `deferRun` both chunks of
"a.txt" are handed to `safeSend`, but the first finds the buffer above the
mark and is put off to a timer, so that `FILE_COMPLETE` is written when a
single `FILE_CHUNK` has been written for two declared. -/
theorem complete_names_unfinished_file :
    (Sys.run Sys.init mixedRun).sent
      = [(5, requestFailedMessage),
         (5, relayOfChunk (chunkFor "b7" 0 2 "a.txt")),
         (5, relayOfChunk (chunkFor "b7" 0 5 "b.txt")),
         (5, fileCompleteMessage (.ofString "b.txt"))] ∧
    chunkStep (.str "b7") (Sys.run Sys.init mixedStart).st mixedLast = (1, true) ∧
    ((Sys.run Sys.init mixedRun).sent.filter
      (fun c => hasEvent "FILE_CHUNK" c.2 && namesFile "b.txt" c.2)).length = 1 ∧
    ((chunkFor "b7" 0 5 "b.txt").optProp "data").optProp "totalChunks" = .ofNat 5 ∧
    ¬ (5 ≤ ((Sys.run Sys.init mixedRun).sent.filter
      (fun c => hasEvent "FILE_CHUNK" c.2 && namesFile "b.txt" c.2)).length) ∧
    (Sys.run Sys.init deferRun).sent
      = [(5, requestFailedMessage),
         (5, relayOfChunk (chunkFor "b7" 1 2 "a.txt")),
         (5, fileCompleteMessage (.ofString "a.txt"))] ∧
    ((chunkFor "b7" 1 2 "a.txt").optProp "data").optProp "totalChunks" = .ofNat 2 ∧
    ((Sys.run Sys.init deferRun).sent.filter
      (fun c => hasEvent "FILE_CHUNK" c.2)).length = 1 ∧
    (Sys.run Sys.init deferRun).timers.length = 2 :=
  ⟨rfl, rfl, rfl, rfl, by decide, rfl, rfl, rfl, rfl⟩

/-- C11, amended: in every run from the start state, whenever the handling of
an event makes the `FILE_CHUNK` handler send `FILE_COMPLETE` for destination
`d`, the event is a message, `d` resolves to a connection `R`, the total in
force for `d` (the `total` of its TransferState, taken from the chunk that
created it) is a number `T`, and the `FILE_CHUNK` messages handed to
`safeSend` for `d` since the previous `FILE_COMPLETE` for `d` or since the
start, the one at hand included and whatever file each names, are at least
`T`; the TransferState is gone afterwards. The `safeSend` calls of the
handling are exactly two, both to `R`: the `FILE_CHUNK` relay of the message
at hand, then `{event: "FILE_COMPLETE", data: {fileName}}` with the
`fileName` of the message at hand. If every connection was open and below
the buffer mark whenever a chunk for `d` was handled, as many `FILE_CHUNK`
messages have been written at once, and the two messages at hand are
appended to the messages written so far. -/
theorem complete_after_total (d : Prim) (pre : List Event) (e : Event)
    (hc : (chunkStep d (Sys.run Sys.init pre).st e).2 = true) :
    ∃ (T : Nat) (R ws : Conn) (data : JVal) (env : Env) (status : Nat → Conn → ConnStatus),
      e = .message ws (some data) env status ∧
      (Sys.run Sys.init pre).st.originCodeMap.get d = some R ∧
      totalInForce d (Sys.run Sys.init pre).st e = .ofNat T ∧
      T ≤ relayedSince d Sys.init pre 0 + (chunkStep d (Sys.run Sys.init pre).st e).1 ∧
      (Sys.step (Sys.run Sys.init pre) e).st.transferMap.get d = none ∧
      calls (onMessage env (Sys.run Sys.init pre).st ws (some data)).acts
        = [(R, JVal.obj [("event", JVal.prim (Prim.str "FILE_CHUNK")),
              ("data", JVal.obj [("chunk", (data.optProp "data").optProp "chunk"),
                ("chunkIndex", (data.optProp "data").optProp "chunkIndex"),
                ("totalChunks", (data.optProp "data").optProp "totalChunks"),
                ("fileName", (data.optProp "data").optProp "fileName")])]),
           (R, JVal.obj [("event", JVal.prim (Prim.str "FILE_COMPLETE")),
              ("data", JVal.obj
                [("fileName", (data.optProp "data").optProp "fileName")])])] ∧
      ((∀ x ∈ pre, idleFor d x) → idleFor d e →
        T ≤ writtenSince d Sys.init pre 0 + writtenStep d (Sys.run Sys.init pre).st e ∧
        (Sys.step (Sys.run Sys.init pre) e).sent
          = (Sys.run Sys.init pre).sent ++
            [(R, JVal.obj [("event", JVal.prim (Prim.str "FILE_CHUNK")),
                ("data", JVal.obj [("chunk", (data.optProp "data").optProp "chunk"),
                  ("chunkIndex", (data.optProp "data").optProp "chunkIndex"),
                  ("totalChunks", (data.optProp "data").optProp "totalChunks"),
                  ("fileName", (data.optProp "data").optProp "fileName")])]),
             (R, JVal.obj [("event", JVal.prim (Prim.str "FILE_COMPLETE")),
                ("data", JVal.obj
                  [("fileName", (data.optProp "data").optProp "fileName")])])]) := by
  have hJ : CountedBy d (relayedSince d Sys.init pre 0) (Sys.run Sys.init pre).st :=
    run_counted d pre Sys.init 0 (by intro t ht; simp [Sys.init, State.init, JMap.empty,
      JMap.get, JMap.getList] at ht)
  cases e with
  | message ws parsed env status =>
    cases parsed with
    | none => exact absurd hc (by simp [chunkStep])
    | some data =>
      by_cases hit : routed (some data) = some .FILE_CHUNK ∧
          data.optProp "destination" = .prim d
      · have hstep := chunkStep_hit d (Sys.run Sys.init pre).st ws data env status hit.1 hit.2
        rw [hstep] at hc
        simp only at hc
        obtain ⟨hrel, hgone, T, hT, htotal⟩ :=
          (FILE_CHUNK_counts (Sys.run Sys.init pre).st data d _ hit.2 hJ).1 hc
        obtain ⟨R, hR, hcalls⟩ := FILE_CHUNK_completes (Sys.run Sys.init pre).st data d hit.2 hc
        have hon : onMessage env (Sys.run Sys.init pre).st ws (some data)
            = FILE_CHUNK (Sys.run Sys.init pre).st data :=
          onMessage_routed env _ ws data .FILE_CHUNK hit.1
        have hst : (Sys.step (Sys.run Sys.init pre) (.message ws (some data) env status)).st
            = (onMessage env (Sys.run Sys.init pre).st ws (some data)).st := by
          simp only [Sys.step]
          exact (perform_fields _ _).2.1
        have hsent : (Sys.step (Sys.run Sys.init pre) (.message ws (some data) env status)).sent
            = (Sys.run Sys.init pre).sent ++ sends (runActions status
                (onMessage env (Sys.run Sys.init pre).st ws (some data)).acts) := by
          simp only [Sys.step]
          exact (perform_fields _ _).1
        have hcount : T ≤ relayedSince d Sys.init pre 0
            + (chunkStep d (Sys.run Sys.init pre).st (.message ws (some data) env status)).1 := by
          rw [hstep]
          simp only [hrel]
          omega
        refine ⟨T, R, ws, data, env, status, rfl, hR, htotal, hcount, ?_, ?_, ?_⟩
        · rw [hst, hon]
          exact hgone
        · rw [hon, hcalls]
          rfl
        · intro hpre hidle
          refine ⟨?_, ?_⟩
          · rw [writtenSince_idle d pre Sys.init 0 hpre,
              writtenStep_idle d _ _ hidle]
            exact hcount
          · rw [hsent, hon, sends_runActions_idle _ _ (hidle hit.1 hit.2), hcalls]
            rfl
      · rw [chunkStep_miss d _ ws data env status hit] at hc
        exact absurd hc (by simp)
  | close ws => exact absurd hc (by simp [chunkStep])
  | timeout i status => exact absurd hc (by simp [chunkStep])
  | tick dt => exact absurd hc (by simp [chunkStep])
  | visit => exact absurd hc (by simp [chunkStep])

/-- Witness for C11, amended: the completion sent in `mixedRun` comes with
two chunks handed over for "b7", the total its TransferState took from the
first chunk, and it names "b.txt", the file of the chunk at hand. -/
theorem complete_after_total_witness :
    (chunkStep (.str "b7") (Sys.run Sys.init mixedStart).st mixedLast).2 = true ∧
    ∃ (T : Nat) (R ws : Conn) (data : JVal) (env : Env) (status : Nat → Conn → ConnStatus),
      mixedLast = .message ws (some data) env status ∧
      (Sys.run Sys.init mixedStart).st.originCodeMap.get (.str "b7") = some R ∧
      totalInForce (.str "b7") (Sys.run Sys.init mixedStart).st mixedLast = .ofNat T ∧
      T ≤ relayedSince (.str "b7") Sys.init mixedStart 0
            + (chunkStep (.str "b7") (Sys.run Sys.init mixedStart).st mixedLast).1 ∧
      (Sys.step (Sys.run Sys.init mixedStart) mixedLast).st.transferMap.get (.str "b7")
        = none ∧
      calls (onMessage env (Sys.run Sys.init mixedStart).st ws (some data)).acts
        = [(R, JVal.obj [("event", JVal.prim (Prim.str "FILE_CHUNK")),
              ("data", JVal.obj [("chunk", (data.optProp "data").optProp "chunk"),
                ("chunkIndex", (data.optProp "data").optProp "chunkIndex"),
                ("totalChunks", (data.optProp "data").optProp "totalChunks"),
                ("fileName", (data.optProp "data").optProp "fileName")])]),
           (R, JVal.obj [("event", JVal.prim (Prim.str "FILE_COMPLETE")),
              ("data", JVal.obj
                [("fileName", (data.optProp "data").optProp "fileName")])])] ∧
      ((∀ x ∈ mixedStart, idleFor (.str "b7") x) → idleFor (.str "b7") mixedLast →
        T ≤ writtenSince (.str "b7") Sys.init mixedStart 0
              + writtenStep (.str "b7") (Sys.run Sys.init mixedStart).st mixedLast ∧
        (Sys.step (Sys.run Sys.init mixedStart) mixedLast).sent
          = (Sys.run Sys.init mixedStart).sent ++
            [(R, JVal.obj [("event", JVal.prim (Prim.str "FILE_CHUNK")),
                ("data", JVal.obj [("chunk", (data.optProp "data").optProp "chunk"),
                  ("chunkIndex", (data.optProp "data").optProp "chunkIndex"),
                  ("totalChunks", (data.optProp "data").optProp "totalChunks"),
                  ("fileName", (data.optProp "data").optProp "fileName")])]),
             (R, JVal.obj [("event", JVal.prim (Prim.str "FILE_COMPLETE")),
                ("data", JVal.obj
                  [("fileName", (data.optProp "data").optProp "fileName")])])]) :=
  ⟨rfl, complete_after_total (.str "b7") mixedStart mixedLast rfl⟩

end ShareNova
